import Mathlib

/-!
# NanoBoyAdvance: bus and timing core

A shallow embedding of `source/core/cpu.cpp` and `source/core/memory/memory.inl`.

Conventions of the embedding.

* Machine integers are natural numbers (unsigned) or integers (`int`), with an explicit
  `% 2 ^ 32`, `% 2 ^ 16`, `% 256` wherever the C++ truncates to a narrower unsigned type.
* A memory buffer is a total map from byte offset to byte value.  Offsets past the declared
  size of a C++ array stand for out-of-bounds accesses of the original program.
* The CPU object is one record `CPU`; a member function that mutates the object becomes a
  function returning the new record, and a member function that also returns a value
  returns a pair `(value, new record)`.
* Collaborators whose code is not part of the sources under study (timer, DMA, MMIO register
  file, backup chip, ARM pipeline) appear as record fields holding what the bus code reads
  from them, and as logs of what the bus code hands to them.
-/

namespace NanoBoyAdvance

/-! ## Data model -/

/-- The access kind `Access` of the ARM bus protocol; used as first index of the cycle tables. -/
inductive Access where
  | Nonsequential
  | Sequential
deriving DecidableEq, Repr

/-- The register `mmio.waitcnt`: two-bit fields index `s_ws_nseq`, one-bit fields index the
sequential tables. -/
structure WaitstateControl where
  sram : Fin 4
  ws0_n : Fin 4
  ws0_s : Fin 2
  ws1_n : Fin 4
  ws1_s : Fin 2
  ws2_n : Fin 4
  ws2_s : Fin 2
  phi : Fin 4
  prefetch : Bool
  cgb : Bool

/-- The record `prefetch` of the CPU class: the cartridge prefetch ring. -/
structure PrefetchBuffer where
  active : Bool
  countdown : Int
  rd_pos : Nat
  wr_pos : Nat
  count : Nat
  last_address : Nat
  address : Nat → Nat

/-- Kinds of cartridge backup chips. -/
inductive BackupKind where
  | SRAM
  | Flash64
  | Flash128
  | EEPROM512
  | EEPROM8K
deriving DecidableEq, Repr

/-- Modelled from the spec: the class behind `memory.rom.backup` is not among the sources.  The
spec treats it as a byte-addressable backend with `read(addr)`, `write(addr, val)` and a kind;
here it is a kind and a byte store indexed by the address handed to it. -/
structure Backup where
  kind : BackupKind
  store : Nat → Nat

/-- Modelled from the spec: `Backup::Read(address)`, an 8-bit value. -/
def Backup.Read (b : Backup) (address : Nat) : Nat := b.store address % 256

/-- Modelled from the spec: `Backup::Write(address, value)`; the value parameter is 8 bits wide. -/
def Backup.Write (b : Backup) (address value : Nat) : Backup :=
  { b with store := fun i => if i = address then value % 256 else b.store i }

/-- The record `memory.rom`. -/
structure ROM where
  data : Nat → Nat
  size : Nat
  mask : Nat
  backup : Option Backup

/-- The record `memory`. -/
structure Memory where
  bios : Nat → Nat
  wram : Nat → Nat
  iram : Nat → Nat
  pram : Nat → Nat
  oam : Nat → Nat
  vram : Nat → Nat
  rom : ROM
  bios_opcode : Nat

/-- The values of `mmio.haltcnt`. -/
inductive HaltControl where
  | RUN
  | STOP
  | HALT
deriving DecidableEq, Repr

/-- The part of the `CPU` object the bus and timing code reads or writes.

* `r15`, `thumb`: `state.r15` and `state.cpsr.f.thumb`.
* `pipe_opcode n`: what `GetPrefetchedOpcode(n)` returns (the ARM pipeline is not among the
  sources).
* `dma_running`: what `dma.IsRunning()` returns.
* `timer_log`: the arguments of the calls `timer.Run(cycles)`, oldest first.
* `io_in a`: what the register read at MMIO address `a` returns; `io_log`: the
  `(address, value)` pairs of the register writes, oldest first.
* `irq_ie`, `irq_if`, `irq_ime`, `keyinput`, `haltcnt`, `rcnt_hack`: the fields of `mmio` of the
  same names.
* `ticks_to_event`: the member of the same name, the cached distance to the next event. -/
structure CPU where
  r15 : Nat
  thumb : Bool
  pipe_opcode : Nat → Nat
  memory : Memory
  waitcnt : WaitstateControl
  cycles16 : Access → Nat → Int
  cycles32 : Access → Nat → Int
  prefetch : PrefetchBuffer
  last_rom_address : Nat
  ticks_cpu_left : Int
  dma_running : Bool
  timer_log : List Int
  io_in : Nat → Nat
  io_log : List (Nat × Nat)
  irq_ie : Nat
  irq_if : Nat
  irq_ime : Nat
  keyinput : Nat
  haltcnt : HaltControl
  rcnt_hack : Nat
  ticks_to_event : Int

/-! ## Raw buffer access

`Read<T>(buffer, address)` and `Write<T>(buffer, address, value)` are declared in a header;
their meaning is the one of the macros `READ_FAST_n` / `WRITE_FAST_n` of `src/core/memory.cpp`:
a little-endian access of `sizeof(T)` bytes starting at byte `address`. -/

/-- The call `Read<std::uint8_t>(buffer, address)`, as the macro `READ_FAST_8`. -/
def Read8 (buffer : Nat → Nat) (address : Nat) : Nat := buffer address % 256

/-- The call `Read<std::uint16_t>(buffer, address)`, as the macro `READ_FAST_16`. -/
def Read16 (buffer : Nat → Nat) (address : Nat) : Nat :=
  Read8 buffer address + 256 * Read8 buffer (address + 1)

/-- The call `Read<std::uint32_t>(buffer, address)`, as the macro `READ_FAST_32`. -/
def Read32 (buffer : Nat → Nat) (address : Nat) : Nat :=
  Read16 buffer address + 65536 * Read16 buffer (address + 2)

/-- The call `Write<std::uint8_t>(buffer, address, value)`, as the macro `WRITE_FAST_8`. -/
def Write8 (buffer : Nat → Nat) (address value : Nat) : Nat → Nat :=
  fun i => if i = address then value % 256 else buffer i

/-- The call `Write<std::uint16_t>(buffer, address, value)`, as the macro `WRITE_FAST_16`. -/
def Write16 (buffer : Nat → Nat) (address value : Nat) : Nat → Nat :=
  Write8 (Write8 buffer address value) (address + 1) (value / 256)

/-- The call `Write<std::uint32_t>(buffer, address, value)`, as the macro `WRITE_FAST_32`. -/
def Write32 (buffer : Nat → Nat) (address value : Nat) : Nat → Nat :=
  Write16 (Write16 buffer address value) (address + 2) (value / 65536)

/-! ## Wait-state tables (`cpu.cpp`) -/

/-- Modelled from the spec: the constant `s_ws_nseq[4]` (declared in the header), `{4, 3, 2, 8}`. -/
def s_ws_nseq (i : Fin 4) : Int :=
  match i with
  | 0 => 4
  | 1 => 3
  | 2 => 2
  | 3 => 8

/-- Modelled from the spec: the constant `s_ws_seq0[2]`, `{2, 1}`. -/
def s_ws_seq0 (i : Fin 2) : Int :=
  match i with
  | 0 => 2
  | 1 => 1

/-- Modelled from the spec: the constant `s_ws_seq1[2]`, `{4, 1}`. -/
def s_ws_seq1 (i : Fin 2) : Int :=
  match i with
  | 0 => 4
  | 1 => 1

/-- Modelled from the spec: the constant `s_ws_seq2[2]`, `{8, 1}`. -/
def s_ws_seq2 (i : Fin 2) : Int :=
  match i with
  | 0 => 8
  | 1 => 1

/-- The assignment `row[region] = value` to one row of a cycle table. -/
def setRow (row : Nat → Int) (region : Nat) (value : Int) : Nat → Int :=
  fun r => if r = region then value else row r

/-- The function `CPU::UpdateCycleLUT`: the thirty-odd assignments in source order, each one
reading the rows as left by the assignments before it. -/
def UpdateCycleLUT (s : CPU) : CPU :=
  let cycles16_n := s.cycles16 Access.Nonsequential
  let cycles16_s := s.cycles16 Access.Sequential
  let cycles32_n := s.cycles32 Access.Nonsequential
  let cycles32_s := s.cycles32 Access.Sequential
  let sram_cycles : Int := 1 + s_ws_nseq s.waitcnt.sram
  let cycles16_n := setRow cycles16_n 0xE sram_cycles
  let cycles32_n := setRow cycles32_n 0xE sram_cycles
  let cycles16_s := setRow cycles16_s 0xE sram_cycles
  let cycles32_s := setRow cycles32_s 0xE sram_cycles
  -- ROM: WS0/WS1/WS2 non-sequential timing.
  let cycles16_n := setRow cycles16_n 0x8 (1 + s_ws_nseq s.waitcnt.ws0_n)
  let cycles16_n := setRow cycles16_n 0xA (1 + s_ws_nseq s.waitcnt.ws1_n)
  let cycles16_n := setRow cycles16_n 0xC (1 + s_ws_nseq s.waitcnt.ws2_n)
  let cycles16_n := setRow cycles16_n 0x9 (cycles16_n 0x8)
  let cycles16_n := setRow cycles16_n 0xB (cycles16_n 0xA)
  let cycles16_n := setRow cycles16_n 0xD (cycles16_n 0xC)
  -- ROM: WS0/WS1/WS2 sequential timing.
  let cycles16_s := setRow cycles16_s 0x8 (1 + s_ws_seq0 s.waitcnt.ws0_s)
  let cycles16_s := setRow cycles16_s 0xA (1 + s_ws_seq1 s.waitcnt.ws1_s)
  let cycles16_s := setRow cycles16_s 0xC (1 + s_ws_seq2 s.waitcnt.ws2_s)
  let cycles16_s := setRow cycles16_s 0x9 (cycles16_s 0x8)
  let cycles16_s := setRow cycles16_s 0xB (cycles16_s 0xA)
  let cycles16_s := setRow cycles16_s 0xD (cycles16_s 0xC)
  -- ROM: 32-bit non-sequential access: 1N access, 1S access.
  let cycles32_n := setRow cycles32_n 0x8 (cycles16_n 0x8 + cycles16_s 0x8)
  let cycles32_n := setRow cycles32_n 0xA (cycles16_n 0xA + cycles16_s 0xA)
  let cycles32_n := setRow cycles32_n 0xC (cycles16_n 0xC + cycles16_s 0xC)
  let cycles32_n := setRow cycles32_n 0x9 (cycles32_n 0x8)
  let cycles32_n := setRow cycles32_n 0xB (cycles32_n 0xA)
  let cycles32_n := setRow cycles32_n 0xD (cycles32_n 0xC)
  -- ROM: 32-bit sequential access: 2S accesses.
  let cycles32_s := setRow cycles32_s 0x8 (cycles16_s 0x8 * 2)
  let cycles32_s := setRow cycles32_s 0xA (cycles16_s 0xA * 2)
  let cycles32_s := setRow cycles32_s 0xC (cycles16_s 0xC * 2)
  let cycles32_s := setRow cycles32_s 0x9 (cycles32_s 0x8)
  let cycles32_s := setRow cycles32_s 0xB (cycles32_s 0xA)
  let cycles32_s := setRow cycles32_s 0xD (cycles32_s 0xC)
  { s with
    cycles16 := fun a =>
      match a with
      | Access.Nonsequential => cycles16_n
      | Access.Sequential => cycles16_s
    cycles32 := fun a =>
      match a with
      | Access.Nonsequential => cycles32_n
      | Access.Sequential => cycles32_s }

/-! ## Timing (`cpu.cpp`) -/

/-- The function `CPU::Tick`.  The call `timer.Run(cycles)` is recorded in `timer_log`. -/
def Tick (s : CPU) (cycles : Int) : CPU :=
  let s := { s with timer_log := s.timer_log ++ [cycles],
                    ticks_cpu_left := s.ticks_cpu_left - cycles }
  if s.prefetch.active then
    let countdown := s.prefetch.countdown - cycles
    if countdown ≤ 0 then
      { s with prefetch := { s.prefetch with
          countdown := countdown
          count := s.prefetch.count + 1
          wr_pos := (s.prefetch.wr_pos + 1) % 8
          active := false } }
    else
      { s with prefetch := { s.prefetch with countdown := countdown } }
  else
    s

/-- Modelled from the spec: `IsROMAddress` is declared in the header; the spec's region table
gives the cartridge ROM the region codes 0x8 to 0xD. -/
def IsROMAddress (address : Nat) : Bool :=
  decide (8 ≤ address >>> 24) && decide (address >>> 24 ≤ 13)

/-- The first branch statement of `CPU::PrefetchStep`, without its early return: an active
fetch is cancelled by an access to ROM; with no active fetch a new one is started when the
buffer has room, the program counter is in ROM, the access is not, and the program counter is
the last ROM address accessed. -/
def PrefetchStep.arbitrate (s : CPU) (address : Nat) : CPU :=
  let thumb := s.thumb
  let capacity := if thumb then 8 else 4
  if s.prefetch.active then
    if IsROMAddress address then
      { s with prefetch := { s.prefetch with active := false } }
    else s
  else if decide (s.prefetch.count < capacity) && IsROMAddress s.r15 &&
          !IsROMAddress address && s.r15 == s.last_rom_address then
    let next_address := if s.prefetch.count > 0 then s.prefetch.last_address else s.r15
    let next_address := (next_address + (if thumb then 2 else 4)) % 2 ^ 32
    { s with prefetch := { s.prefetch with
        last_address := next_address
        active := true
        address := fun i => if i = s.prefetch.wr_pos then next_address else s.prefetch.address i
        countdown := (if thumb then s.cycles16 else s.cycles32) Access.Sequential
                       (next_address >>> 24) } }
  else s

/-- The statement `if (IsROMAddress(address)) last_rom_address = address;`. -/
def PrefetchStep.track (s : CPU) (address : Nat) : CPU :=
  if IsROMAddress address then { s with last_rom_address := address } else s

/-- The tail of `CPU::PrefetchStep`: an access at the program counter with a non-empty buffer
either consumes the head slot for one cycle or flushes the buffer; then `Tick(cycles)`. -/
def PrefetchStep.consume (s : CPU) (address : Nat) (cycles : Int) : CPU :=
  if decide (s.prefetch.count > 0) && address == s.r15 then
    if address == s.prefetch.address s.prefetch.rd_pos then
      Tick { s with prefetch := { s.prefetch with
               count := s.prefetch.count - 1
               rd_pos := (s.prefetch.rd_pos + 1) % 8 } } 1
    else
      Tick { s with prefetch := { s.prefetch with
               active := false, count := 0, rd_pos := 0, wr_pos := 0 } } cycles
  else
    Tick s cycles

/-- The function `CPU::PrefetchStep`: the hit on the active fetch returns early; otherwise the
three statements that follow run in order. -/
def PrefetchStep (s : CPU) (address : Nat) (cycles : Int) : CPU :=
  if s.prefetch.active && address == s.prefetch.address s.prefetch.wr_pos then
    -- If prefetching the desired opcode just complete.
    let count := s.prefetch.count
    let wr_pos := s.prefetch.wr_pos
    let s := Tick s s.prefetch.countdown
    { s with prefetch := { s.prefetch with count := count, wr_pos := wr_pos },
             last_rom_address := address }
  else
    PrefetchStep.consume (PrefetchStep.track (PrefetchStep.arbitrate s address) address)
      address cycles

/-- The function `CPU::Idle`. -/
def Idle (s : CPU) : CPU :=
  if s.waitcnt.prefetch then PrefetchStep s 0 1 else Tick s 1

/-- The statement opening each of the six bus operations:
`if (mmio.waitcnt.prefetch) PrefetchStep(address, cycles); else Tick(cycles);`. -/
def accessTiming (s : CPU) (address : Nat) (cycles : Int) : CPU :=
  if s.waitcnt.prefetch then PrefetchStep s address cycles else Tick s cycles

/-! ## Collaborators of the bus -/

/-- Modelled from the spec: `GetPrefetchedOpcode` belongs to the ARM core, which is not among
the sources; the spec has it return the opcode in pipeline slot `n`, here the 32-bit word
`pipe_opcode n`. -/
def GetPrefetchedOpcode (s : CPU) (n : Nat) : Nat := s.pipe_opcode n % 2 ^ 32

/-- Modelled from the spec: `HasEEPROMBackup` is declared in the header; the cartridge declares
an EEPROM when its backup chip is of one of the two EEPROM kinds. -/
def HasEEPROMBackup (s : CPU) : Bool :=
  match s.memory.rom.backup with
  | some b => b.kind == BackupKind.EEPROM512 || b.kind == BackupKind.EEPROM8K
  | none => false

/-- Modelled from the spec: `IsEEPROMAddress` is declared in the header.  The spec: an access
targets EEPROM if the cart declares EEPROM and either the ROM is at most 16 MiB and address
bit 24 is set, or the ROM is larger and `(addr & 0x01FFFF00) == 0x01FFFF00`. -/
def IsEEPROMAddress (s : CPU) (address : Nat) : Bool :=
  HasEEPROMBackup s &&
    ((decide (s.memory.rom.size ≤ 0x1000000) && decide (address &&& 0x01000000 ≠ 0)) ||
     (decide (s.memory.rom.size > 0x1000000) && decide (address &&& 0x01FFFF00 = 0x01FFFF00)))

/-- The expression `memory.rom.backup->Read(address)`; a null pointer reads as 0. -/
def backupRead (s : CPU) (address : Nat) : Nat :=
  match s.memory.rom.backup with
  | some b => b.Read address
  | none => 0

/-- The statement `memory.rom.backup->Write(address, value)`; nothing happens on a null pointer. -/
def backupWrite (s : CPU) (address value : Nat) : CPU :=
  { s with memory := { s.memory with rom := { s.memory.rom with
      backup := s.memory.rom.backup.map (fun b => b.Write address value) } } }

/-- Modelled from the spec: the register read `ReadMMIO(address)`; the register file is not
among the sources, the spec leaves its contents per register, and the read returns the 8-bit
value supplied by `io_in` without touching the clock. -/
def ReadMMIO (s : CPU) (address : Nat) : Nat := s.io_in address % 256

/-- Modelled from the spec: the register write `WriteMMIO(address, value)`; the register file
is not among the sources, and the write is appended to `io_log` without touching the clock. -/
def WriteMMIO (s : CPU) (address value : Nat) : CPU :=
  { s with io_log := s.io_log ++ [(address, value)] }

/-- The folding of a VRAM address:
`address &= 0x1FFFF; if (address >= 0x18000) address &= ~0x8000;`. -/
def vramOffset (address : Nat) : Nat :=
  let address := address &&& 0x1FFFF
  if address ≥ 0x18000 then address &&& 0xFFFF7FFF else address

/-! ## Reads (`memory.inl`) -/

/-- The function `CPU::ReadUnused`: the open-bus value, a 32-bit word. -/
def ReadUnused (s : CPU) (address : Nat) : Nat :=
  let result :=
    if s.thumb then
      let r15 := s.r15
      match r15 >>> 24 with
      | 2 | 5 | 6 | 8 | 9 | 10 | 11 | 12 | 13 =>
        (GetPrefetchedOpcode s 1 * 0x00010001) % 2 ^ 32
      | 0 | 7 =>
        if r15 &&& 3 ≠ 0 then
          GetPrefetchedOpcode s 0 ||| ((GetPrefetchedOpcode s 1 <<< 16) % 2 ^ 32)
        else
          (GetPrefetchedOpcode s 1 * 0x00010001) % 2 ^ 32
      | 3 =>
        if r15 &&& 3 ≠ 0 then
          GetPrefetchedOpcode s 0 ||| ((GetPrefetchedOpcode s 1 <<< 16) % 2 ^ 32)
        else
          GetPrefetchedOpcode s 1 ||| ((GetPrefetchedOpcode s 0 <<< 16) % 2 ^ 32)
      | _ => 0
    else
      GetPrefetchedOpcode s 1
  result >>> ((address &&& 3) * 8)

/-- The function `CPU::ReadBIOS`: a 32-bit word and the state with the updated latch. -/
def ReadBIOS (s : CPU) (address : Nat) : Nat × CPU :=
  let shift := (address &&& 3) * 8
  let address := address &&& 0xFFFFFFFC
  if address ≥ 0x4000 then
    (ReadUnused s address >>> shift, s)
  else if s.r15 ≥ 0x4000 then
    (s.memory.bios_opcode >>> shift, s)
  else
    let s := { s with memory := { s.memory with bios_opcode := Read32 s.memory.bios address } }
    (s.memory.bios_opcode >>> shift, s)

/-- The function `CPU::ReadByte`; the result is truncated to 8 bits. -/
def ReadByte (s : CPU) (address : Nat) (access : Access) : Nat × CPU :=
  let page := address >>> 24
  let cycles := s.cycles16 access page
  let s := accessTiming s address cycles
  match page with
  | 0 =>
    let r := ReadBIOS s address
    (r.1 % 256, r.2)
  | 2 => (Read8 s.memory.wram (address &&& 0x3FFFF), s)
  | 3 => (Read8 s.memory.iram (address &&& 0x7FFF), s)
  | 4 => ( ReadMMIO s address, s)
  | 5 => (Read8 s.memory.pram (address &&& 0x3FF), s)
  | 6 => (Read8 s.memory.vram (vramOffset address), s)
  | 7 => (Read8 s.memory.oam (address &&& 0x3FF), s)
  | 8 | 9 | 10 | 11 | 12 | 13 =>
    let address := address &&& s.memory.rom.mask
    let s :=
      if address &&& 0x1FFFF = 0 then
        Tick s (s.cycles16 Access.Nonsequential page - s.cycles16 access page)
      else s
    if address ≥ s.memory.rom.size then
      ((address / 2) % 256, s)
    else
      (Read8 s.memory.rom.data address, s)
  | 14 | 15 =>
    let address := address &&& 0x0EFFFFFF
    if s.memory.rom.backup.isNone || HasEEPROMBackup s then
      (0, s)
    else
      (backupRead s address, s)
  | _ => (ReadUnused s address % 256, s)

/-- The case body of `CPU::ReadHalf` under the labels `REGION_ROM_W0_L` to `REGION_ROM_W2_L`,
also reached by fall-through from `REGION_ROM_W2_H`. -/
def ReadHalfROM (s : CPU) (address : Nat) (access : Access) (page : Nat) : Nat × CPU :=
  let address := address &&& s.memory.rom.mask
  let s :=
    if address &&& 0x1FFFF = 0 then
      Tick s (s.cycles16 Access.Nonsequential page - s.cycles16 access page)
    else s
  if address ≥ s.memory.rom.size then
    ((address / 2) % 65536, s)
  else
    (Read16 s.memory.rom.data address, s)

/-- The function `CPU::ReadHalf`; the result is truncated to 16 bits. -/
def ReadHalf (s : CPU) (address : Nat) (access : Access) : Nat × CPU :=
  let page := address >>> 24
  let cycles := s.cycles16 access page
  let s := accessTiming s address cycles
  match page with
  | 0 =>
    let r := ReadBIOS s address
    (r.1 % 65536, r.2)
  | 2 => (Read16 s.memory.wram (address &&& 0x3FFFF), s)
  | 3 => (Read16 s.memory.iram (address &&& 0x7FFF), s)
  | 4 => ( ReadMMIO s (address + 0) ||| ( ReadMMIO s (address + 1) <<< 8), s)
  | 5 => (Read16 s.memory.pram (address &&& 0x3FF), s)
  | 6 => (Read16 s.memory.vram (vramOffset address), s)
  | 7 => (Read16 s.memory.oam (address &&& 0x3FF), s)
  | 13 =>
    -- 0x0DXXXXXX may be used to read/write from EEPROM
    if IsEEPROMAddress s address then
      if !s.dma_running then (1, s) else (backupRead s address, s)
    else
      ReadHalfROM s address access page
  | 8 | 9 | 10 | 11 | 12 => ReadHalfROM s address access page
  | 14 | 15 =>
    let address := address &&& 0x0EFFFFFF
    if s.memory.rom.backup.isNone || HasEEPROMBackup s then
      (0, s)
    else
      ((backupRead s address * 0x0101) % 65536, s)
  | _ => (ReadUnused s address % 65536, s)

/-- The function `CPU::ReadWord`. -/
def ReadWord (s : CPU) (address : Nat) (access : Access) : Nat × CPU :=
  let page := address >>> 24
  let cycles := s.cycles32 access page
  let s := accessTiming s address cycles
  match page with
  | 0 => ReadBIOS s address
  | 2 => (Read32 s.memory.wram (address &&& 0x3FFFF), s)
  | 3 => (Read32 s.memory.iram (address &&& 0x7FFF), s)
  | 4 =>
    ( ReadMMIO s (address + 0) ||| ( ReadMMIO s (address + 1) <<< 8) |||
      ( ReadMMIO s (address + 2) <<< 16) ||| ( ReadMMIO s (address + 3) <<< 24), s)
  | 5 => (Read32 s.memory.pram (address &&& 0x3FF), s)
  | 6 => (Read32 s.memory.vram (vramOffset address), s)
  | 7 => (Read32 s.memory.oam (address &&& 0x3FF), s)
  | 8 | 9 | 10 | 11 | 12 | 13 =>
    let address := address &&& s.memory.rom.mask
    let s :=
      if address &&& 0x1FFFF = 0 then
        Tick s (s.cycles32 Access.Nonsequential page - s.cycles32 access page)
      else s
    if address ≥ s.memory.rom.size then
      (((address / 2) &&& 0xFFFF) ||| (((((address + 2) % 2 ^ 32) / 2) <<< 16) % 2 ^ 32), s)
    else
      (Read32 s.memory.rom.data address, s)
  | 14 | 15 =>
    let address := address &&& 0x0EFFFFFF
    if s.memory.rom.backup.isNone || HasEEPROMBackup s then
      (0, s)
    else
      ((backupRead s address * 0x01010101) % 2 ^ 32, s)
  | _ => (ReadUnused s address, s)

/-! ## Writes (`memory.inl`) -/

/-- The function `CPU::WriteByte`; `value` is an 8-bit quantity. -/
def WriteByte (s : CPU) (address value : Nat) (access : Access) : CPU :=
  let page := address >>> 24
  let cycles := s.cycles16 access page
  let s := accessTiming s address cycles
  match page with
  | 2 => { s with memory := { s.memory with
             wram := Write8 s.memory.wram (address &&& 0x3FFFF) value } }
  | 3 => { s with memory := { s.memory with
             iram := Write8 s.memory.iram (address &&& 0x7FFF) value } }
  | 4 => WriteMMIO s address (value &&& 0xFF)
  | 5 => { s with memory := { s.memory with
             pram := Write16 s.memory.pram (address &&& 0x3FF) (value * 0x0101) } }
  | 6 =>
    let address := vramOffset address
    if address ≥ 0x10000 then s
    else { s with memory := { s.memory with
             vram := Write16 s.memory.vram address (value * 0x0101) } }
  | 14 | 15 =>
    let address := address &&& 0x0EFFFFFF
    if s.memory.rom.backup.isNone || HasEEPROMBackup s then s
    else backupWrite s address value
  | _ => s

/-- The function `CPU::WriteHalf`; `value` is a 16-bit quantity. -/
def WriteHalf (s : CPU) (address value : Nat) (access : Access) : CPU :=
  let page := address >>> 24
  let cycles := s.cycles16 access page
  let s := accessTiming s address cycles
  match page with
  | 2 => { s with memory := { s.memory with
             wram := Write16 s.memory.wram (address &&& 0x3FFFF) value } }
  | 3 => { s with memory := { s.memory with
             iram := Write16 s.memory.iram (address &&& 0x7FFF) value } }
  | 4 => WriteMMIO ( WriteMMIO s (address + 0) ((value >>> 0) &&& 0xFF))
           (address + 1) ((value >>> 8) &&& 0xFF)
  | 5 => { s with memory := { s.memory with
             pram := Write16 s.memory.pram (address &&& 0x3FF) value } }
  | 6 => { s with memory := { s.memory with
             vram := Write16 s.memory.vram (vramOffset address) value } }
  | 7 => { s with memory := { s.memory with
             oam := Write16 s.memory.oam (address &&& 0x3FF) value } }
  | 13 =>
    -- EEPROM write
    if IsEEPROMAddress s address then
      if !s.dma_running then s else backupWrite s address value
    else s
  | 14 | 15 =>
    let address := address &&& 0x0EFFFFFF
    if s.memory.rom.backup.isNone || HasEEPROMBackup s then s
    else backupWrite (backupWrite s (address + 0) value) (address + 1) value
  | _ => s

/-- The function `CPU::WriteWord`; `value` is a 32-bit quantity. -/
def WriteWord (s : CPU) (address value : Nat) (access : Access) : CPU :=
  let page := address >>> 24
  let cycles := s.cycles32 access page
  let s := accessTiming s address cycles
  match page with
  | 2 => { s with memory := { s.memory with
             wram := Write32 s.memory.wram (address &&& 0x3FFFF) value } }
  | 3 => { s with memory := { s.memory with
             iram := Write32 s.memory.iram (address &&& 0x7FFF) value } }
  | 4 => WriteMMIO ( WriteMMIO ( WriteMMIO ( WriteMMIO s (address + 0) ((value >>> 0) &&& 0xFF))
           (address + 1) ((value >>> 8) &&& 0xFF))
           (address + 2) ((value >>> 16) &&& 0xFF))
           (address + 3) ((value >>> 24) &&& 0xFF)
  | 5 => { s with memory := { s.memory with
             pram := Write32 s.memory.pram (address &&& 0x3FF) value } }
  | 6 => { s with memory := { s.memory with
             vram := Write32 s.memory.vram (vramOffset address) value } }
  | 7 => { s with memory := { s.memory with
             oam := Write32 s.memory.oam (address &&& 0x3FF) value } }
  | 14 | 15 =>
    let address := address &&& 0x0EFFFFFF
    if s.memory.rom.backup.isNone || HasEEPROMBackup s then s
    else backupWrite (backupWrite (backupWrite (backupWrite s (address + 0) value)
           (address + 1) value) (address + 2) value) (address + 3) value
  | _ => s


/-! ## Concrete states used to exercise the theorems -/

/-- A buffer holding byte `i % 256` at offset `i`. -/
def rampBuffer : Nat → Nat := fun i => i % 256

/-- A memory with ramp-filled buffers, a 64 KiB ROM mirrored with mask `0x1FFFFFF`, no backup. -/
def sampleMemory : Memory :=
  { bios := rampBuffer, wram := rampBuffer, iram := rampBuffer, pram := rampBuffer,
    oam := rampBuffer, vram := rampBuffer,
    rom := { data := rampBuffer, size := 0x10000, mask := 0x1FFFFFF, backup := none },
    bios_opcode := 0xE129F000 }

/-- A state with all wait-state fields zero, prefetch disabled, unit cycle tables, the program
counter at the start of the cartridge in ARM state, and a budget of 100 cycles. -/
def sampleCPU : CPU :=
  { r15 := 0x08000000, thumb := false,
    pipe_opcode := fun n => if n = 0 then 0xAAAA else 0xBBBB,
    memory := sampleMemory,
    waitcnt := { sram := 0, ws0_n := 0, ws0_s := 0, ws1_n := 0, ws1_s := 0, ws2_n := 0,
                 ws2_s := 0, phi := 0, prefetch := false, cgb := false },
    cycles16 := fun _ _ => 1, cycles32 := fun _ _ => 1,
    prefetch := { active := false, countdown := 0, rd_pos := 0, wr_pos := 0, count := 0,
                  last_address := 0, address := fun _ => 0 },
    last_rom_address := 0, ticks_cpu_left := 100, dma_running := false,
    timer_log := [], io_in := fun _ => 0, io_log := [],
    irq_ie := 0, irq_if := 0, irq_ime := 0, keyinput := 0x3FF, haltcnt := HaltControl.RUN,
    rcnt_hack := 0, ticks_to_event := 0 }

/-- The state `sampleCPU` after `UpdateCycleLUT`: the ROM rows hold the wait states of an
all-zero `WAITCNT` (16-bit WS0: 5 non-sequential, 3 sequential). -/
def lutCPU : CPU := UpdateCycleLUT sampleCPU

/-- The state `lutCPU` with an 8 KiB EEPROM as backup chip: the ROM is smaller than 16 MiB, so
every address of region 0xD with bit 24 set is an EEPROM address. -/
def eepromCPU : CPU :=
  { lutCPU with memory := { lutCPU.memory with rom := { lutCPU.memory.rom with
      backup := some { kind := BackupKind.EEPROM8K, store := rampBuffer } } } }

/-! ## The RAM regions as one table

The five RAM case labels of the six switch statements use the same buffer and the same masked
offset in every bus operation; the two functions below tabulate them. -/

/-- The buffer a RAM case label works on: `memory.wram` for `REGION_EWRAM`, `memory.iram` for
`REGION_IWRAM`, `memory.pram`, `memory.vram`, `memory.oam`. -/
def ramBuffer (m : Memory) (page : Nat) : Nat → Nat :=
  match page with
  | 2 => m.wram
  | 3 => m.iram
  | 5 => m.pram
  | 6 => m.vram
  | 7 => m.oam
  | _ => fun _ => 0

/-- The offset a RAM case label computes from the address: `address & 0x3FFFF` (EWRAM),
`address & 0x7FFF` (IWRAM), `address & 0x3FF` (PRAM, OAM), the folded VRAM offset. -/
def ramOffset (address : Nat) : Nat :=
  match address >>> 24 with
  | 2 => address &&& 0x3FFFF
  | 3 => address &&& 0x7FFF
  | 5 => address &&& 0x3FF
  | 6 => vramOffset address
  | 7 => address &&& 0x3FF
  | _ => 0

/-- The region codes of the five RAM regions. -/
def isRAMPage (page : Nat) : Prop :=
  page = 2 ∨ page = 3 ∨ page = 5 ∨ page = 6 ∨ page = 7

instance (page : Nat) : Decidable (isRAMPage page) := by
  unfold isRAMPage
  infer_instance

/-- The write that took `s` to `t` was discarded, as seen from address `a`: the memory record
(the BIOS, EWRAM, IWRAM, PRAM, VRAM and OAM buffers, the ROM data with its size and mask, the
backup chip, and `bios_opcode`) is the same in `t` as in `s`, and a read of any width and access
kind at `a` returns in `t` what it returns in `s`. -/
def discarded (s t : CPU) (a : Nat) : Prop :=
  t.memory = s.memory ∧
    ∀ acc : Access,
      (ReadByte t a acc).1 = (ReadByte s a acc).1 ∧
      (ReadHalf t a acc).1 = (ReadHalf s a acc).1 ∧
      (ReadWord t a acc).1 = (ReadWord s a acc).1

/-- The state `lutCPU` with a battery-backed SRAM as backup chip, ramp-filled. -/
def sramCPU : CPU :=
  { lutCPU with memory := { lutCPU.memory with rom := { lutCPU.memory.rom with
      backup := some { kind := BackupKind.SRAM, store := rampBuffer } } } }

/-- The state `sampleCPU` in Thumb state with the program counter at `0x03000100` in IWRAM;
the prefetched opcodes are `0xAAAA` (slot 0) and `0xBBBB` (slot 1). -/
def iwramThumbCPU : CPU := { sampleCPU with thumb := true, r15 := 0x03000100 }

/-! ## Opcode fetch sequences -/

/-- A 16-bit opcode fetch by the CPU: the program counter is at `address` and the CPU calls
`ReadHalf(address, access)`; the fetched value is dropped. -/
def fetchHalf (s : CPU) (address : Nat) (access : Access) : CPU :=
  (ReadHalf { s with r15 := address } address access).2

/-- A sequence of 16-bit opcode fetches, first to last. -/
def fetchRun (s : CPU) (fetches : List (Nat × Access)) : CPU :=
  fetches.foldl (fun t f => fetchHalf t f.1 f.2) s

/-- Eight consecutive fetches from `0x08000000`: the first non-sequential, the rest
sequential. -/
def happyPathFetches : List (Nat × Access) :=
  [(0x08000000, Access.Nonsequential), (0x08000002, Access.Sequential),
   (0x08000004, Access.Sequential), (0x08000006, Access.Sequential),
   (0x08000008, Access.Sequential), (0x0800000A, Access.Sequential),
   (0x0800000C, Access.Sequential), (0x0800000E, Access.Sequential)]

/-- The state `lutCPU` in Thumb state with `WAITCNT.prefetch = 1`; the prefetch record is as
`Reset` leaves it. -/
def prefetchCPU : CPU :=
  { lutCPU with thumb := true, waitcnt := { lutCPU.waitcnt with prefetch := true } }

/-- The cycles one 16-bit ROM read in region 0x8 pays when nothing is prefetched: the table
entry, plus the 128 KiB boundary penalty when the masked address has its low 17 bits zero. -/
def fullCost16 (s : CPU) (f : Nat × Access) : Int :=
  s.cycles16 f.2 8 +
    (if (f.1 &&& s.memory.rom.mask) &&& 0x1FFFF = 0 then
       s.cycles16 Access.Nonsequential 8 - s.cycles16 f.2 8
     else 0)

/-! ## Reset and the states reachable from it -/

/-- The function `CPU::Reset`, on the fields of the record.  `skip_bios` is `config->skip_bios`.
The calls `scheduler.Add`, `dma.Reset`, `timer.Reset`, `apu.Reset`, `ppu.Reset` and
`ARM7TDMI::Reset` act on collaborators whose code is not among the sources; what they leave in
`r15`, `thumb`, `pipe_opcode`, `dma_running` is whatever the argument holds. -/
def Reset (s : CPU) (skip_bios : Bool) : CPU :=
  let cleared : CPU :=
    { s with
      memory := { s.memory with
        wram := fun i => if i < 0x40000 then 0 else s.memory.wram i
        iram := fun i => if i < 0x08000 then 0 else s.memory.iram i
        pram := fun i => if i < 0x00400 then 0 else s.memory.pram i
        oam := fun i => if i < 0x00400 then 0 else s.memory.oam i
        vram := fun i => if i < 0x18000 then 0 else s.memory.vram i }
      irq_ie := 0, irq_if := 0, irq_ime := 0
      keyinput := 0x3FF
      haltcnt := HaltControl.RUN
      rcnt_hack := 0
      waitcnt := { sram := 0, ws0_n := 0, ws0_s := 0, ws1_n := 0, ws1_s := 0, ws2_n := 0,
                   ws2_s := 0, phi := 0, prefetch := false, cgb := false } }
  let lut := UpdateCycleLUT cleared
  let done : CPU :=
    { lut with
      cycles16 := fun acc i => if 16 ≤ i ∧ i < 256 then 1 else lut.cycles16 acc i
      cycles32 := fun acc i => if 16 ≤ i ∧ i < 256 then 1 else lut.cycles32 acc i
      prefetch := { lut.prefetch with active := false, rd_pos := 0, wr_pos := 0, count := 0 }
      last_rom_address := 0 }
  if skip_bios then { done with r15 := 0x08000000 } else done

/-- The states the core can be in: those reachable from `Reset` through the six bus
operations, `Idle`, `Tick` and `PrefetchStep`, with the CPU free to change its program counter
and Thumb flag between calls.  The last constructor is modelled from the spec: a write to the
`WAITCNT` register stores the new fields and calls `UpdateCycleLUT`; the register file that
does so is not among the sources. -/
inductive Reachable : CPU → Prop where
  | reset (s : CPU) (skip_bios : Bool) : Reachable (Reset s skip_bios)
  | readByte (s : CPU) (a : Nat) (acc : Access) : Reachable s → Reachable (ReadByte s a acc).2
  | readHalf (s : CPU) (a : Nat) (acc : Access) : Reachable s → Reachable (ReadHalf s a acc).2
  | readWord (s : CPU) (a : Nat) (acc : Access) : Reachable s → Reachable (ReadWord s a acc).2
  | writeByte (s : CPU) (a v : Nat) (acc : Access) :
      Reachable s → Reachable (WriteByte s a v acc)
  | writeHalf (s : CPU) (a v : Nat) (acc : Access) :
      Reachable s → Reachable (WriteHalf s a v acc)
  | writeWord (s : CPU) (a v : Nat) (acc : Access) :
      Reachable s → Reachable (WriteWord s a v acc)
  | idle (s : CPU) : Reachable s → Reachable (Idle s)
  | tick (s : CPU) (cycles : Int) : Reachable s → Reachable (Tick s cycles)
  | prefetchStep (s : CPU) (a : Nat) (cycles : Int) :
      Reachable s → Reachable (PrefetchStep s a cycles)
  | cpu (s : CPU) (r15 : Nat) (thumb : Bool) :
      Reachable s → Reachable { s with r15 := r15, thumb := thumb }
  | waitcnt (s : CPU) (w : WaitstateControl) :
      Reachable s → Reachable (UpdateCycleLUT { s with waitcnt := w })

/-- One round of filling the prefetch buffer from idle cycles: an internal cycle, which starts
a fetch, and a `Tick(2)`, which completes it under the sequential cost 3 of WS0. -/
def fillRound (s : CPU) : CPU := Tick (Idle s) 2

/-- A run of the core: reset with `skip_bios`, `WAITCNT.prefetch` set, Thumb state at
`0x08000000`, one opcode fetch there, five rounds of filling the prefetch buffer, and then a
switch of the CPU to ARM state. -/
def thumbToArmCPU : CPU :=
  let s0 := Reset sampleCPU true
  let s1 := UpdateCycleLUT { s0 with waitcnt := { s0.waitcnt with prefetch := true } }
  let s2 : CPU := { s1 with r15 := 0x08000000, thumb := true }
  let s3 := (ReadHalf s2 0x08000000 Access.Nonsequential).2
  let s4 := fillRound (fillRound (fillRound (fillRound (fillRound s3))))
  { s4 with r15 := 0x08000000, thumb := false }

/-- The bound on the prefetch record that every step of the core keeps: at most 8 slots are
filled, and a fetch is in flight only while a slot is free. -/
def prefetchBounded (p : PrefetchBuffer) : Prop :=
  p.count ≤ 8 ∧ (p.active = true → p.count < 8)

/-! ## The execution loop (`cpu.cpp`)

`CPU::RunFor` calls into the DMA engine, the ARM core, the timers and the scheduler, none of
which is among the sources.  Their behaviour is a parameter of the embedding; the calls made
to the DMA engine and the ARM core, and the values handed to the scheduler, are recorded next
to the state. -/

/-- The behaviour of the collaborators of `CPU::RunFor`: `dma.Run(budget)`, `Run()`,
`SignalIRQ()`, `timer.EstimateCyclesUntilIRQ()` and `scheduler.Schedule(elapsed)`, which returns
the distance to the next event.  Each may change the state in any way. -/
structure Collaborators where
  dmaRun : CPU → Int → CPU
  Run : CPU → CPU
  SignalIRQ : CPU → CPU
  EstimateCyclesUntilIRQ : CPU → Int
  Schedule : CPU → Int → CPU × Int

/-- A call made by the execution loop to the DMA engine or to the ARM core. -/
inductive Call where
  | dmaRun (budget : Int)
  | signalIRQ
  | run
deriving DecidableEq, Repr

/-- The state of a run of `CPU::RunFor`: the CPU record, the calls made so far to the DMA engine
and the ARM core, and the `elapsed` values handed so far to `scheduler.Schedule`, both oldest
first. -/
structure RunState where
  cpu : CPU
  calls : List Call
  scheduled : List Int

/-- The statement `if (mmio.haltcnt == HaltControl::HALT && fire) mmio.haltcnt = RUN;`
with `fire = mmio.irq_ie & mmio.irq_if`. -/
def RunFor.wake (s : CPU) : CPU :=
  if s.haltcnt = HaltControl.HALT ∧ s.irq_ie &&& s.irq_if ≠ 0 then
    { s with haltcnt := HaltControl.RUN }
  else s

/-- The body of the inner loop of `CPU::RunFor`. -/
def RunFor.step (env : Collaborators) (r : RunState) : RunState :=
  let fire := r.cpu.irq_ie &&& r.cpu.irq_if
  let s := RunFor.wake r.cpu
  if s.dma_running then
    { r with cpu := env.dmaRun s s.ticks_cpu_left
             calls := r.calls ++ [Call.dmaRun s.ticks_cpu_left] }
  else if s.haltcnt = HaltControl.RUN then
    if s.irq_ime ≠ 0 ∧ fire ≠ 0 then
      { r with cpu := env.Run (env.SignalIRQ s)
               calls := r.calls ++ [Call.signalIRQ, Call.run] }
    else
      { r with cpu := env.Run s, calls := r.calls ++ [Call.run] }
  else
    -- Forward to the next event or timer IRQ.
    { r with cpu := Tick s (min (env.EstimateCyclesUntilIRQ s) s.ticks_cpu_left) }

/-- The inner loop `while (ticks_cpu_left > 0)` of `CPU::RunFor`, run for at most `fuel`
iterations; `none` when the loop has not ended by then. -/
def RunFor.inner (env : Collaborators) : Nat → RunState → Option RunState
  | 0, r => if r.cpu.ticks_cpu_left > 0 then none else some r
  | fuel + 1, r =>
    if r.cpu.ticks_cpu_left > 0 then RunFor.inner env fuel (RunFor.step env r) else some r

/-- The statements of the outer loop of `CPU::RunFor` before the inner loop:
`if (cycles < ticks_to_event) ticks_to_event = cycles; ticks_cpu_left = ticks_to_event;`. -/
def RunFor.arm (r : RunState) (cycles : Int) : RunState :=
  -- Run only for the duration the caller requested.
  let ticks_to_event := if cycles < r.cpu.ticks_to_event then cycles else r.cpu.ticks_to_event
  -- CPU may run until the next event must be executed.
  { r with cpu := { r.cpu with ticks_to_event := ticks_to_event
                               ticks_cpu_left := ticks_to_event } }

/-- The value `elapsed = ticks_to_event - ticks_cpu_left` computed after the inner loop. -/
def RunFor.elapsed (r : RunState) : Int := r.cpu.ticks_to_event - r.cpu.ticks_cpu_left

/-- The statement `ticks_to_event = scheduler.Schedule(elapsed);` closing an iteration of the
outer loop. -/
def RunFor.settle (env : Collaborators) (r : RunState) : RunState :=
  -- Update events and determine when the next event will happen.
  let next := env.Schedule r.cpu (RunFor.elapsed r)
  { r with cpu := { next.1 with ticks_to_event := next.2 }
           scheduled := r.scheduled ++ [RunFor.elapsed r] }

/-- The outer loop `while (cycles > 0)` of `CPU::RunFor`, run for at most `fuel` iterations,
each inner loop for at most `innerFuel`; the result carries the value of the local variable
`cycles` when the loop ends. -/
def RunFor.outer (env : Collaborators) (innerFuel : Nat) :
    Nat → Int → RunState → Option (RunState × Int)
  | 0, cycles, r => if cycles > 0 then none else some (r, cycles)
  | fuel + 1, cycles, r =>
    if cycles > 0 then
      match RunFor.inner env innerFuel (RunFor.arm r cycles) with
      | none => none
      | some r2 =>
        RunFor.outer env innerFuel fuel (cycles - RunFor.elapsed r2) (RunFor.settle env r2)
    else some (r, cycles)

/-- The function `CPU::RunFor`, with `fuel` bounding both loops: the final state with the log
of the call, and the final value of the local variable `cycles`. -/
def RunFor (env : Collaborators) (fuel : Nat) (s : CPU) (cycles : Int) :
    Option (RunState × Int) :=
  -- Compensate for over- or undershoot from previous calls.
  RunFor.outer env fuel fuel (cycles + s.ticks_cpu_left) { cpu := s, calls := [], scheduled := [] }

/-- Collaborators for the examples: an instruction takes 20 cycles, a DMA run spends its
whole budget and ends the transfer, the IRQ entry changes nothing, the next timer IRQ is one
cycle away, and the next event is always 4 cycles away. -/
def sampleEnv : Collaborators :=
  { dmaRun := fun s budget => Tick { s with dma_running := false } budget
    Run := fun s => Tick s 20
    SignalIRQ := fun s => s
    EstimateCyclesUntilIRQ := fun _ => 1
    Schedule := fun s _ => (s, 4) }

/-- The state `sampleCPU` halted with interrupt 0 enabled and not pending, 4 cycles left. -/
def haltedCPU : CPU :=
  { sampleCPU with haltcnt := HaltControl.HALT, irq_ie := 1, irq_if := 0, ticks_cpu_left := 4 }

/-- Modelled from the spec: the entries of the cycle tables for regions 0x0 to 0x7 are written by
no function of the sources; they are the initial values the header gives the arrays
`cycles16` and `cycles32`.  The spec: regions 0x0, 0x3, 0x4 and 0x7 cost 1 for all widths,
region 0x2 costs 3 for 16 bits and 6 for 32 bits, regions 0x5 and 0x6 cost 1 for 16 bits and 2
for 32 bits, for both access kinds. -/
def headerRows (s : CPU) : Prop :=
  ∀ acc : Access,
    (s.cycles16 acc 0 = 1 ∧ s.cycles32 acc 0 = 1) ∧
    (s.cycles16 acc 2 = 3 ∧ s.cycles32 acc 2 = 6) ∧
    (s.cycles16 acc 3 = 1 ∧ s.cycles32 acc 3 = 1) ∧
    (s.cycles16 acc 4 = 1 ∧ s.cycles32 acc 4 = 1) ∧
    (s.cycles16 acc 5 = 1 ∧ s.cycles32 acc 5 = 2) ∧
    (s.cycles16 acc 6 = 1 ∧ s.cycles32 acc 6 = 2) ∧
    (s.cycles16 acc 7 = 1 ∧ s.cycles32 acc 7 = 1)

/-- The state `sampleCPU` with the cycle tables holding the initial values of `headerRows` in
regions 0x0 to 0x7 and 9 everywhere else. -/
def powerOnCPU : CPU :=
  { sampleCPU with
    cycles16 := fun _ r => if r = 2 then 3 else if r < 8 then 1 else 9
    cycles32 := fun _ r =>
      if r = 2 then 6 else if r = 5 ∨ r = 6 then 2 else if r < 8 then 1 else 9 }

/-- A run of the core that leaves a prefetched opcode for the first address of wait-state
region 2: reset with `skip_bios`, `WAITCNT.prefetch` set, Thumb state at `0x0BFFFFFE`, one opcode
fetch there, an internal cycle, which starts the fetch of `0x0C000000`, the 8 cycles that
complete it, and the program counter moved on to `0x0C000000`. -/
def boundaryCPU : CPU :=
  let s0 := Reset sampleCPU true
  let s1 := UpdateCycleLUT { s0 with waitcnt := { s0.waitcnt with prefetch := true } }
  let s2 : CPU := { s1 with r15 := 0x0BFFFFFE, thumb := true }
  let s3 := (ReadHalf s2 0x0BFFFFFE Access.Nonsequential).2
  let s4 := Tick (Idle s3) 8
  { s4 with r15 := 0x0C000000, thumb := true }

/-- The consistency of the prefetch ring: both positions index the 8 slots of
`prefetch.address`, at most 8 slots are filled, a fetch is in flight only while a slot is free,
and the write position is the read position advanced by the number of filled slots. -/
def ringConsistent (p : PrefetchBuffer) : Prop :=
  p.rd_pos < 8 ∧ p.wr_pos < 8 ∧ p.count ≤ 8 ∧ (p.active = true → p.count < 8) ∧
  p.wr_pos = (p.rd_pos + p.count) % 8

/-- The state `thumbToArmCPU` back in Thumb state at `0x08000002` after the fetch of the opcode
there, which consumes the first of the five prefetched opcodes. -/
def consumedCPU : CPU :=
  (ReadHalf { thumbToArmCPU with r15 := 0x08000002, thumb := true } 0x08000002
    Access.Sequential).2

/-! # Theorems -/

/-! ## Wait-state tables -/

theorem s_ws_nseq_eq (i : Fin 4) : s_ws_nseq i = ([4, 3, 2, 8] : List Int).getD i.val 0 := by
  fin_cases i <;> rfl

theorem s_ws_seq0_eq (i : Fin 2) : s_ws_seq0 i = ([2, 1] : List Int).getD i.val 0 := by
  fin_cases i <;> rfl

theorem s_ws_seq1_eq (i : Fin 2) : s_ws_seq1 i = ([4, 1] : List Int).getD i.val 0 := by
  fin_cases i <;> rfl

theorem s_ws_seq2_eq (i : Fin 2) : s_ws_seq2 i = ([8, 1] : List Int).getD i.val 0 := by
  fin_cases i <;> rfl

/-- The ROM entries of the tables after `UpdateCycleLUT`, in terms of the constants. -/
theorem UpdateCycleLUT_rom (s : CPU) :
    ((UpdateCycleLUT s).cycles16 Access.Nonsequential 0x8 = 1 + s_ws_nseq s.waitcnt.ws0_n ∧
     (UpdateCycleLUT s).cycles16 Access.Nonsequential 0x9 = 1 + s_ws_nseq s.waitcnt.ws0_n ∧
     (UpdateCycleLUT s).cycles16 Access.Nonsequential 0xA = 1 + s_ws_nseq s.waitcnt.ws1_n ∧
     (UpdateCycleLUT s).cycles16 Access.Nonsequential 0xB = 1 + s_ws_nseq s.waitcnt.ws1_n ∧
     (UpdateCycleLUT s).cycles16 Access.Nonsequential 0xC = 1 + s_ws_nseq s.waitcnt.ws2_n ∧
     (UpdateCycleLUT s).cycles16 Access.Nonsequential 0xD = 1 + s_ws_nseq s.waitcnt.ws2_n) ∧
    ((UpdateCycleLUT s).cycles16 Access.Sequential 0x8 = 1 + s_ws_seq0 s.waitcnt.ws0_s ∧
     (UpdateCycleLUT s).cycles16 Access.Sequential 0x9 = 1 + s_ws_seq0 s.waitcnt.ws0_s ∧
     (UpdateCycleLUT s).cycles16 Access.Sequential 0xA = 1 + s_ws_seq1 s.waitcnt.ws1_s ∧
     (UpdateCycleLUT s).cycles16 Access.Sequential 0xB = 1 + s_ws_seq1 s.waitcnt.ws1_s ∧
     (UpdateCycleLUT s).cycles16 Access.Sequential 0xC = 1 + s_ws_seq2 s.waitcnt.ws2_s ∧
     (UpdateCycleLUT s).cycles16 Access.Sequential 0xD = 1 + s_ws_seq2 s.waitcnt.ws2_s) ∧
    (∀ r, 8 ≤ r → r ≤ 13 →
      (UpdateCycleLUT s).cycles32 Access.Nonsequential r =
        (UpdateCycleLUT s).cycles16 Access.Nonsequential r +
        (UpdateCycleLUT s).cycles16 Access.Sequential r ∧
      (UpdateCycleLUT s).cycles32 Access.Sequential r =
        2 * (UpdateCycleLUT s).cycles16 Access.Sequential r) := by
  refine ⟨?_, ?_, ?_⟩
  · simp [UpdateCycleLUT, setRow]
  · simp [UpdateCycleLUT, setRow]
  · intro r h8 h13
    interval_cases r <;> simp [UpdateCycleLUT, setRow] <;> ring

/-! ## What the timing functions leave alone -/

theorem Tick_ticks (s : CPU) (c : Int) :
    (Tick s c).ticks_cpu_left = s.ticks_cpu_left - c := by
  unfold Tick
  dsimp only
  split_ifs <;> rfl

/-- The function `Tick` writes only the clock, the timer log and the prefetch record. -/
theorem Tick_frame (s : CPU) (c : Int) :
    (Tick s c).memory = s.memory ∧ (Tick s c).waitcnt = s.waitcnt ∧
    (Tick s c).cycles16 = s.cycles16 ∧ (Tick s c).cycles32 = s.cycles32 ∧
    (Tick s c).r15 = s.r15 ∧ (Tick s c).thumb = s.thumb ∧
    (Tick s c).pipe_opcode = s.pipe_opcode ∧ (Tick s c).dma_running = s.dma_running ∧
    (Tick s c).io_in = s.io_in ∧ (Tick s c).io_log = s.io_log := by
  unfold Tick
  dsimp only
  split_ifs <;> simp

theorem arbitrate_frame (s : CPU) (a : Nat) :
    (PrefetchStep.arbitrate s a).memory = s.memory ∧
    (PrefetchStep.arbitrate s a).waitcnt = s.waitcnt ∧
    (PrefetchStep.arbitrate s a).cycles16 = s.cycles16 ∧
    (PrefetchStep.arbitrate s a).cycles32 = s.cycles32 ∧
    (PrefetchStep.arbitrate s a).r15 = s.r15 ∧ (PrefetchStep.arbitrate s a).thumb = s.thumb ∧
    (PrefetchStep.arbitrate s a).pipe_opcode = s.pipe_opcode ∧
    (PrefetchStep.arbitrate s a).dma_running = s.dma_running ∧
    (PrefetchStep.arbitrate s a).io_in = s.io_in ∧
    (PrefetchStep.arbitrate s a).io_log = s.io_log := by
  unfold PrefetchStep.arbitrate
  dsimp only
  split_ifs <;> simp

theorem track_frame (s : CPU) (a : Nat) :
    (PrefetchStep.track s a).memory = s.memory ∧
    (PrefetchStep.track s a).waitcnt = s.waitcnt ∧
    (PrefetchStep.track s a).cycles16 = s.cycles16 ∧
    (PrefetchStep.track s a).cycles32 = s.cycles32 ∧
    (PrefetchStep.track s a).r15 = s.r15 ∧ (PrefetchStep.track s a).thumb = s.thumb ∧
    (PrefetchStep.track s a).pipe_opcode = s.pipe_opcode ∧
    (PrefetchStep.track s a).dma_running = s.dma_running ∧
    (PrefetchStep.track s a).io_in = s.io_in ∧
    (PrefetchStep.track s a).io_log = s.io_log := by
  unfold PrefetchStep.track
  split_ifs <;> simp

theorem consume_frame (s : CPU) (a : Nat) (c : Int) :
    (PrefetchStep.consume s a c).memory = s.memory ∧
    (PrefetchStep.consume s a c).waitcnt = s.waitcnt ∧
    (PrefetchStep.consume s a c).cycles16 = s.cycles16 ∧
    (PrefetchStep.consume s a c).cycles32 = s.cycles32 ∧
    (PrefetchStep.consume s a c).r15 = s.r15 ∧ (PrefetchStep.consume s a c).thumb = s.thumb ∧
    (PrefetchStep.consume s a c).pipe_opcode = s.pipe_opcode ∧
    (PrefetchStep.consume s a c).dma_running = s.dma_running ∧
    (PrefetchStep.consume s a c).io_in = s.io_in ∧
    (PrefetchStep.consume s a c).io_log = s.io_log := by
  unfold PrefetchStep.consume
  split_ifs
  · exact Tick_frame _ _
  · exact Tick_frame _ _
  · exact Tick_frame _ _

theorem PrefetchStep_frame (s : CPU) (a : Nat) (c : Int) :
    (PrefetchStep s a c).memory = s.memory ∧ (PrefetchStep s a c).waitcnt = s.waitcnt ∧
    (PrefetchStep s a c).cycles16 = s.cycles16 ∧ (PrefetchStep s a c).cycles32 = s.cycles32 ∧
    (PrefetchStep s a c).r15 = s.r15 ∧ (PrefetchStep s a c).thumb = s.thumb ∧
    (PrefetchStep s a c).pipe_opcode = s.pipe_opcode ∧
    (PrefetchStep s a c).dma_running = s.dma_running ∧
    (PrefetchStep s a c).io_in = s.io_in ∧ (PrefetchStep s a c).io_log = s.io_log := by
  unfold PrefetchStep
  split_ifs
  · exact Tick_frame _ _
  · obtain ⟨a1, a2, a3, a4, a5, a6, a7, a8, a9, a10⟩ := arbitrate_frame s a
    obtain ⟨b1, b2, b3, b4, b5, b6, b7, b8, b9, b10⟩ :=
      track_frame (PrefetchStep.arbitrate s a) a
    obtain ⟨c1, c2, c3, c4, c5, c6, c7, c8, c9, c10⟩ :=
      consume_frame (PrefetchStep.track (PrefetchStep.arbitrate s a) a) a c
    exact ⟨c1.trans (b1.trans a1), c2.trans (b2.trans a2), c3.trans (b3.trans a3),
      c4.trans (b4.trans a4), c5.trans (b5.trans a5), c6.trans (b6.trans a6),
      c7.trans (b7.trans a7), c8.trans (b8.trans a8), c9.trans (b9.trans a9),
      c10.trans (b10.trans a10)⟩

theorem accessTiming_frame (s : CPU) (a : Nat) (c : Int) :
    (accessTiming s a c).memory = s.memory ∧ (accessTiming s a c).waitcnt = s.waitcnt ∧
    (accessTiming s a c).cycles16 = s.cycles16 ∧ (accessTiming s a c).cycles32 = s.cycles32 ∧
    (accessTiming s a c).r15 = s.r15 ∧ (accessTiming s a c).thumb = s.thumb ∧
    (accessTiming s a c).pipe_opcode = s.pipe_opcode ∧
    (accessTiming s a c).dma_running = s.dma_running ∧
    (accessTiming s a c).io_in = s.io_in ∧ (accessTiming s a c).io_log = s.io_log := by
  unfold accessTiming
  split_ifs
  · exact PrefetchStep_frame s a c
  · exact Tick_frame s c

theorem accessTiming_ticks (s : CPU) (a : Nat) (c : Int) (h : s.waitcnt.prefetch = false) :
    (accessTiming s a c).ticks_cpu_left = s.ticks_cpu_left - c := by
  simp [accessTiming, h, Tick_ticks]

/-! ## Cycles charged with the prefetch unit disabled -/

theorem page_lt_16 (a : Nat) (h : a < 0x10000000) : a >>> 24 < 16 := by
  rw [Nat.shiftRight_eq_div_pow]
  omega


theorem ReadByte_ticks (s : CPU) (a : Nat) (acc : Access) (hp : s.waitcnt.prefetch = false)
    (ha : a < 0x10000000) :
    (ReadByte s a acc).2.ticks_cpu_left =
      s.ticks_cpu_left - s.cycles16 acc (a >>> 24) -
        (if 8 ≤ a >>> 24 ∧ a >>> 24 ≤ 13 ∧ (a &&& s.memory.rom.mask) &&& 0x1FFFF = 0 then
           s.cycles16 Access.Nonsequential (a >>> 24) - s.cycles16 acc (a >>> 24)
         else 0) := by
  have hlt := page_lt_16 a ha
  obtain ⟨m1, -, m3, -, -, -, -, -, -, -⟩ := accessTiming_frame s a (s.cycles16 acc (a >>> 24))
  have ht := accessTiming_ticks s a (s.cycles16 acc (a >>> 24)) hp
  unfold ReadByte
  dsimp only
  generalize accessTiming s a (s.cycles16 acc (a >>> 24)) = t at m1 m3 ht
  generalize a >>> 24 = p at hlt ht ⊢
  interval_cases p <;> simp [ReadBIOS, ht, m1, m3] <;> split_ifs <;> simp_all [Tick_ticks]
theorem ReadHalf_ticks (s : CPU) (a : Nat) (acc : Access) (hp : s.waitcnt.prefetch = false)
    (ha : a < 0x10000000) :
    (ReadHalf s a acc).2.ticks_cpu_left =
      s.ticks_cpu_left - s.cycles16 acc (a >>> 24) -
        (if 8 ≤ a >>> 24 ∧ a >>> 24 ≤ 13 ∧ (a &&& s.memory.rom.mask) &&& 0x1FFFF = 0 ∧
            ¬ (a >>> 24 = 13 ∧ IsEEPROMAddress s a = true) then
           s.cycles16 Access.Nonsequential (a >>> 24) - s.cycles16 acc (a >>> 24)
         else 0) := by
  have hlt := page_lt_16 a ha
  obtain ⟨m1, -, m3, -, -, -, -, -, -, -⟩ := accessTiming_frame s a (s.cycles16 acc (a >>> 24))
  have ht := accessTiming_ticks s a (s.cycles16 acc (a >>> 24)) hp
  have he : IsEEPROMAddress (accessTiming s a (s.cycles16 acc (a >>> 24))) a =
      IsEEPROMAddress s a := by
    simp [IsEEPROMAddress, HasEEPROMBackup, m1]
  unfold ReadHalf
  dsimp only
  generalize accessTiming s a (s.cycles16 acc (a >>> 24)) = t at m1 m3 ht he
  generalize a >>> 24 = p at hlt ht ⊢
  interval_cases p <;> simp [ReadBIOS, ReadHalfROM, ht, m1, m3, he] <;> split_ifs <;>
    simp_all [Tick_ticks]

theorem ReadWord_ticks (s : CPU) (a : Nat) (acc : Access) (hp : s.waitcnt.prefetch = false)
    (ha : a < 0x10000000) :
    (ReadWord s a acc).2.ticks_cpu_left =
      s.ticks_cpu_left - s.cycles32 acc (a >>> 24) -
        (if 8 ≤ a >>> 24 ∧ a >>> 24 ≤ 13 ∧ (a &&& s.memory.rom.mask) &&& 0x1FFFF = 0 then
           s.cycles32 Access.Nonsequential (a >>> 24) - s.cycles32 acc (a >>> 24)
         else 0) := by
  have hlt := page_lt_16 a ha
  obtain ⟨m1, -, -, m4, -, -, -, -, -, -⟩ := accessTiming_frame s a (s.cycles32 acc (a >>> 24))
  have ht := accessTiming_ticks s a (s.cycles32 acc (a >>> 24)) hp
  unfold ReadWord
  dsimp only
  generalize accessTiming s a (s.cycles32 acc (a >>> 24)) = t at m1 m4 ht
  generalize a >>> 24 = p at hlt ht ⊢
  interval_cases p <;> simp [ReadBIOS, ht, m1, m4] <;> split_ifs <;> simp_all [Tick_ticks]

theorem WriteByte_ticks (s : CPU) (a v : Nat) (acc : Access) (hp : s.waitcnt.prefetch = false)
    (ha : a < 0x10000000) :
    (WriteByte s a v acc).ticks_cpu_left = s.ticks_cpu_left - s.cycles16 acc (a >>> 24) := by
  have hlt := page_lt_16 a ha
  have ht := accessTiming_ticks s a (s.cycles16 acc (a >>> 24)) hp
  unfold WriteByte
  dsimp only
  generalize accessTiming s a (s.cycles16 acc (a >>> 24)) = t at ht
  generalize a >>> 24 = p at hlt ht ⊢
  interval_cases p <;> simp [backupWrite, WriteMMIO, ht] <;> split_ifs <;> simp_all

theorem WriteHalf_ticks (s : CPU) (a v : Nat) (acc : Access) (hp : s.waitcnt.prefetch = false)
    (ha : a < 0x10000000) :
    (WriteHalf s a v acc).ticks_cpu_left = s.ticks_cpu_left - s.cycles16 acc (a >>> 24) := by
  have hlt := page_lt_16 a ha
  have ht := accessTiming_ticks s a (s.cycles16 acc (a >>> 24)) hp
  unfold WriteHalf
  dsimp only
  generalize accessTiming s a (s.cycles16 acc (a >>> 24)) = t at ht
  generalize a >>> 24 = p at hlt ht ⊢
  interval_cases p <;> simp [backupWrite, WriteMMIO, ht] <;> split_ifs <;> simp_all

theorem WriteWord_ticks (s : CPU) (a v : Nat) (acc : Access) (hp : s.waitcnt.prefetch = false)
    (ha : a < 0x10000000) :
    (WriteWord s a v acc).ticks_cpu_left = s.ticks_cpu_left - s.cycles32 acc (a >>> 24) := by
  have hlt := page_lt_16 a ha
  have ht := accessTiming_ticks s a (s.cycles32 acc (a >>> 24)) hp
  unfold WriteWord
  dsimp only
  generalize accessTiming s a (s.cycles32 acc (a >>> 24)) = t at ht
  generalize a >>> 24 = p at hlt ht ⊢
  interval_cases p <;> simp [backupWrite, WriteMMIO, ht] <;> split_ifs <;> simp_all

/-! ## Claims on the cycle counts -/

/-- C1, as stated, fails.  With the prefetch unit disabled and an all-zero `WAITCNT` (16-bit WS0:
3 cycles sequential, 5 non-sequential), a sequential 16-bit write at the 128 KiB boundary
`0x08020000` is charged 3 cycles, not the 5 the claim gives (table entry plus boundary
penalty); and with an EEPROM cartridge a sequential 16-bit read at the EEPROM address
`0x0D000000`, whose masked address has its low 17 bits zero, is charged the table entry 9 and
not 9 plus the penalty 5 - 9. -/
theorem C1_counterexample :
    (lutCPU.waitcnt.prefetch = false ∧
     (0x08020000 &&& lutCPU.memory.rom.mask) &&& 0x1FFFF = 0 ∧
     lutCPU.cycles16 Access.Sequential (0x08020000 >>> 24) = 3 ∧
     lutCPU.cycles16 Access.Nonsequential (0x08020000 >>> 24) = 5 ∧
     (WriteHalf lutCPU 0x08020000 0x1234 Access.Sequential).ticks_cpu_left =
       lutCPU.ticks_cpu_left - 3 ∧
     (WriteHalf lutCPU 0x08020000 0x1234 Access.Sequential).ticks_cpu_left ≠
       lutCPU.ticks_cpu_left -
         (lutCPU.cycles16 Access.Sequential (0x08020000 >>> 24) +
           (lutCPU.cycles16 Access.Nonsequential (0x08020000 >>> 24) -
            lutCPU.cycles16 Access.Sequential (0x08020000 >>> 24)))) ∧
    (eepromCPU.waitcnt.prefetch = false ∧
     (0x0D000000 &&& eepromCPU.memory.rom.mask) &&& 0x1FFFF = 0 ∧
     eepromCPU.cycles16 Access.Sequential (0x0D000000 >>> 24) = 9 ∧
     eepromCPU.cycles16 Access.Nonsequential (0x0D000000 >>> 24) = 5 ∧
     (ReadHalf eepromCPU 0x0D000000 Access.Sequential).2.ticks_cpu_left =
       eepromCPU.ticks_cpu_left - 9 ∧
     (ReadHalf eepromCPU 0x0D000000 Access.Sequential).2.ticks_cpu_left ≠
       eepromCPU.ticks_cpu_left -
         (eepromCPU.cycles16 Access.Sequential (0x0D000000 >>> 24) +
           (eepromCPU.cycles16 Access.Nonsequential (0x0D000000 >>> 24) -
            eepromCPU.cycles16 Access.Sequential (0x0D000000 >>> 24)))) := by
  decide

/-- C1, amended.  With `WAITCNT.prefetch = 0`, for every address below `0x10000000` and every
access kind: each of the three writes lowers `ticks_cpu_left` by exactly the table entry
(`cycles16` for 8 and 16 bits, `cycles32` for 32 bits), with no boundary penalty; each of the
three reads lowers it by the table entry plus, when the address lies in a ROM region 0x8 to 0xD
and its masked address has its low 17 bits zero, the boundary penalty (non-sequential entry
minus the entry for the declared access), except that a 16-bit read in region 0xD at an EEPROM
address is charged the table entry only. -/
theorem C1_cycles_charged (s : CPU) (a v : Nat) (acc : Access)
    (hp : s.waitcnt.prefetch = false) (ha : a < 0x10000000) :
    (ReadByte s a acc).2.ticks_cpu_left =
      s.ticks_cpu_left - s.cycles16 acc (a >>> 24) -
        (if 8 ≤ a >>> 24 ∧ a >>> 24 ≤ 13 ∧ (a &&& s.memory.rom.mask) &&& 0x1FFFF = 0 then
           s.cycles16 Access.Nonsequential (a >>> 24) - s.cycles16 acc (a >>> 24)
         else 0) ∧
    (ReadHalf s a acc).2.ticks_cpu_left =
      s.ticks_cpu_left - s.cycles16 acc (a >>> 24) -
        (if 8 ≤ a >>> 24 ∧ a >>> 24 ≤ 13 ∧ (a &&& s.memory.rom.mask) &&& 0x1FFFF = 0 ∧
            ¬ (a >>> 24 = 13 ∧ IsEEPROMAddress s a = true) then
           s.cycles16 Access.Nonsequential (a >>> 24) - s.cycles16 acc (a >>> 24)
         else 0) ∧
    (ReadWord s a acc).2.ticks_cpu_left =
      s.ticks_cpu_left - s.cycles32 acc (a >>> 24) -
        (if 8 ≤ a >>> 24 ∧ a >>> 24 ≤ 13 ∧ (a &&& s.memory.rom.mask) &&& 0x1FFFF = 0 then
           s.cycles32 Access.Nonsequential (a >>> 24) - s.cycles32 acc (a >>> 24)
         else 0) ∧
    (WriteByte s a v acc).ticks_cpu_left = s.ticks_cpu_left - s.cycles16 acc (a >>> 24) ∧
    (WriteHalf s a v acc).ticks_cpu_left = s.ticks_cpu_left - s.cycles16 acc (a >>> 24) ∧
    (WriteWord s a v acc).ticks_cpu_left = s.ticks_cpu_left - s.cycles32 acc (a >>> 24) :=
  ⟨ReadByte_ticks s a acc hp ha, ReadHalf_ticks s a acc hp ha, ReadWord_ticks s a acc hp ha,
   WriteByte_ticks s a v acc hp ha, WriteHalf_ticks s a v acc hp ha,
   WriteWord_ticks s a v acc hp ha⟩

/-- Witness of C1 amended: the sequential accesses of the all-zero `WAITCNT` state at the
128 KiB boundary `0x08020000`. -/
theorem C1_cycles_charged_witness :
    lutCPU.waitcnt.prefetch = false ∧ 0x08020000 < 0x10000000 ∧
    (ReadHalf lutCPU 0x08020000 Access.Sequential).2.ticks_cpu_left = 95 ∧
    (WriteHalf lutCPU 0x08020000 0x1234 Access.Sequential).ticks_cpu_left = 97 := by
  have h := C1_cycles_charged lutCPU 0x08020000 0x1234 Access.Sequential (by decide) (by decide)
  refine ⟨by decide, by decide, ?_, ?_⟩
  · rw [h.2.1]; decide
  · rw [h.2.2.2.2.1]; decide

/-- C2.  For every `WAITCNT` value, after `UpdateCycleLUT`, both regions of each ROM wait-state
area k hold: 16-bit non-sequential `1 + NSEQ[wsk_n]`, 16-bit sequential `1 + SEQk[wsk_s]`,
32-bit non-sequential the sum of the two, 32-bit sequential twice the 16-bit sequential entry,
with `NSEQ = {4,3,2,8}`, `SEQ0 = {2,1}`, `SEQ1 = {4,1}`, `SEQ2 = {8,1}`; and `ws0_n = 0`,
`ws0_s = 0` gives 5 cycles non-sequential and 3 sequential for 16-bit WS0. -/
theorem C2_rom_wait_states (s : CPU) :
    (∀ r, r = 0x8 ∨ r = 0x9 →
      (UpdateCycleLUT s).cycles16 Access.Nonsequential r =
        1 + ([4, 3, 2, 8] : List Int).getD s.waitcnt.ws0_n.val 0 ∧
      (UpdateCycleLUT s).cycles16 Access.Sequential r =
        1 + ([2, 1] : List Int).getD s.waitcnt.ws0_s.val 0 ∧
      (UpdateCycleLUT s).cycles32 Access.Nonsequential r =
        (UpdateCycleLUT s).cycles16 Access.Nonsequential r +
        (UpdateCycleLUT s).cycles16 Access.Sequential r ∧
      (UpdateCycleLUT s).cycles32 Access.Sequential r =
        2 * (UpdateCycleLUT s).cycles16 Access.Sequential r) ∧
    (∀ r, r = 0xA ∨ r = 0xB →
      (UpdateCycleLUT s).cycles16 Access.Nonsequential r =
        1 + ([4, 3, 2, 8] : List Int).getD s.waitcnt.ws1_n.val 0 ∧
      (UpdateCycleLUT s).cycles16 Access.Sequential r =
        1 + ([4, 1] : List Int).getD s.waitcnt.ws1_s.val 0 ∧
      (UpdateCycleLUT s).cycles32 Access.Nonsequential r =
        (UpdateCycleLUT s).cycles16 Access.Nonsequential r +
        (UpdateCycleLUT s).cycles16 Access.Sequential r ∧
      (UpdateCycleLUT s).cycles32 Access.Sequential r =
        2 * (UpdateCycleLUT s).cycles16 Access.Sequential r) ∧
    (∀ r, r = 0xC ∨ r = 0xD →
      (UpdateCycleLUT s).cycles16 Access.Nonsequential r =
        1 + ([4, 3, 2, 8] : List Int).getD s.waitcnt.ws2_n.val 0 ∧
      (UpdateCycleLUT s).cycles16 Access.Sequential r =
        1 + ([8, 1] : List Int).getD s.waitcnt.ws2_s.val 0 ∧
      (UpdateCycleLUT s).cycles32 Access.Nonsequential r =
        (UpdateCycleLUT s).cycles16 Access.Nonsequential r +
        (UpdateCycleLUT s).cycles16 Access.Sequential r ∧
      (UpdateCycleLUT s).cycles32 Access.Sequential r =
        2 * (UpdateCycleLUT s).cycles16 Access.Sequential r) ∧
    (s.waitcnt.ws0_n = 0 → s.waitcnt.ws0_s = 0 →
      (UpdateCycleLUT s).cycles16 Access.Nonsequential 0x8 = 5 ∧
      (UpdateCycleLUT s).cycles16 Access.Sequential 0x8 = 3) := by
  obtain ⟨⟨n8, n9, nA, nB, nC, nD⟩, ⟨s8, s9, sA, sB, sC, sD⟩, h32⟩ := UpdateCycleLUT_rom s
  simp only [s_ws_nseq_eq] at n8 n9 nA nB nC nD
  simp only [s_ws_seq0_eq, s_ws_seq1_eq, s_ws_seq2_eq] at s8 s9 sA sB sC sD
  refine ⟨?_, ?_, ?_, ?_⟩
  · rintro r (rfl | rfl)
    · exact ⟨n8, s8, h32 8 (by decide) (by decide)⟩
    · exact ⟨n9, s9, h32 9 (by decide) (by decide)⟩
  · rintro r (rfl | rfl)
    · exact ⟨nA, sA, h32 10 (by decide) (by decide)⟩
    · exact ⟨nB, sB, h32 11 (by decide) (by decide)⟩
  · rintro r (rfl | rfl)
    · exact ⟨nC, sC, h32 12 (by decide) (by decide)⟩
    · exact ⟨nD, sD, h32 13 (by decide) (by decide)⟩
  · intro hn hs
    rw [n8, s8, hn, hs]
    exact ⟨rfl, rfl⟩

/-- Witness of C2: the all-zero `WAITCNT` of `sampleCPU`. -/
theorem C2_rom_wait_states_witness :
    sampleCPU.waitcnt.ws0_n = 0 ∧ sampleCPU.waitcnt.ws0_s = 0 ∧
    (UpdateCycleLUT sampleCPU).cycles16 Access.Nonsequential 0x8 = 5 ∧
    (UpdateCycleLUT sampleCPU).cycles16 Access.Sequential 0x8 = 3 :=
  ⟨rfl, rfl, (C2_rom_wait_states sampleCPU).2.2.2 rfl rfl⟩

/-- C3.  With `WAITCNT.prefetch = 0`, for every address in regions 0x08 to 0x0C whose value
after `& rom.mask` is a multiple of `0x20000`, a read of any width and any declared access kind
lowers `ticks_cpu_left` by exactly the non-sequential table entry of the region and width: a
read declared Sequential pays the non-sequential entry, and a read declared Nonsequential pays
nothing extra. -/
theorem C3_boundary_reads (s : CPU) (a : Nat) (acc : Access)
    (hp : s.waitcnt.prefetch = false) (h8 : 8 ≤ a >>> 24) (h12 : a >>> 24 ≤ 12)
    (hb : (a &&& s.memory.rom.mask) % 0x20000 = 0) :
    (ReadByte s a acc).2.ticks_cpu_left =
      s.ticks_cpu_left - s.cycles16 Access.Nonsequential (a >>> 24) ∧
    (ReadHalf s a acc).2.ticks_cpu_left =
      s.ticks_cpu_left - s.cycles16 Access.Nonsequential (a >>> 24) ∧
    (ReadWord s a acc).2.ticks_cpu_left =
      s.ticks_cpu_left - s.cycles32 Access.Nonsequential (a >>> 24) := by
  have ha : a < 0x10000000 := by
    rw [Nat.shiftRight_eq_div_pow] at h12
    omega
  have hb2 : (a &&& s.memory.rom.mask) &&& 0x1FFFF = 0 := by
    have := Nat.and_pow_two_sub_one_eq_mod (a &&& s.memory.rom.mask) 17
    norm_num at this
    omega
  have h13 : a >>> 24 ≤ 13 := by omega
  have hne : ¬ (a >>> 24 = 13 ∧ IsEEPROMAddress s a = true) := by
    rintro ⟨h, -⟩
    omega
  refine ⟨?_, ?_, ?_⟩
  · rw [ReadByte_ticks s a acc hp ha, if_pos ⟨h8, h13, hb2⟩]
    ring
  · rw [ReadHalf_ticks s a acc hp ha, if_pos ⟨h8, h13, hb2, hne⟩]
    ring
  · rw [ReadWord_ticks s a acc hp ha, if_pos ⟨h8, h13, hb2⟩]
    ring

/-- Witness of C3: the sequential 16-bit read at `0x08020000` of the all-zero `WAITCNT` state
costs the non-sequential 5 cycles. -/
theorem C3_boundary_reads_witness :
    (ReadHalf lutCPU 0x08020000 Access.Sequential).2.ticks_cpu_left =
      lutCPU.ticks_cpu_left - 5 :=
  (C3_boundary_reads lutCPU 0x08020000 Access.Sequential (by decide) (by decide) (by decide)
    (by decide)).2.1

/-! ## Raw buffer access: read after write -/

theorem Read8_Write8_same (b : Nat → Nat) (i v : Nat) : Read8 (Write8 b i v) i = v % 256 := by
  simp [Read8, Write8]

theorem Read8_Write8_ne (b : Nat → Nat) (i j v : Nat) (h : j ≠ i) :
    Read8 (Write8 b i v) j = Read8 b j := by
  simp [Read8, Write8, h]

theorem Read16_Write16_same (b : Nat → Nat) (i v : Nat) :
    Read16 (Write16 b i v) i = v % 65536 := by
  unfold Read16 Write16
  rw [Read8_Write8_same, Read8_Write8_ne _ _ _ _ (by omega), Read8_Write8_same]
  omega

theorem Read16_Write16_ne (b : Nat → Nat) (i j v : Nat) (h1 : j + 1 < i ∨ i + 1 < j) :
    Read16 (Write16 b i v) j = Read16 b j := by
  unfold Read16 Write16
  rw [Read8_Write8_ne _ _ _ _ (by omega), Read8_Write8_ne _ _ _ _ (by omega),
    Read8_Write8_ne _ _ _ _ (by omega), Read8_Write8_ne _ _ _ _ (by omega)]

theorem Read32_Write32_same (b : Nat → Nat) (i v : Nat) :
    Read32 (Write32 b i v) i = v % 4294967296 := by
  unfold Read32 Write32
  rw [Read16_Write16_same, Read16_Write16_ne _ _ _ _ (by omega), Read16_Write16_same]
  omega

theorem Read8_Write16_same (b : Nat → Nat) (i v : Nat) :
    Read8 (Write16 b i v) i = v % 256 := by
  unfold Write16
  rw [Read8_Write8_ne _ _ _ _ (by omega), Read8_Write8_same]

/-! ## The RAM case labels of the bus operations -/

theorem ReadByte_ram (s : CPU) (a : Nat) (acc : Access) (h : isRAMPage (a >>> 24)) :
    (ReadByte s a acc).1 = Read8 (ramBuffer s.memory (a >>> 24)) (ramOffset a) := by
  obtain ⟨m1, -⟩ := accessTiming_frame s a (s.cycles16 acc (a >>> 24))
  unfold ReadByte ramOffset
  dsimp only
  generalize accessTiming s a _ = t at m1
  rcases h with h | h | h | h | h <;> simp [h, m1, ramBuffer]

theorem ReadHalf_ram (s : CPU) (a : Nat) (acc : Access) (h : isRAMPage (a >>> 24)) :
    (ReadHalf s a acc).1 = Read16 (ramBuffer s.memory (a >>> 24)) (ramOffset a) := by
  obtain ⟨m1, -⟩ := accessTiming_frame s a (s.cycles16 acc (a >>> 24))
  unfold ReadHalf ramOffset
  dsimp only
  generalize accessTiming s a _ = t at m1
  rcases h with h | h | h | h | h <;> simp [h, m1, ramBuffer]

theorem ReadWord_ram (s : CPU) (a : Nat) (acc : Access) (h : isRAMPage (a >>> 24)) :
    (ReadWord s a acc).1 = Read32 (ramBuffer s.memory (a >>> 24)) (ramOffset a) := by
  obtain ⟨m1, -⟩ := accessTiming_frame s a (s.cycles32 acc (a >>> 24))
  unfold ReadWord ramOffset
  dsimp only
  generalize accessTiming s a _ = t at m1
  rcases h with h | h | h | h | h <;> simp [h, m1, ramBuffer]

theorem WriteHalf_ram (s : CPU) (a v : Nat) (acc : Access) (h : isRAMPage (a >>> 24)) :
    ramBuffer (WriteHalf s a v acc).memory (a >>> 24) =
      Write16 (ramBuffer s.memory (a >>> 24)) (ramOffset a) v := by
  obtain ⟨m1, -⟩ := accessTiming_frame s a (s.cycles16 acc (a >>> 24))
  unfold WriteHalf ramOffset
  dsimp only
  generalize accessTiming s a _ = t at m1
  rcases h with h | h | h | h | h <;> simp [h, m1, ramBuffer]

theorem WriteWord_ram (s : CPU) (a v : Nat) (acc : Access) (h : isRAMPage (a >>> 24)) :
    ramBuffer (WriteWord s a v acc).memory (a >>> 24) =
      Write32 (ramBuffer s.memory (a >>> 24)) (ramOffset a) v := by
  obtain ⟨m1, -⟩ := accessTiming_frame s a (s.cycles32 acc (a >>> 24))
  unfold WriteWord ramOffset
  dsimp only
  generalize accessTiming s a _ = t at m1
  rcases h with h | h | h | h | h <;> simp [h, m1, ramBuffer]

/-- The byte write in the RAM regions: a byte store in EWRAM and IWRAM, a half-word store of
`value * 0x0101` in PRAM and in VRAM below offset `0x10000`, nothing in OAM and in VRAM from
offset `0x10000` on. -/
theorem WriteByte_ram (s : CPU) (a v : Nat) (acc : Access) (h : isRAMPage (a >>> 24)) :
    ramBuffer (WriteByte s a v acc).memory (a >>> 24) =
      (if a >>> 24 = 2 ∨ a >>> 24 = 3 then
         Write8 (ramBuffer s.memory (a >>> 24)) (ramOffset a) v
       else if a >>> 24 = 5 ∨ (a >>> 24 = 6 ∧ ramOffset a < 0x10000) then
         Write16 (ramBuffer s.memory (a >>> 24)) (ramOffset a) (v * 0x0101)
       else ramBuffer s.memory (a >>> 24)) := by
  obtain ⟨m1, -⟩ := accessTiming_frame s a (s.cycles16 acc (a >>> 24))
  unfold WriteByte ramOffset
  dsimp only
  generalize accessTiming s a _ = t at m1
  rcases h with h | h | h | h | h <;> simp [h, m1, ramBuffer]
  split_ifs <;> first | omega | simp_all [ramBuffer]

/-! ## Claims on the RAM regions -/

/-- C4, as stated, fails for the byte width: the 8-bit write of `0xAB` at the OAM address
`0x07000010`, and at the VRAM address `0x06010000` (offset `0x10000`), is dropped, and the
8-bit read that follows returns the byte stored before (`0x10`, respectively `0x00`). -/
theorem C4_counterexample :
    (isRAMPage (0x07000010 >>> 24) ∧
     (ReadByte (WriteByte sampleCPU 0x07000010 0xAB Access.Nonsequential) 0x07000010
        Access.Nonsequential).1 = 0x10 ∧
     (ReadByte (WriteByte sampleCPU 0x07000010 0xAB Access.Nonsequential) 0x07000010
        Access.Nonsequential).1 ≠ 0xAB) ∧
    (isRAMPage (0x06010000 >>> 24) ∧
     (ReadByte (WriteByte sampleCPU 0x06010000 0xAB Access.Nonsequential) 0x06010000
        Access.Nonsequential).1 = 0x00 ∧
     (ReadByte (WriteByte sampleCPU 0x06010000 0xAB Access.Nonsequential) 0x06010000
        Access.Nonsequential).1 ≠ 0xAB) := by
  decide

/-- C4, amended.  For every RAM region (EWRAM, IWRAM, PRAM, VRAM, OAM), every width w, every
w-aligned address `a` in the region and every w-bit value `v`, the w-bit write of `v` at `a`
followed by the w-bit read at `a` returns `v`, except for the 8-bit width in OAM and in VRAM
at a folded offset of `0x10000` or more. -/
theorem C4_ram_round_trip (s : CPU) (a v : Nat) (acc1 acc2 : Access)
    (hr : isRAMPage (a >>> 24)) :
    (v < 256 → a >>> 24 ≠ 7 → ¬ (a >>> 24 = 6 ∧ 0x10000 ≤ vramOffset a) →
      (ReadByte (WriteByte s a v acc1) a acc2).1 = v) ∧
    (v < 65536 → a % 2 = 0 → (ReadHalf (WriteHalf s a v acc1) a acc2).1 = v) ∧
    (v < 4294967296 → a % 4 = 0 → (ReadWord (WriteWord s a v acc1) a acc2).1 = v) := by
  refine ⟨?_, ?_, ?_⟩
  · intro hv h7 h6
    rw [ReadByte_ram _ _ _ hr, WriteByte_ram _ _ _ _ hr]
    have ho : a >>> 24 = 6 → ramOffset a = vramOffset a := by
      intro h
      simp [ramOffset, h]
    rcases hr with h | h | h | h | h
    · rw [if_pos (Or.inl h), Read8_Write8_same]
      omega
    · rw [if_pos (Or.inr h), Read8_Write8_same]
      omega
    · rw [if_neg (by omega), if_pos (Or.inl h), Read8_Write16_same]
      omega
    · have hlt : ramOffset a < 0x10000 := by
        rw [ho h]
        by_contra hc
        exact h6 ⟨h, by omega⟩
      rw [if_neg (by omega), if_pos (Or.inr ⟨h, hlt⟩), Read8_Write16_same]
      omega
    · exact absurd h h7
  · intro hv _
    rw [ReadHalf_ram _ _ _ hr, WriteHalf_ram _ _ _ _ hr, Read16_Write16_same]
    omega
  · intro hv _
    rw [ReadWord_ram _ _ _ hr, WriteWord_ram _ _ _ _ hr, Read32_Write32_same]
    omega

/-- Witness of C4 amended: byte `0xAB` at the PRAM address `0x05000100`, half-word `0xBEEF` at the
OAM address `0x07000010` and word `0xDEADBEEF` at the VRAM address `0x06010000`. -/
theorem C4_ram_round_trip_witness :
    (ReadByte (WriteByte sampleCPU 0x05000100 0xAB Access.Nonsequential) 0x05000100
       Access.Sequential).1 = 0xAB ∧
    (ReadHalf (WriteHalf sampleCPU 0x07000010 0xBEEF Access.Nonsequential) 0x07000010
       Access.Sequential).1 = 0xBEEF ∧
    (ReadWord (WriteWord sampleCPU 0x06010000 0xDEADBEEF Access.Nonsequential) 0x06010000
       Access.Sequential).1 = 0xDEADBEEF :=
  ⟨(C4_ram_round_trip sampleCPU 0x05000100 0xAB Access.Nonsequential Access.Sequential
      (by decide)).1 (by decide) (by decide) (by decide),
   (C4_ram_round_trip sampleCPU 0x07000010 0xBEEF Access.Nonsequential Access.Sequential
      (by decide)).2.1 (by decide) (by decide),
   (C4_ram_round_trip sampleCPU 0x06010000 0xDEADBEEF Access.Nonsequential Access.Sequential
      (by decide)).2.2 (by decide) (by decide)⟩

/-- C5.  For two half-word-aligned addresses `a` and `b` of the same RAM region with the same
masked offset (EWRAM `& 0x3FFFF`, IWRAM `& 0x7FFF`, PRAM and OAM `& 0x3FF`, VRAM `& 0x1FFFF`
with bit 15 cleared when that value is `0x18000` or more) and every 16-bit value `v`, a 16-bit
write of `v` at `a` followed by a 16-bit read at `b` returns `v`. -/
theorem C5_mirror_half (s : CPU) (a b v : Nat) (acc1 acc2 : Access)
    (hab : b >>> 24 = a >>> 24)
    (hm : (a >>> 24 = 2 ∧ a &&& 0x3FFFF = b &&& 0x3FFFF) ∨
          (a >>> 24 = 3 ∧ a &&& 0x7FFF = b &&& 0x7FFF) ∨
          (a >>> 24 = 5 ∧ a &&& 0x3FF = b &&& 0x3FF) ∨
          (a >>> 24 = 7 ∧ a &&& 0x3FF = b &&& 0x3FF) ∨
          (a >>> 24 = 6 ∧
            (if a &&& 0x1FFFF ≥ 0x18000 then (a &&& 0x1FFFF) &&& 0xFFFF7FFF else a &&& 0x1FFFF) =
            (if b &&& 0x1FFFF ≥ 0x18000 then (b &&& 0x1FFFF) &&& 0xFFFF7FFF else b &&& 0x1FFFF)))
    (_ha : a % 2 = 0) (_hb : b % 2 = 0) (hv : v < 65536) :
    (ReadHalf (WriteHalf s a v acc1) b acc2).1 = v := by
  have hr : isRAMPage (a >>> 24) := by
    unfold isRAMPage
    omega
  have ho : ramOffset b = ramOffset a := by
    unfold ramOffset vramOffset
    rw [hab]
    rcases hm with ⟨h, e⟩ | ⟨h, e⟩ | ⟨h, e⟩ | ⟨h, e⟩ | ⟨h, e⟩ <;> simp only [h] <;> exact e.symm
  rw [ReadHalf_ram _ _ _ (hab ▸ hr), hab, ho, WriteHalf_ram _ _ _ _ hr, Read16_Write16_same]
  omega

/-- Witness of C5: a half-word written through the VRAM mirror `0x06018000` is read back at
`0x06010000`. -/
theorem C5_mirror_half_witness :
    (ReadHalf (WriteHalf sampleCPU 0x06018000 0xBEEF Access.Nonsequential) 0x06010000
       Access.Nonsequential).1 = 0xBEEF :=
  C5_mirror_half sampleCPU 0x06018000 0x06010000 0xBEEF Access.Nonsequential
    Access.Nonsequential (by decide) (by decide) (by decide) (by decide) (by decide)

/-! ## Claims on the BIOS latch and the open bus -/

theorem page_zero_of_lt (a : Nat) (h : a < 0x4000) : a >>> 24 = 0 := by
  rw [Nat.shiftRight_eq_div_pow]
  omega

/-- The function `ReadBIOS` at an address below `0x4000`. -/
theorem ReadBIOS_low (s : CPU) (a : Nat) (ha : a < 0x4000) :
    (0x4000 ≤ s.r15 → ReadBIOS s a = (s.memory.bios_opcode >>> (8 * (a &&& 3)), s)) ∧
    (s.r15 < 0x4000 →
      (ReadBIOS s a).1 = Read32 s.memory.bios (a &&& 0xFFFFFFFC) >>> (8 * (a &&& 3)) ∧
      (ReadBIOS s a).2.memory.bios_opcode = Read32 s.memory.bios (a &&& 0xFFFFFFFC)) := by
  have hm : ¬ (0x4000 ≤ a &&& 0xFFFFFFFC) := by
    have := @Nat.and_le_left a 0xFFFFFFFC
    omega
  constructor
  · intro hr
    simp [ReadBIOS, hm, hr, Nat.mul_comm]
  · intro hr
    have hr2 : ¬ (0x4000 ≤ s.r15) := by omega
    simp [ReadBIOS, hm, hr2, Nat.mul_comm]

/-- C6.  For every BIOS address `a < 0x4000` and every read width: when `r15 >= 0x4000` the
read returns the latched `bios_opcode` shifted right by `8 * (a & 3)`, truncated to the width,
and leaves `bios_opcode` unchanged; when `r15 < 0x4000` the read sets `bios_opcode` to the
little-endian word at `bios[a & ~3]` and returns that word shifted right by `8 * (a & 3)`,
truncated to the width. -/
theorem C6_bios_read (s : CPU) (a : Nat) (acc : Access) (ha : a < 0x4000) :
    (0x4000 ≤ s.r15 →
      ((ReadByte s a acc).1 = (s.memory.bios_opcode >>> (8 * (a &&& 3))) % 256 ∧
       (ReadByte s a acc).2.memory.bios_opcode = s.memory.bios_opcode) ∧
      ((ReadHalf s a acc).1 = (s.memory.bios_opcode >>> (8 * (a &&& 3))) % 65536 ∧
       (ReadHalf s a acc).2.memory.bios_opcode = s.memory.bios_opcode) ∧
      ((ReadWord s a acc).1 = s.memory.bios_opcode >>> (8 * (a &&& 3)) ∧
       (ReadWord s a acc).2.memory.bios_opcode = s.memory.bios_opcode)) ∧
    (s.r15 < 0x4000 →
      ((ReadByte s a acc).1 =
         (Read32 s.memory.bios (a &&& 0xFFFFFFFC) >>> (8 * (a &&& 3))) % 256 ∧
       (ReadByte s a acc).2.memory.bios_opcode = Read32 s.memory.bios (a &&& 0xFFFFFFFC)) ∧
      ((ReadHalf s a acc).1 =
         (Read32 s.memory.bios (a &&& 0xFFFFFFFC) >>> (8 * (a &&& 3))) % 65536 ∧
       (ReadHalf s a acc).2.memory.bios_opcode = Read32 s.memory.bios (a &&& 0xFFFFFFFC)) ∧
      ((ReadWord s a acc).1 = Read32 s.memory.bios (a &&& 0xFFFFFFFC) >>> (8 * (a &&& 3)) ∧
       (ReadWord s a acc).2.memory.bios_opcode = Read32 s.memory.bios (a &&& 0xFFFFFFFC))) := by
  have hp := page_zero_of_lt a ha
  obtain ⟨m16, -, -, -, r16, -⟩ := accessTiming_frame s a (s.cycles16 acc 0)
  obtain ⟨m32, -, -, -, r32, -⟩ := accessTiming_frame s a (s.cycles32 acc 0)
  have b16 := ReadBIOS_low (accessTiming s a (s.cycles16 acc 0)) a ha
  have b32 := ReadBIOS_low (accessTiming s a (s.cycles32 acc 0)) a ha
  rw [r16, m16] at b16
  rw [r32, m32] at b32
  constructor
  · intro hr
    have e16 := b16.1 hr
    have e32 := b32.1 hr
    simp [ReadByte, ReadHalf, ReadWord, hp, e16, e32, m16, m32]
  · intro hr
    obtain ⟨v16, l16⟩ := b16.2 hr
    obtain ⟨v32, l32⟩ := b32.2 hr
    simp [ReadByte, ReadHalf, ReadWord, hp, v16, l16, v32, l32]

/-- Witness of C6: the 32-bit read at `0x00000100` with the program counter in the cartridge
returns the latch, and with the program counter at `0x00000200` it returns the BIOS word. -/
theorem C6_bios_read_witness :
    (ReadWord sampleCPU 0x100 Access.Nonsequential).1 = 0xE129F000 ∧
    (ReadWord { sampleCPU with r15 := 0x200 } 0x100 Access.Nonsequential).1 = 0x03020100 ∧
    (ReadWord { sampleCPU with r15 := 0x200 } 0x100
       Access.Nonsequential).2.memory.bios_opcode = 0x03020100 := by
  have h1 := (C6_bios_read sampleCPU 0x100 Access.Nonsequential (by decide)).1 (by decide)
  have h2 := (C6_bios_read { sampleCPU with r15 := 0x200 } 0x100 Access.Nonsequential
    (by decide)).2 (by decide)
  refine ⟨?_, ?_, ?_⟩
  · rw [h1.2.2.1]; decide
  · rw [h2.2.2.1]; decide
  · rw [h2.2.2.2]; decide

/-- C7.  For a read of an unmapped address `a` of region 0x1, with `op0` and `op1` the two
prefetched opcodes, the 32-bit result is `F >> (8 * (a & 3))` and the 8- and 16-bit results are
its truncations, where (in 32-bit arithmetic) `F = op1` in ARM state and, in Thumb state,
`F = op1 * 0x00010001` when `r15` is in EWRAM, PRAM, VRAM or a ROM region, or in BIOS or OAM with
`r15 & 3 == 0`; `F = op0 | (op1 << 16)` when `r15` is in BIOS, OAM or IWRAM with `r15 & 3 != 0`;
`F = op1 | (op0 << 16)` when `r15` is in IWRAM with `r15 & 3 == 0`. -/
theorem C7_open_bus (s : CPU) (a F : Nat) (acc : Access) (ha : a >>> 24 = 1)
    (hF : (s.thumb = false ∧ F = GetPrefetchedOpcode s 1) ∨
          (s.thumb = true ∧
            ((s.r15 >>> 24 = 2 ∨ s.r15 >>> 24 = 5 ∨ s.r15 >>> 24 = 6 ∨
              (8 ≤ s.r15 >>> 24 ∧ s.r15 >>> 24 ≤ 13)) ∨
             ((s.r15 >>> 24 = 0 ∨ s.r15 >>> 24 = 7) ∧ s.r15 &&& 3 = 0)) ∧
            F = (GetPrefetchedOpcode s 1 * 0x00010001) % 2 ^ 32) ∨
          (s.thumb = true ∧
            (s.r15 >>> 24 = 0 ∨ s.r15 >>> 24 = 7 ∨ s.r15 >>> 24 = 3) ∧ s.r15 &&& 3 ≠ 0 ∧
            F = GetPrefetchedOpcode s 0 ||| ((GetPrefetchedOpcode s 1 <<< 16) % 2 ^ 32)) ∨
          (s.thumb = true ∧ s.r15 >>> 24 = 3 ∧ s.r15 &&& 3 = 0 ∧
            F = GetPrefetchedOpcode s 1 ||| ((GetPrefetchedOpcode s 0 <<< 16) % 2 ^ 32))) :
    (ReadWord s a acc).1 = F >>> (8 * (a &&& 3)) ∧
    (ReadHalf s a acc).1 = (F >>> (8 * (a &&& 3))) % 65536 ∧
    (ReadByte s a acc).1 = (F >>> (8 * (a &&& 3))) % 256 := by
  have key : ∀ t : CPU, t.r15 = s.r15 → t.thumb = s.thumb → t.pipe_opcode = s.pipe_opcode →
      ReadUnused t a = F >>> (8 * (a &&& 3)) := by
    intro t h15 hth hpo
    have g : ∀ n, GetPrefetchedOpcode t n = GetPrefetchedOpcode s n := by
      intro n
      simp [GetPrefetchedOpcode, hpo]
    unfold ReadUnused
    simp only [h15, hth, g, Nat.mul_comm 8]
    rcases hF with ⟨ht, rfl⟩ | ⟨ht, hreg, rfl⟩ | ⟨ht, hreg, hal, rfl⟩ | ⟨ht, hreg, hal, rfl⟩
    · simp [ht]
    · rcases hreg with (h | h | h | ⟨h8, h13⟩) | ⟨h | h, hal⟩
      · simp [ht, h]
      · simp [ht, h]
      · simp [ht, h]
      · generalize s.r15 >>> 24 = p at h8 h13
        interval_cases p <;> simp [ht]
      · simp [ht, h, hal]
      · simp [ht, h, hal]
    · rcases hreg with h | h | h <;> simp [ht, h, hal]
    · simp [ht, hreg, hal]
  obtain ⟨-, -, -, -, r16, t16, o16, -⟩ := accessTiming_frame s a (s.cycles16 acc 1)
  obtain ⟨-, -, -, -, r32, t32, o32, -⟩ := accessTiming_frame s a (s.cycles32 acc 1)
  have k16 := key _ r16 t16 o16
  have k32 := key _ r32 t32 o32
  simp [ReadByte, ReadHalf, ReadWord, ha, k16, k32]

/-- Witness of C7: Thumb state, program counter in IWRAM and aligned, opcodes `0xAAAA` and
`0xBBBB`, word read at the unmapped address `0x01000000`. -/
theorem C7_open_bus_witness :
    (ReadWord { sampleCPU with thumb := true, r15 := 0x03000100 } 0x01000000
       Access.Nonsequential).1 = 0xAAAABBBB := by
  have h := C7_open_bus { sampleCPU with thumb := true, r15 := 0x03000100 } 0x01000000
    0xAAAABBBB Access.Nonsequential (by decide)
    (Or.inr (Or.inr (Or.inr ⟨rfl, by decide, by decide, by decide⟩)))
  rw [h.1]
  decide

/-! ## Claims on the cartridge ROM -/

theorem Tick_memory (s : CPU) (c : Int) : (Tick s c).memory = s.memory := (Tick_frame s c).1

theorem ReadByte_rom (s : CPU) (a : Nat) (acc : Access) (h8 : 8 ≤ a >>> 24)
    (h13 : a >>> 24 ≤ 13) :
    (ReadByte s a acc).1 =
      (if s.memory.rom.size ≤ a &&& s.memory.rom.mask then ((a &&& s.memory.rom.mask) / 2) % 256
       else Read8 s.memory.rom.data (a &&& s.memory.rom.mask)) := by
  obtain ⟨m1, -⟩ := accessTiming_frame s a (s.cycles16 acc (a >>> 24))
  unfold ReadByte
  dsimp only
  generalize accessTiming s a _ = t at m1
  generalize a >>> 24 = p at h8 h13
  interval_cases p <;> simp only [m1] <;> split_ifs <;> simp_all [Tick_memory]

theorem ReadHalfROM_value (s : CPU) (a p : Nat) (acc : Access) :
    (ReadHalfROM s a acc p).1 =
      (if s.memory.rom.size ≤ a &&& s.memory.rom.mask then
         ((a &&& s.memory.rom.mask) / 2) % 65536
       else Read16 s.memory.rom.data (a &&& s.memory.rom.mask)) := by
  unfold ReadHalfROM
  dsimp only
  split_ifs <;> simp_all [Tick_memory]

theorem ReadHalf_rom (s : CPU) (a : Nat) (acc : Access) (h8 : 8 ≤ a >>> 24)
    (h13 : a >>> 24 ≤ 13) (he : ¬ (a >>> 24 = 13 ∧ IsEEPROMAddress s a = true)) :
    (ReadHalf s a acc).1 =
      (if s.memory.rom.size ≤ a &&& s.memory.rom.mask then
         ((a &&& s.memory.rom.mask) / 2) % 65536
       else Read16 s.memory.rom.data (a &&& s.memory.rom.mask)) := by
  obtain ⟨m1, -⟩ := accessTiming_frame s a (s.cycles16 acc (a >>> 24))
  have hee : IsEEPROMAddress (accessTiming s a (s.cycles16 acc (a >>> 24))) a =
      IsEEPROMAddress s a := by
    simp [IsEEPROMAddress, HasEEPROMBackup, m1]
  unfold ReadHalf
  dsimp only
  generalize accessTiming s a _ = t at m1 hee
  generalize a >>> 24 = p at h8 h13 he
  interval_cases p <;> simp_all [ReadHalfROM_value]

theorem ReadWord_rom (s : CPU) (a : Nat) (acc : Access) (h8 : 8 ≤ a >>> 24)
    (h13 : a >>> 24 ≤ 13) :
    (ReadWord s a acc).1 =
      (if s.memory.rom.size ≤ a &&& s.memory.rom.mask then
         (((a &&& s.memory.rom.mask) / 2) &&& 0xFFFF) |||
           ((((((a &&& s.memory.rom.mask) + 2) % 2 ^ 32) / 2) <<< 16) % 2 ^ 32)
       else Read32 s.memory.rom.data (a &&& s.memory.rom.mask)) := by
  obtain ⟨m1, -⟩ := accessTiming_frame s a (s.cycles32 acc (a >>> 24))
  unfold ReadWord
  dsimp only
  generalize accessTiming s a _ = t at m1
  generalize a >>> 24 = p at h8 h13
  interval_cases p <;> simp only [m1] <;> split_ifs <;> simp_all [Tick_memory]

theorem or_mod_two_pow_eq (a b n : Nat) : (a ||| b) % 2 ^ n = a % 2 ^ n ||| b % 2 ^ n := by
  apply Nat.eq_of_testBit_eq
  intro i
  simp only [Nat.testBit_mod_two_pow, Nat.testBit_or]
  cases decide (i < n) <;> simp

/-- The out-of-range pattern of the 32-bit ROM read, computed in 32-bit arithmetic, is the
pattern over the naturals reduced modulo `2 ^ 32`. -/
theorem open_cart_word (m : Nat) (hm : m < 2 ^ 28) :
    ((m / 2) &&& 0xFFFF) ||| (((((m + 2) % 2 ^ 32) / 2) <<< 16) % 2 ^ 32) =
      (((m / 2) &&& 0xFFFF) ||| (((m + 2) / 2) <<< 16)) % 2 ^ 32 := by
  have h1 : (m + 2) % 2 ^ 32 = m + 2 := Nat.mod_eq_of_lt (by omega)
  have h2 : (m / 2) &&& 0xFFFF < 2 ^ 32 :=
    lt_of_le_of_lt (@Nat.and_le_right (m / 2) 0xFFFF) (by norm_num)
  rw [h1, or_mod_two_pow_eq, Nat.mod_eq_of_lt h2]

/-- C8, as stated, fails for the 16-bit width in region 0xD: with an EEPROM cartridge the
address `0x0D000000` is an EEPROM address, its masked value `0x01000000` lies past the 64 KiB
ROM, and the 16-bit read returns 1 (no DMA running), not `m / 2` truncated to 16 bits, which
is 0. -/
theorem C8_counterexample :
    0x0D000000 >>> 24 = 13 ∧
    eepromCPU.memory.rom.size ≤ 0x0D000000 &&& eepromCPU.memory.rom.mask ∧
    (ReadHalf eepromCPU 0x0D000000 Access.Nonsequential).1 = 1 ∧
    (ReadHalf eepromCPU 0x0D000000 Access.Nonsequential).1 ≠
      ((0x0D000000 &&& eepromCPU.memory.rom.mask) / 2) % 65536 := by
  decide

/-- C8, amended.  For every address `a` in a ROM region 0x8 to 0xD, with `m = a & rom.mask`, the
8-bit read, the 32-bit read, and the 16-bit read unless `a` is an EEPROM address of region 0xD,
return: if `m < rom.size`, the byte, little-endian half-word and little-endian word of
`rom.data` at offset `m`; if `m >= rom.size`, `m / 2` truncated to the width for 8 and 16 bits
and `((m / 2) & 0xFFFF) | (((m + 2) / 2) << 16)` modulo `2 ^ 32` for 32 bits. -/
theorem C8_rom_reads (s : CPU) (a : Nat) (acc : Access) (h8 : 8 ≤ a >>> 24)
    (h13 : a >>> 24 ≤ 13) :
    (a &&& s.memory.rom.mask < s.memory.rom.size →
      (ReadByte s a acc).1 = Read8 s.memory.rom.data (a &&& s.memory.rom.mask) ∧
      (¬ (a >>> 24 = 13 ∧ IsEEPROMAddress s a = true) →
        (ReadHalf s a acc).1 = Read16 s.memory.rom.data (a &&& s.memory.rom.mask)) ∧
      (ReadWord s a acc).1 = Read32 s.memory.rom.data (a &&& s.memory.rom.mask)) ∧
    (s.memory.rom.size ≤ a &&& s.memory.rom.mask →
      (ReadByte s a acc).1 = ((a &&& s.memory.rom.mask) / 2) % 256 ∧
      (¬ (a >>> 24 = 13 ∧ IsEEPROMAddress s a = true) →
        (ReadHalf s a acc).1 = ((a &&& s.memory.rom.mask) / 2) % 65536) ∧
      (ReadWord s a acc).1 =
        ((((a &&& s.memory.rom.mask) / 2) &&& 0xFFFF) |||
          ((((a &&& s.memory.rom.mask) + 2) / 2) <<< 16)) % 2 ^ 32) := by
  have hb := ReadByte_rom s a acc h8 h13
  have hh := ReadHalf_rom s a acc h8 h13
  have hw := ReadWord_rom s a acc h8 h13
  have hm : a &&& s.memory.rom.mask < 2 ^ 28 := by
    have h1 := @Nat.and_le_left a s.memory.rom.mask
    rw [Nat.shiftRight_eq_div_pow] at h13
    omega
  constructor
  · intro hlt
    have hn : ¬ (s.memory.rom.size ≤ a &&& s.memory.rom.mask) := by omega
    refine ⟨?_, ?_, ?_⟩
    · rw [hb, if_neg hn]
    · intro he
      rw [hh he, if_neg hn]
    · rw [hw, if_neg hn]
  · intro hge
    refine ⟨?_, ?_, ?_⟩
    · rw [hb, if_pos hge]
    · intro he
      rw [hh he, if_pos hge]
    · rw [hw, if_pos hge, open_cart_word _ hm]

/-- Witness of C8 amended: in the 64 KiB ramp-filled ROM the half-word at `0x08000102` is
`0x0302`, and the word read at `0x08010000`, past the end, is the address pattern. -/
theorem C8_rom_reads_witness :
    (ReadHalf sampleCPU 0x08000102 Access.Nonsequential).1 = 0x0302 ∧
    (ReadWord sampleCPU 0x08010000 Access.Nonsequential).1 = 0x80018000 := by
  have h := C8_rom_reads sampleCPU 0x08000102 Access.Nonsequential (by decide) (by decide)
  have g := C8_rom_reads sampleCPU 0x08010000 Access.Nonsequential (by decide) (by decide)
  refine ⟨?_, ?_⟩
  · rw [(h.1 (by decide)).2.1 (by decide)]; decide
  · rw [(g.2 (by decide)).2.2]; decide

/-! ## Discarded writes -/

theorem vramOffset_high (a : Nat) (h : 0x10000 ≤ a &&& 0x1FFFF) : 0x10000 ≤ vramOffset a := by
  unfold vramOffset
  dsimp only
  split_ifs with hc
  · have hlt : a &&& 0x1FFFF < 0x20000 := by
      have := Nat.and_pow_two_sub_one_eq_mod a 17
      norm_num at this
      omega
    obtain ⟨y, hy⟩ : ∃ y, a &&& 0x1FFFF = 2 ^ 16 + y := ⟨(a &&& 0x1FFFF) - 2 ^ 16, by omega⟩
    have hys : y < 2 ^ 16 := by omega
    have hb : ((a &&& 0x1FFFF) &&& 0xFFFF7FFF).testBit 16 = true := by
      rw [Nat.testBit_and, hy, Nat.testBit_two_pow_add_eq, Nat.testBit_lt_two_pow hys]
      decide
    have := Nat.testBit_implies_ge hb
    omega
  · exact h

theorem ite_Tick_memory (c : Prop) [Decidable c] (s : CPU) (x : Int) :
    (if c then Tick s x else s).memory = s.memory := by
  split_ifs
  · exact Tick_memory s x
  · rfl

/-- The value an 8-bit read returns depends on the state only through the memory record, the
program counter, the Thumb flag, the pipeline and the register inputs. -/
theorem ReadByte_value_congr (s t : CPU) (hm : t.memory = s.memory) (hr : t.r15 = s.r15)
    (hth : t.thumb = s.thumb) (ho : t.pipe_opcode = s.pipe_opcode) (hi : t.io_in = s.io_in)
    (a : Nat) (ha : a >>> 24 < 16) (acc : Access) :
    (ReadByte t a acc).1 = (ReadByte s a acc).1 := by
  obtain ⟨s1, -, -, -, s5, s6, s7, -, s9, -⟩ :=
    accessTiming_frame s a (s.cycles16 acc (a >>> 24))
  obtain ⟨t1, -, -, -, t5, t6, t7, -, t9, -⟩ :=
    accessTiming_frame t a (t.cycles16 acc (a >>> 24))
  rw [hm] at t1
  rw [hr] at t5
  rw [hth] at t6
  rw [ho] at t7
  rw [hi] at t9
  unfold ReadByte
  dsimp only
  generalize accessTiming s a (s.cycles16 acc (a >>> 24)) = s' at s1 s5 s6 s7 s9
  generalize accessTiming t a (t.cycles16 acc (a >>> 24)) = t' at t1 t5 t6 t7 t9
  generalize a >>> 24 = p at ha
  interval_cases p <;>
    simp only [ReadBIOS, ReadUnused, GetPrefetchedOpcode, ReadMMIO, backupRead,
      HasEEPROMBackup, ite_Tick_memory, s1, s5, s6, s7, s9, t1, t5, t6, t7, t9] <;>
    split_ifs <;> rfl

/-- The value a 16-bit read returns depends on the state only through the memory record, the
program counter, the Thumb flag, the pipeline, the DMA flag and the register inputs. -/
theorem ReadHalf_value_congr (s t : CPU) (hm : t.memory = s.memory) (hr : t.r15 = s.r15)
    (hth : t.thumb = s.thumb) (ho : t.pipe_opcode = s.pipe_opcode)
    (hd : t.dma_running = s.dma_running) (hi : t.io_in = s.io_in)
    (a : Nat) (ha : a >>> 24 < 16) (acc : Access) :
    (ReadHalf t a acc).1 = (ReadHalf s a acc).1 := by
  obtain ⟨s1, -, -, -, s5, s6, s7, s8, s9, -⟩ :=
    accessTiming_frame s a (s.cycles16 acc (a >>> 24))
  obtain ⟨t1, -, -, -, t5, t6, t7, t8, t9, -⟩ :=
    accessTiming_frame t a (t.cycles16 acc (a >>> 24))
  rw [hm] at t1
  rw [hr] at t5
  rw [hth] at t6
  rw [ho] at t7
  rw [hd] at t8
  rw [hi] at t9
  unfold ReadHalf
  dsimp only
  generalize accessTiming s a (s.cycles16 acc (a >>> 24)) = s' at s1 s5 s6 s7 s8 s9
  generalize accessTiming t a (t.cycles16 acc (a >>> 24)) = t' at t1 t5 t6 t7 t8 t9
  generalize a >>> 24 = p at ha
  interval_cases p <;>
    simp only [ReadBIOS, ReadUnused, GetPrefetchedOpcode, ReadMMIO, backupRead,
      HasEEPROMBackup, IsEEPROMAddress, ReadHalfROM, ite_Tick_memory, s1, s5, s6, s7, s8, s9,
      t1, t5, t6, t7, t8, t9] <;>
    split_ifs <;> rfl

/-- The value a 32-bit read returns depends on the state only through the memory record, the
program counter, the Thumb flag, the pipeline and the register inputs. -/
theorem ReadWord_value_congr (s t : CPU) (hm : t.memory = s.memory) (hr : t.r15 = s.r15)
    (hth : t.thumb = s.thumb) (ho : t.pipe_opcode = s.pipe_opcode) (hi : t.io_in = s.io_in)
    (a : Nat) (ha : a >>> 24 < 16) (acc : Access) :
    (ReadWord t a acc).1 = (ReadWord s a acc).1 := by
  obtain ⟨s1, -, -, -, s5, s6, s7, -, s9, -⟩ :=
    accessTiming_frame s a (s.cycles32 acc (a >>> 24))
  obtain ⟨t1, -, -, -, t5, t6, t7, -, t9, -⟩ :=
    accessTiming_frame t a (t.cycles32 acc (a >>> 24))
  rw [hm] at t1
  rw [hr] at t5
  rw [hth] at t6
  rw [ho] at t7
  rw [hi] at t9
  unfold ReadWord
  dsimp only
  generalize accessTiming s a (s.cycles32 acc (a >>> 24)) = s' at s1 s5 s6 s7 s9
  generalize accessTiming t a (t.cycles32 acc (a >>> 24)) = t' at t1 t5 t6 t7 t9
  generalize a >>> 24 = p at ha
  interval_cases p <;>
    simp only [ReadBIOS, ReadUnused, GetPrefetchedOpcode, ReadMMIO, backupRead,
      HasEEPROMBackup, ite_Tick_memory, s1, s5, s6, s7, s9, t1, t5, t6, t7, t9] <;>
    split_ifs <;> rfl

theorem WriteByte_frame (s : CPU) (a v : Nat) (acc : Access) (ha : a >>> 24 < 16) :
    (WriteByte s a v acc).r15 = s.r15 ∧ (WriteByte s a v acc).thumb = s.thumb ∧
    (WriteByte s a v acc).pipe_opcode = s.pipe_opcode ∧
    (WriteByte s a v acc).dma_running = s.dma_running ∧
    (WriteByte s a v acc).io_in = s.io_in := by
  obtain ⟨-, -, -, -, s5, s6, s7, s8, s9, -⟩ :=
    accessTiming_frame s a (s.cycles16 acc (a >>> 24))
  unfold WriteByte
  dsimp only
  generalize accessTiming s a _ = t at s5 s6 s7 s8 s9
  generalize a >>> 24 = p at ha
  interval_cases p <;> simp only [backupWrite, WriteMMIO] <;>
    first
      | exact ⟨s5, s6, s7, s8, s9⟩
      | (split_ifs <;> exact ⟨s5, s6, s7, s8, s9⟩)

theorem WriteHalf_frame (s : CPU) (a v : Nat) (acc : Access) (ha : a >>> 24 < 16) :
    (WriteHalf s a v acc).r15 = s.r15 ∧ (WriteHalf s a v acc).thumb = s.thumb ∧
    (WriteHalf s a v acc).pipe_opcode = s.pipe_opcode ∧
    (WriteHalf s a v acc).dma_running = s.dma_running ∧
    (WriteHalf s a v acc).io_in = s.io_in := by
  obtain ⟨-, -, -, -, s5, s6, s7, s8, s9, -⟩ :=
    accessTiming_frame s a (s.cycles16 acc (a >>> 24))
  unfold WriteHalf
  dsimp only
  generalize accessTiming s a _ = t at s5 s6 s7 s8 s9
  generalize a >>> 24 = p at ha
  interval_cases p <;> simp only [backupWrite, WriteMMIO] <;>
    first
      | exact ⟨s5, s6, s7, s8, s9⟩
      | (split_ifs <;> exact ⟨s5, s6, s7, s8, s9⟩)

theorem WriteWord_frame (s : CPU) (a v : Nat) (acc : Access) (ha : a >>> 24 < 16) :
    (WriteWord s a v acc).r15 = s.r15 ∧ (WriteWord s a v acc).thumb = s.thumb ∧
    (WriteWord s a v acc).pipe_opcode = s.pipe_opcode ∧
    (WriteWord s a v acc).dma_running = s.dma_running ∧
    (WriteWord s a v acc).io_in = s.io_in := by
  obtain ⟨-, -, -, -, s5, s6, s7, s8, s9, -⟩ :=
    accessTiming_frame s a (s.cycles32 acc (a >>> 24))
  unfold WriteWord
  dsimp only
  generalize accessTiming s a _ = t at s5 s6 s7 s8 s9
  generalize a >>> 24 = p at ha
  interval_cases p <;> simp only [backupWrite, WriteMMIO] <;>
    first
      | exact ⟨s5, s6, s7, s8, s9⟩
      | (split_ifs <;> exact ⟨s5, s6, s7, s8, s9⟩)

/-- A write that leaves the memory record alone is discarded in the sense of `discarded`. -/
theorem discarded_of_memory (s t : CPU) (a : Nat) (ha : a >>> 24 < 16)
    (hm : t.memory = s.memory)
    (hf : t.r15 = s.r15 ∧ t.thumb = s.thumb ∧ t.pipe_opcode = s.pipe_opcode ∧
          t.dma_running = s.dma_running ∧ t.io_in = s.io_in) :
    discarded s t a := by
  obtain ⟨h1, h2, h3, h4, h5⟩ := hf
  exact ⟨hm, fun acc =>
    ⟨ReadByte_value_congr s t hm h1 h2 h3 h5 a ha acc,
     ReadHalf_value_congr s t hm h1 h2 h3 h4 h5 a ha acc,
     ReadWord_value_congr s t hm h1 h2 h3 h5 a ha acc⟩⟩

/-- The byte write touches the memory record only under the labels EWRAM, IWRAM, PRAM, VRAM
below `0x10000`, and SRAM. -/
theorem WriteByte_memory (s : CPU) (a v : Nat) (acc : Access)
    (h : a >>> 24 = 0 ∨ a >>> 24 = 1 ∨ a >>> 24 = 7 ∨ (8 ≤ a >>> 24 ∧ a >>> 24 ≤ 13) ∨
         (a >>> 24 = 6 ∧ 0x10000 ≤ vramOffset a)) :
    (WriteByte s a v acc).memory = s.memory := by
  obtain ⟨m1, -⟩ := accessTiming_frame s a (s.cycles16 acc (a >>> 24))
  unfold WriteByte
  dsimp only
  generalize accessTiming s a _ = t at m1
  rcases h with h | h | h | ⟨h8, h13⟩ | ⟨h, hv⟩
  · simp [h, m1]
  · simp [h, m1]
  · simp [h, m1]
  · generalize a >>> 24 = p at h8 h13
    interval_cases p <;> simp [m1]
  · simp [h, m1, hv]

theorem WriteHalf_memory (s : CPU) (a v : Nat) (acc : Access)
    (h : a >>> 24 = 0 ∨ a >>> 24 = 1 ∨ (8 ≤ a >>> 24 ∧ a >>> 24 ≤ 12) ∨
         (a >>> 24 = 13 ∧ ¬ (IsEEPROMAddress s a = true ∧ s.dma_running = true))) :
    (WriteHalf s a v acc).memory = s.memory := by
  obtain ⟨m1, -, -, -, -, -, -, m8, -⟩ := accessTiming_frame s a (s.cycles16 acc (a >>> 24))
  have he : IsEEPROMAddress (accessTiming s a (s.cycles16 acc (a >>> 24))) a =
      IsEEPROMAddress s a := by
    simp [IsEEPROMAddress, HasEEPROMBackup, m1]
  unfold WriteHalf
  dsimp only
  generalize accessTiming s a _ = t at m1 m8 he
  rcases h with h | h | ⟨h8, h12⟩ | ⟨h, hd⟩
  · simp [h, m1]
  · simp [h, m1]
  · generalize a >>> 24 = p at h8 h12
    interval_cases p <;> simp [m1]
  · simp only [h, he, m8]
    split_ifs with h1 h2
    · exact m1
    · exact absurd ⟨h1, by simpa using h2⟩ hd
    · exact m1

theorem WriteWord_memory (s : CPU) (a v : Nat) (acc : Access)
    (h : a >>> 24 = 0 ∨ a >>> 24 = 1 ∨ (8 ≤ a >>> 24 ∧ a >>> 24 ≤ 13)) :
    (WriteWord s a v acc).memory = s.memory := by
  obtain ⟨m1, -⟩ := accessTiming_frame s a (s.cycles32 acc (a >>> 24))
  unfold WriteWord
  dsimp only
  generalize accessTiming s a _ = t at m1
  rcases h with h | h | ⟨h8, h13⟩
  · simp [h, m1]
  · simp [h, m1]
  · generalize a >>> 24 = p at h8 h13
    interval_cases p <;> simp [m1]

/-- C9.  A discarded write changes no storage: every 8-bit write to OAM, every 8-bit write to
VRAM whose offset `a & 0x1FFFF` is `0x10000` or more, every write of any width to the BIOS
region or to the unmapped region 0x1, and every write of any width to a ROM region 0x8 to 0xD
that is not a 16-bit EEPROM access made while DMA is running, leaves the memory record (all
buffers, `bios_opcode`, the backup store) as it was, and a following read at the address
returns what it returned before. -/
theorem C9_discarded_writes (s : CPU) (a v : Nat) (acc : Access) :
    (a >>> 24 = 7 → discarded s (WriteByte s a v acc) a) ∧
    (a >>> 24 = 6 → 0x10000 ≤ a &&& 0x1FFFF → discarded s (WriteByte s a v acc) a) ∧
    (a >>> 24 = 0 ∨ a >>> 24 = 1 →
      discarded s (WriteByte s a v acc) a ∧ discarded s (WriteHalf s a v acc) a ∧
      discarded s (WriteWord s a v acc) a) ∧
    (8 ≤ a >>> 24 → a >>> 24 ≤ 13 →
      discarded s (WriteByte s a v acc) a ∧ discarded s (WriteWord s a v acc) a ∧
      (¬ (a >>> 24 = 13 ∧ IsEEPROMAddress s a = true ∧ s.dma_running = true) →
        discarded s (WriteHalf s a v acc) a)) := by
  refine ⟨?_, ?_, ?_, ?_⟩
  · intro h
    have ha : a >>> 24 < 16 := by omega
    exact discarded_of_memory _ _ _ ha (WriteByte_memory s a v acc (by omega))
      (WriteByte_frame s a v acc ha)
  · intro h hv
    have ha : a >>> 24 < 16 := by omega
    exact discarded_of_memory _ _ _ ha
      (WriteByte_memory s a v acc (Or.inr (Or.inr (Or.inr (Or.inr ⟨h, vramOffset_high a hv⟩)))))
      (WriteByte_frame s a v acc ha)
  · intro h
    have ha : a >>> 24 < 16 := by omega
    exact ⟨discarded_of_memory _ _ _ ha (WriteByte_memory s a v acc (by omega))
        (WriteByte_frame s a v acc ha),
      discarded_of_memory _ _ _ ha (WriteHalf_memory s a v acc (by omega))
        (WriteHalf_frame s a v acc ha),
      discarded_of_memory _ _ _ ha (WriteWord_memory s a v acc (by omega))
        (WriteWord_frame s a v acc ha)⟩
  · intro h8 h13
    have ha : a >>> 24 < 16 := by omega
    refine ⟨discarded_of_memory _ _ _ ha (WriteByte_memory s a v acc (by omega))
        (WriteByte_frame s a v acc ha),
      discarded_of_memory _ _ _ ha (WriteWord_memory s a v acc (by omega))
        (WriteWord_frame s a v acc ha), ?_⟩
    intro he
    refine discarded_of_memory _ _ _ ha (WriteHalf_memory s a v acc ?_)
      (WriteHalf_frame s a v acc ha)
    by_cases h : a >>> 24 = 13
    · exact Or.inr (Or.inr (Or.inr ⟨h, fun hc => he ⟨h, hc.1, hc.2⟩⟩))
    · exact Or.inr (Or.inr (Or.inl ⟨h8, by omega⟩))

/-- Witness of C9: the byte `0xAB` written to VRAM at `0x06010000`, to OAM at `0x07000010`, to
the BIOS at `0x00000100` and to ROM at `0x08000000` is discarded. -/
theorem C9_discarded_writes_witness :
    discarded sampleCPU (WriteByte sampleCPU 0x07000010 0xAB Access.Nonsequential) 0x07000010 ∧
    discarded sampleCPU (WriteByte sampleCPU 0x06010000 0xAB Access.Nonsequential) 0x06010000 ∧
    discarded sampleCPU (WriteHalf sampleCPU 0x00000100 0xAB Access.Nonsequential) 0x00000100 ∧
    discarded eepromCPU (WriteHalf eepromCPU 0x0D000000 0xAB Access.Nonsequential) 0x0D000000 :=
  ⟨(C9_discarded_writes sampleCPU 0x07000010 0xAB Access.Nonsequential).1 (by decide),
   (C9_discarded_writes sampleCPU 0x06010000 0xAB Access.Nonsequential).2.1 (by decide)
     (by decide),
   ((C9_discarded_writes sampleCPU 0x00000100 0xAB Access.Nonsequential).2.2.1
     (by decide)).2.1,
   ((C9_discarded_writes eepromCPU 0x0D000000 0xAB Access.Nonsequential).2.2.2 (by decide)
     (by decide)).2.2 (by decide)⟩

/-! ## The byte write to PRAM and VRAM -/

/-- The byte write to PRAM, or to VRAM below `0x10000`, is a half-word store of `v * 0x0101` at
the masked offset itself: the byte at that offset and the next one become `v`, and no other
byte of the buffer changes.  For an even masked offset these two bytes are the half-word that
contains the offset. -/
theorem WriteByte_broadcast (s : CPU) (a v : Nat) (acc : Access) (hv : v < 256)
    (hp : a >>> 24 = 5 ∨ (a >>> 24 = 6 ∧ ramOffset a < 0x10000)) :
    Read16 (ramBuffer (WriteByte s a v acc).memory (a >>> 24)) (ramOffset a) = v * 0x0101 ∧
    ∀ i, i ≠ ramOffset a → i ≠ ramOffset a + 1 →
      ramBuffer (WriteByte s a v acc).memory (a >>> 24) i = ramBuffer s.memory (a >>> 24) i := by
  have hr : isRAMPage (a >>> 24) := by
    unfold isRAMPage
    omega
  rw [WriteByte_ram s a v acc hr, if_neg (by omega), if_pos hp]
  constructor
  · rw [Read16_Write16_same]
    omega
  · intro i h1 h2
    simp [Write16, Write8, h1, h2]

/-- C10 fails on the code at odd addresses.  The byte write of `0x12` at the PRAM address
`0x05000101` is a half-word store at offset `0x101`: the half-word containing the offset, at
`0x100`, becomes `0x1200` and not `0x1212`, and byte `0x102` of the next half-word changes from
`0x02` to `0x12`.  At `0x050003FF` the store reaches offset `0x400`, past the 1 KiB buffer, and
at the VRAM address `0x0600FFFF` it reaches offset `0x10000`, which the guard of the same case
label protects from byte writes.  At the even address `0x05000100` the half-word becomes
`0x1212`. -/
theorem C10_odd_address :
    (0x05000101 >>> 24 = 5 ∧
     Read16 sampleCPU.memory.pram 0x100 = 0x0100 ∧
     Read16 (WriteByte sampleCPU 0x05000101 0x12 Access.Nonsequential).memory.pram 0x100 =
       0x1200 ∧
     Read8 sampleCPU.memory.pram 0x102 = 0x02 ∧
     Read8 (WriteByte sampleCPU 0x05000101 0x12 Access.Nonsequential).memory.pram 0x102 =
       0x12) ∧
    (sampleCPU.memory.pram 0x400 = 0x00 ∧
     (WriteByte sampleCPU 0x050003FF 0x12 Access.Nonsequential).memory.pram 0x400 = 0x12) ∧
    (vramOffset 0x0600FFFF = 0xFFFF ∧
     Read8 sampleCPU.memory.vram 0x10000 = 0x00 ∧
     Read8 (WriteByte sampleCPU 0x0600FFFF 0x12 Access.Nonsequential).memory.vram 0x10000 =
       0x12) ∧
    Read16 (WriteByte sampleCPU 0x05000100 0x12 Access.Nonsequential).memory.pram 0x100 =
      0x1212 := by
  decide

/-! ## Claims on the SRAM regions -/

theorem HasEEPROMBackup_congr (s t : CPU) (h : t.memory = s.memory) :
    HasEEPROMBackup t = HasEEPROMBackup s := by
  simp [HasEEPROMBackup, h]

theorem Backup_Read_lt (b : Backup) (a : Nat) : b.Read a < 256 := by
  unfold Backup.Read
  omega

/-- The three reads in the SRAM regions, in terms of the state before the access. -/
theorem read_sram (s : CPU) (a : Nat) (acc : Access) (ha : a >>> 24 = 14 ∨ a >>> 24 = 15) :
    (ReadByte s a acc).1 =
      (if s.memory.rom.backup.isNone || HasEEPROMBackup s then 0
       else backupRead s (a &&& 0x0EFFFFFF)) ∧
    (ReadHalf s a acc).1 =
      (if s.memory.rom.backup.isNone || HasEEPROMBackup s then 0
       else (backupRead s (a &&& 0x0EFFFFFF) * 0x0101) % 65536) ∧
    (ReadWord s a acc).1 =
      (if s.memory.rom.backup.isNone || HasEEPROMBackup s then 0
       else (backupRead s (a &&& 0x0EFFFFFF) * 0x01010101) % 2 ^ 32) := by
  obtain ⟨m16, -⟩ := accessTiming_frame s a (s.cycles16 acc (a >>> 24))
  obtain ⟨m32, -⟩ := accessTiming_frame s a (s.cycles32 acc (a >>> 24))
  have e16 := HasEEPROMBackup_congr s _ m16
  have e32 := HasEEPROMBackup_congr s _ m32
  unfold ReadByte ReadHalf ReadWord
  dsimp only
  generalize accessTiming s a (s.cycles16 acc (a >>> 24)) = t at m16 e16
  generalize accessTiming s a (s.cycles32 acc (a >>> 24)) = u at m32 e32
  rcases ha with h | h <;> simp only [h, backupRead, m16, m32, e16, e32] <;>
    refine ⟨?_, ?_, ?_⟩ <;> split_ifs <;> rfl

/-- The three writes in the SRAM regions drop the value when no backup chip is present or the
chip is an EEPROM. -/
theorem write_sram_dropped (s : CPU) (a v : Nat) (acc : Access)
    (ha : a >>> 24 = 14 ∨ a >>> 24 = 15)
    (hb : (s.memory.rom.backup.isNone || HasEEPROMBackup s) = true) :
    (WriteByte s a v acc).memory = s.memory ∧ (WriteHalf s a v acc).memory = s.memory ∧
    (WriteWord s a v acc).memory = s.memory := by
  obtain ⟨m16, -⟩ := accessTiming_frame s a (s.cycles16 acc (a >>> 24))
  obtain ⟨m32, -⟩ := accessTiming_frame s a (s.cycles32 acc (a >>> 24))
  have e16 := HasEEPROMBackup_congr s _ m16
  have e32 := HasEEPROMBackup_congr s _ m32
  unfold WriteByte WriteHalf WriteWord
  dsimp only
  generalize accessTiming s a (s.cycles16 acc (a >>> 24)) = t at m16 e16
  generalize accessTiming s a (s.cycles32 acc (a >>> 24)) = u at m32 e32
  rcases ha with h | h <;> simp only [h, m16, m32, e16, e32, hb] <;> simp [m16, m32]

/-- C11.  For every address `a` in the SRAM regions 0xE and 0xF: if a backup chip `b` is present
and is not an EEPROM, the 8-bit read returns `b.Read (a & 0x0EFFFFFF)`, the 16-bit read that
byte times `0x0101` and the 32-bit read that byte times `0x01010101`; if no backup is present
or the backup is an EEPROM, all three reads return 0 and writes of every width leave the backup
store (the whole memory record) unchanged. -/
theorem C11_sram (s : CPU) (a v : Nat) (acc : Access)
    (ha : a >>> 24 = 14 ∨ a >>> 24 = 15) :
    (∀ b : Backup, s.memory.rom.backup = some b → HasEEPROMBackup s = false →
      (ReadByte s a acc).1 = b.Read (a &&& 0x0EFFFFFF) ∧
      (ReadHalf s a acc).1 = b.Read (a &&& 0x0EFFFFFF) * 0x0101 ∧
      (ReadWord s a acc).1 = b.Read (a &&& 0x0EFFFFFF) * 0x01010101) ∧
    (s.memory.rom.backup = none ∨ HasEEPROMBackup s = true →
      (ReadByte s a acc).1 = 0 ∧ (ReadHalf s a acc).1 = 0 ∧ (ReadWord s a acc).1 = 0 ∧
      (WriteByte s a v acc).memory.rom.backup = s.memory.rom.backup ∧
      (WriteHalf s a v acc).memory.rom.backup = s.memory.rom.backup ∧
      (WriteWord s a v acc).memory.rom.backup = s.memory.rom.backup) := by
  obtain ⟨r8, r16, r32⟩ := read_sram s a acc ha
  constructor
  · intro b hb he
    have hc : ¬ ((s.memory.rom.backup.isNone || HasEEPROMBackup s) = true) := by
      simp [hb, he]
    have hlt := Backup_Read_lt b (a &&& 0x0EFFFFFF)
    have hr : backupRead s (a &&& 0x0EFFFFFF) = b.Read (a &&& 0x0EFFFFFF) := by
      simp [backupRead, hb]
    rw [r8, r16, r32, if_neg hc, if_neg hc, if_neg hc, hr]
    refine ⟨rfl, ?_, ?_⟩
    · exact Nat.mod_eq_of_lt (by omega)
    · exact Nat.mod_eq_of_lt (by omega)
  · intro h
    have hc : (s.memory.rom.backup.isNone || HasEEPROMBackup s) = true := by
      rcases h with h | h
      · simp [h]
      · simp [h]
    obtain ⟨w8, w16, w32⟩ := write_sram_dropped s a v acc ha hc
    rw [r8, r16, r32, if_pos hc, if_pos hc, if_pos hc, w8, w16, w32]
    exact ⟨rfl, rfl, rfl, rfl, rfl, rfl⟩

/-- Witness of C11: with an SRAM chip the word read at the mirror address `0x0F000012` is the
byte `0x12` of the chip four times; without a chip the half-word read at `0x0E000012` is 0. -/
theorem C11_sram_witness :
    (ReadWord sramCPU 0x0F000012 Access.Nonsequential).1 = 0x12121212 ∧
    (ReadHalf sampleCPU 0x0E000012 Access.Nonsequential).1 = 0 := by
  have h := (C11_sram sramCPU 0x0F000012 0 Access.Nonsequential (by decide)).1
    { kind := BackupKind.SRAM, store := rampBuffer } rfl (by decide)
  have g := (C11_sram sampleCPU 0x0E000012 0 Access.Nonsequential (by decide)).2
    (Or.inl rfl)
  refine ⟨?_, g.2.1⟩
  rw [h.2.2]
  decide

/-- The function `UpdateCycleLUT` writes row 0xE of both tables and leaves row 0xF as it was. -/
theorem UpdateCycleLUT_sram (s : CPU) (acc : Access) :
    (UpdateCycleLUT s).cycles16 acc 0xE = 1 + s_ws_nseq s.waitcnt.sram ∧
    (UpdateCycleLUT s).cycles32 acc 0xE = 1 + s_ws_nseq s.waitcnt.sram ∧
    (UpdateCycleLUT s).cycles16 acc 0xF = s.cycles16 acc 0xF ∧
    (UpdateCycleLUT s).cycles32 acc 0xF = s.cycles32 acc 0xF := by
  cases acc <;> simp [UpdateCycleLUT, setRow]

/-- C12 fails on the code for region 0xF.  For every state and access kind `UpdateCycleLUT`
leaves the entries of region 0xF of both tables as they were, while those of region 0xE become
`1 + NSEQ[waitcnt.sram]`; on the all-zero `WAITCNT` with unit tables the entry of region 0xF
stays 1 where the claim gives `1 + NSEQ[0] = 5`. -/
theorem C12_region_F_untouched :
    (∀ (s : CPU) (acc : Access),
      (UpdateCycleLUT s).cycles16 acc 0xF = s.cycles16 acc 0xF ∧
      (UpdateCycleLUT s).cycles32 acc 0xF = s.cycles32 acc 0xF ∧
      (UpdateCycleLUT s).cycles16 acc 0xE =
        1 + ([4, 3, 2, 8] : List Int).getD s.waitcnt.sram.val 0 ∧
      (UpdateCycleLUT s).cycles32 acc 0xE =
        1 + ([4, 3, 2, 8] : List Int).getD s.waitcnt.sram.val 0) ∧
    (sampleCPU.waitcnt.sram = 0 ∧
     (UpdateCycleLUT sampleCPU).cycles16 Access.Nonsequential 0xF = 1 ∧
     (UpdateCycleLUT sampleCPU).cycles32 Access.Sequential 0xF = 1 ∧
     (UpdateCycleLUT sampleCPU).cycles16 Access.Nonsequential 0xE = 5 ∧
     (1 : Int) + ([4, 3, 2, 8] : List Int).getD sampleCPU.waitcnt.sram.val 0 = 5) := by
  refine ⟨?_, by decide⟩
  intro s acc
  obtain ⟨h1, h2, h3, h4⟩ := UpdateCycleLUT_sram s acc
  rw [s_ws_nseq_eq] at h1 h2
  exact ⟨h3, h4, h1, h2⟩

/-! ## Addresses with bits 31..28 set -/

theorem ReadUnused_congr (s t : CPU) (hr : t.r15 = s.r15) (hth : t.thumb = s.thumb)
    (ho : t.pipe_opcode = s.pipe_opcode) (a : Nat) : ReadUnused t a = ReadUnused s a := by
  simp only [ReadUnused, GetPrefetchedOpcode, hr, hth, ho]

/-- The three reads at a region code of 16 or more take the `default` label. -/
theorem read_high (s : CPU) (a : Nat) (acc : Access) (h : 16 ≤ a >>> 24) :
    ReadByte s a acc =
      (ReadUnused s a % 256, accessTiming s a (s.cycles16 acc (a >>> 24))) ∧
    ReadHalf s a acc =
      (ReadUnused s a % 65536, accessTiming s a (s.cycles16 acc (a >>> 24))) ∧
    ReadWord s a acc = (ReadUnused s a, accessTiming s a (s.cycles32 acc (a >>> 24))) := by
  obtain ⟨-, -, -, -, r16, t16, o16, -⟩ := accessTiming_frame s a (s.cycles16 acc (a >>> 24))
  obtain ⟨-, -, -, -, r32, t32, o32, -⟩ := accessTiming_frame s a (s.cycles32 acc (a >>> 24))
  have k16 := ReadUnused_congr s _ r16 t16 o16 a
  have k32 := ReadUnused_congr s _ r32 t32 o32 a
  unfold ReadByte ReadHalf ReadWord
  dsimp only
  rw [k16, k32]
  generalize accessTiming s a (s.cycles16 acc (a >>> 24)) = t
  generalize accessTiming s a (s.cycles32 acc (a >>> 24)) = u
  generalize a >>> 24 = p at h
  refine ⟨?_, ?_, ?_⟩ <;> split <;> first | omega | rfl

/-- The three writes at a region code of 16 or more take no case label. -/
theorem write_high (s : CPU) (a v : Nat) (acc : Access) (h : 16 ≤ a >>> 24) :
    WriteByte s a v acc = accessTiming s a (s.cycles16 acc (a >>> 24)) ∧
    WriteHalf s a v acc = accessTiming s a (s.cycles16 acc (a >>> 24)) ∧
    WriteWord s a v acc = accessTiming s a (s.cycles32 acc (a >>> 24)) := by
  unfold WriteByte WriteHalf WriteWord
  dsimp only
  generalize accessTiming s a (s.cycles16 acc (a >>> 24)) = t
  generalize accessTiming s a (s.cycles32 acc (a >>> 24)) = u
  generalize a >>> 24 = p at h
  refine ⟨?_, ?_, ?_⟩ <;> split <;> first | omega | rfl

/-- C13, as stated, fails: bits 31..28 are not ignored.  The byte read at `0x12000010` returns
the open-bus byte `0xBB` while the read at `0x12000010 & 0x0FFFFFFF = 0x02000010` returns the
EWRAM byte `0x10`; the byte write at `0x12000010` leaves EWRAM alone while the one at
`0x02000010` stores; and with the prefetch unit disabled the 16-bit read at `0x18000004` is
charged `cycles16[..][0x18] = 1` while the one at `0x08000004` is charged 5. -/
theorem C13_counterexample :
    0x12000010 &&& 0x0FFFFFFF = 0x02000010 ∧
    (ReadByte sampleCPU 0x12000010 Access.Nonsequential).1 = 0xBB ∧
    (ReadByte sampleCPU 0x02000010 Access.Nonsequential).1 = 0x10 ∧
    (WriteByte sampleCPU 0x12000010 0xAB Access.Nonsequential).memory.wram 0x10 = 0x10 ∧
    (WriteByte sampleCPU 0x02000010 0xAB Access.Nonsequential).memory.wram 0x10 = 0xAB ∧
    0x18000004 &&& 0x0FFFFFFF = 0x08000004 ∧
    (ReadHalf lutCPU 0x18000004 Access.Nonsequential).2.ticks_cpu_left =
      lutCPU.ticks_cpu_left - 1 ∧
    (ReadHalf lutCPU 0x08000004 Access.Nonsequential).2.ticks_cpu_left =
      lutCPU.ticks_cpu_left - 5 := by
  decide

/-- C13, amended.  Bits 31..28 of an address are not ignored: the region code used for dispatch
and for the cycle lookup is `a >> 24`, from 0 to 255.  For every address `a` with region code
16 or more (`a >= 0x10000000`), every width and every access kind, a read returns the open-bus
value truncated to the width, a write changes no storage, and with `WAITCNT.prefetch = 0` the
access is charged `cycles16[access][a >> 24]` (8 and 16 bits) or `cycles32[access][a >> 24]`
(32 bits). -/
theorem C13_high_addresses (s : CPU) (a v : Nat) (acc : Access) (h : 16 ≤ a >>> 24) :
    ((ReadByte s a acc).1 = ReadUnused s a % 256 ∧
     (ReadHalf s a acc).1 = ReadUnused s a % 65536 ∧
     (ReadWord s a acc).1 = ReadUnused s a) ∧
    ((WriteByte s a v acc).memory = s.memory ∧ (WriteHalf s a v acc).memory = s.memory ∧
     (WriteWord s a v acc).memory = s.memory) ∧
    (s.waitcnt.prefetch = false →
      (ReadByte s a acc).2.ticks_cpu_left = s.ticks_cpu_left - s.cycles16 acc (a >>> 24) ∧
      (ReadHalf s a acc).2.ticks_cpu_left = s.ticks_cpu_left - s.cycles16 acc (a >>> 24) ∧
      (ReadWord s a acc).2.ticks_cpu_left = s.ticks_cpu_left - s.cycles32 acc (a >>> 24) ∧
      (WriteByte s a v acc).ticks_cpu_left = s.ticks_cpu_left - s.cycles16 acc (a >>> 24) ∧
      (WriteHalf s a v acc).ticks_cpu_left = s.ticks_cpu_left - s.cycles16 acc (a >>> 24) ∧
      (WriteWord s a v acc).ticks_cpu_left = s.ticks_cpu_left - s.cycles32 acc (a >>> 24)) := by
  obtain ⟨r8, r16, r32⟩ := read_high s a acc h
  obtain ⟨w8, w16, w32⟩ := write_high s a v acc h
  obtain ⟨m16, -⟩ := accessTiming_frame s a (s.cycles16 acc (a >>> 24))
  obtain ⟨m32, -⟩ := accessTiming_frame s a (s.cycles32 acc (a >>> 24))
  rw [r8, r16, r32, w8, w16, w32]
  refine ⟨⟨rfl, rfl, rfl⟩, ⟨m16, m16, m32⟩, ?_⟩
  intro hp
  have t16 := accessTiming_ticks s a (s.cycles16 acc (a >>> 24)) hp
  have t32 := accessTiming_ticks s a (s.cycles32 acc (a >>> 24)) hp
  exact ⟨t16, t16, t32, t16, t16, t32⟩

/-- Witness of C13 amended: the byte read at `0x12000010` is the open-bus byte `0xBB`. -/
theorem C13_high_addresses_witness :
    (ReadByte sampleCPU 0x12000010 Access.Nonsequential).1 = 0xBB := by
  rw [(C13_high_addresses sampleCPU 0x12000010 0 Access.Nonsequential (by decide)).1.1]
  decide

/-! ## Claims on single prefetch steps -/

/-- A `Tick` that finds no fetch in flight changes only the clock and the timer log. -/
theorem Tick_inactive (s : CPU) (c : Int) (h : s.prefetch.active = false) :
    (Tick s c).prefetch = s.prefetch ∧ (Tick s c).last_rom_address = s.last_rom_address := by
  unfold Tick
  simp [h]

/-- The first branch statement of `PrefetchStep` at a ROM address: an active fetch is
cancelled, nothing else changes. -/
theorem arbitrate_rom (s : CPU) (a : Nat) (h : IsROMAddress a = true) :
    (PrefetchStep.arbitrate s a).prefetch = { s.prefetch with active := false } ∨
    ((PrefetchStep.arbitrate s a).prefetch = s.prefetch ∧ s.prefetch.active = false) := by
  unfold PrefetchStep.arbitrate
  dsimp only
  cases ha : s.prefetch.active
  · right
    simp [h]
  · left
    simp [h]

theorem track_rom (s : CPU) (a : Nat) (h : IsROMAddress a = true) :
    PrefetchStep.track s a = { s with last_rom_address := a } := by
  simp [PrefetchStep.track, h]

/-- C18.  For every prefetch state with `count > 0` and every ROM address `a` with `a == r15`,
`a != prefetch.address[rd_pos]` and `a` not the target of an in-flight fetch,
`PrefetchStep(a, cycles)` ends with `active = false` and `count = rd_pos = wr_pos = 0`, and
lowers `ticks_cpu_left` by exactly `cycles`. -/
theorem C18_flush_on_branch (s : CPU) (a : Nat) (cycles : Int)
    (hc : 0 < s.prefetch.count) (hrom : IsROMAddress a = true) (hpc : a = s.r15)
    (hne : a ≠ s.prefetch.address s.prefetch.rd_pos)
    (hin : ¬ (s.prefetch.active = true ∧ a = s.prefetch.address s.prefetch.wr_pos)) :
    (PrefetchStep s a cycles).prefetch.active = false ∧
    (PrefetchStep s a cycles).prefetch.count = 0 ∧
    (PrefetchStep s a cycles).prefetch.rd_pos = 0 ∧
    (PrefetchStep s a cycles).prefetch.wr_pos = 0 ∧
    (PrefetchStep s a cycles).ticks_cpu_left = s.ticks_cpu_left - cycles := by
  have hhit : ¬ ((s.prefetch.active && a == s.prefetch.address s.prefetch.wr_pos) = true) := by
    simpa using hin
  obtain ⟨-, -, -, -, ar, -⟩ := arbitrate_frame s a
  have ap : (PrefetchStep.arbitrate s a).prefetch.count = s.prefetch.count ∧
      (PrefetchStep.arbitrate s a).prefetch.rd_pos = s.prefetch.rd_pos ∧
      (PrefetchStep.arbitrate s a).prefetch.address = s.prefetch.address ∧
      (PrefetchStep.arbitrate s a).ticks_cpu_left = s.ticks_cpu_left := by
    unfold PrefetchStep.arbitrate
    dsimp only
    cases s.prefetch.active <;> simp [hrom]
  obtain ⟨ac, ard, aad, at_⟩ := ap
  unfold PrefetchStep
  rw [if_neg hhit]
  generalize PrefetchStep.arbitrate s a = t at ar ac ard aad at_
  rw [track_rom t a hrom]
  have hcond : (decide (t.prefetch.count > 0) && a == t.r15) = true := by
    rw [ac, ar, ← hpc]
    simp [hc]
  have hne2 : ¬ ((a == t.prefetch.address t.prefetch.rd_pos) = true) := by
    rw [aad, ard]
    simpa using hne
  unfold PrefetchStep.consume
  dsimp only
  rw [if_pos hcond, if_neg hne2]
  have hT := Tick_inactive { t with
    last_rom_address := a
    prefetch := { t.prefetch with active := false, count := 0, rd_pos := 0, wr_pos := 0 } }
    cycles rfl
  rw [Tick_ticks, hT.1]
  exact ⟨rfl, rfl, rfl, rfl, by rw [← at_]⟩

/-- Witness of C18: the buffer holds one opcode, `0x08000002`, the program counter is there, and
the CPU fetches at `0x08100000` after a branch. -/
theorem C18_flush_on_branch_witness :
    (PrefetchStep { lutCPU with
        r15 := 0x08100000,
        prefetch := { lutCPU.prefetch with
          count := 1, wr_pos := 1, address := fun _ => 0x08000002 } }
      0x08100000 5).prefetch.count = 0 :=
  (C18_flush_on_branch { lutCPU with
        r15 := 0x08100000,
        prefetch := { lutCPU.prefetch with
          count := 1, wr_pos := 1, address := fun _ => 0x08000002 } }
      0x08100000 5 (by decide) (by decide) (by decide) (by decide) (by decide)).2.1

/-! ## Claims on open-bus scenarios -/

/-- The open-bus word in Thumb state with the program counter in IWRAM and word-aligned. -/
theorem ReadUnused_iwram_aligned (s : CPU) (a : Nat) (ht : s.thumb = true)
    (hr : s.r15 >>> 24 = 3) (hal : s.r15 &&& 3 = 0) :
    ReadUnused s a =
      (GetPrefetchedOpcode s 1 ||| ((GetPrefetchedOpcode s 0 <<< 16) % 2 ^ 32)) >>>
        ((a &&& 3) * 8) := by
  simp [ReadUnused, ht, hr, hal]

/-- C19, as stated, fails: `0x0F000000` is not an unmapped address but lies in the SRAM mirror
region 0xF.  In Thumb state with `r15 = 0x03000100`, `op0 = 0xAAAA`, `op1 = 0xBBBB` and no
backup chip the 32-bit read at `0x0F000000` returns 0, and with an SRAM chip it returns the
replicated chip byte, not `0xAAAABBBB`. -/
theorem C19_counterexample :
    iwramThumbCPU.thumb = true ∧ iwramThumbCPU.r15 = 0x03000100 ∧
    GetPrefetchedOpcode iwramThumbCPU 0 = 0xAAAA ∧
    GetPrefetchedOpcode iwramThumbCPU 1 = 0xBBBB ∧
    (ReadWord iwramThumbCPU 0x0F000000 Access.Nonsequential).1 = 0 ∧
    (ReadWord iwramThumbCPU 0x0F000000 Access.Nonsequential).1 ≠ 0xAAAABBBB ∧
    (ReadWord { sramCPU with thumb := true, r15 := 0x03000100 } 0x0F000012
       Access.Nonsequential).1 = 0x12121212 := by
  decide

/-- C19, amended.  With the CPU in Thumb state, `r15 = 0x03000100`, prefetched opcodes
`op0 = 0xAAAA` and `op1 = 0xBBBB`, and any cartridge and backup configuration, a read at the
unmapped address `0x01000000 + k` (`k` in 0..3) returns `0xAAAABBBB >> (8 * k)` truncated to
the read width.  A read at `0x0F000000 + k` is an SRAM read: it returns 0 when no backup chip is
present or the chip is an EEPROM, and otherwise the chip byte replicated over the width. -/
theorem C19_open_bus_iwram (s : CPU) (k : Nat) (acc : Access) (ht : s.thumb = true)
    (hr : s.r15 = 0x03000100) (h0 : GetPrefetchedOpcode s 0 = 0xAAAA)
    (h1 : GetPrefetchedOpcode s 1 = 0xBBBB) (hk : k < 4) :
    ((ReadWord s (0x01000000 + k) acc).1 = 0xAAAABBBB >>> (8 * k) ∧
     (ReadHalf s (0x01000000 + k) acc).1 = (0xAAAABBBB >>> (8 * k)) % 65536 ∧
     (ReadByte s (0x01000000 + k) acc).1 = (0xAAAABBBB >>> (8 * k)) % 256) ∧
    ((ReadByte s (0x0F000000 + k) acc).1 =
       (if s.memory.rom.backup.isNone || HasEEPROMBackup s then 0
        else backupRead s ((0x0F000000 + k) &&& 0x0EFFFFFF)) ∧
     (ReadHalf s (0x0F000000 + k) acc).1 =
       (if s.memory.rom.backup.isNone || HasEEPROMBackup s then 0
        else (backupRead s ((0x0F000000 + k) &&& 0x0EFFFFFF) * 0x0101) % 65536) ∧
     (ReadWord s (0x0F000000 + k) acc).1 =
       (if s.memory.rom.backup.isNone || HasEEPROMBackup s then 0
        else (backupRead s ((0x0F000000 + k) &&& 0x0EFFFFFF) * 0x01010101) % 2 ^ 32)) := by
  have hu : ReadUnused s (0x01000000 + k) = 0xAAAABBBB >>> (8 * k) := by
    rw [ReadUnused_iwram_aligned s _ ht (by rw [hr]; decide) (by rw [hr]; decide), h0, h1]
    interval_cases k <;> decide
  have hp1 : (0x01000000 + k) >>> 24 = 1 := by
    interval_cases k <;> decide
  have hpF : (0x0F000000 + k) >>> 24 = 14 ∨ (0x0F000000 + k) >>> 24 = 15 := by
    right
    interval_cases k <;> decide
  obtain ⟨-, -, -, -, r16, t16, o16, -⟩ := accessTiming_frame s (0x01000000 + k)
    (s.cycles16 acc 1)
  obtain ⟨-, -, -, -, r32, t32, o32, -⟩ := accessTiming_frame s (0x01000000 + k)
    (s.cycles32 acc 1)
  have k16 := ReadUnused_congr s _ r16 t16 o16 (0x01000000 + k)
  have k32 := ReadUnused_congr s _ r32 t32 o32 (0x01000000 + k)
  refine ⟨?_, read_sram s (0x0F000000 + k) acc hpF⟩
  simp only [ReadByte, ReadHalf, ReadWord, hp1, k16, k32, hu]
  trivial

/-- Witness of C19 amended: the word read at `0x01000000` is `0xAAAABBBB`, the byte read at
`0x01000003` is `0xAA`. -/
theorem C19_open_bus_iwram_witness :
    (ReadWord iwramThumbCPU 0x01000000 Access.Nonsequential).1 = 0xAAAABBBB ∧
    (ReadByte iwramThumbCPU 0x01000003 Access.Nonsequential).1 = 0xAA :=
  ⟨(C19_open_bus_iwram iwramThumbCPU 0 Access.Nonsequential rfl rfl (by decide) (by decide)
      (by decide)).1.1,
   (C19_open_bus_iwram iwramThumbCPU 3 Access.Nonsequential rfl rfl (by decide) (by decide)
      (by decide)).1.2.2⟩

/-! ## Region 0 above the BIOS -/

theorem and_not_three (a : Nat) (h : a < 2 ^ 32) : a &&& 0xFFFFFFFC = a / 4 * 4 := by
  have e : a / 4 * 4 = (a >>> 2) <<< 2 := by
    rw [Nat.shiftRight_eq_div_pow, Nat.shiftLeft_eq]
  have c : (0xFFFFFFFC : Nat) = (2 ^ 30 - 1) <<< 2 := by decide
  rw [e, c]
  apply Nat.eq_of_testBit_eq
  intro i
  simp only [Nat.testBit_and, Nat.testBit_shiftLeft, Nat.testBit_shiftRight,
    Nat.testBit_two_pow_sub_one]
  by_cases h2 : 2 ≤ i
  · by_cases h32 : i < 32
    · have e1 : 2 + (i - 2) = i := by omega
      have e2 : i - 2 < 30 := by omega
      simp [h2, e1, e2]
    · have hlt : a < 2 ^ i :=
        lt_of_lt_of_le h (Nat.pow_le_pow_right (by decide) (by omega))
      have e1 : 2 + (i - 2) = i := by omega
      have e2 : ¬ (i - 2 < 30) := by omega
      simp [h2, e1, e2, Nat.testBit_lt_two_pow hlt]
  · simp [h2]

/-- The function `ReadBIOS` at an address of region 0 from `0x4000` on: open bus, whatever the
program counter is. -/
theorem ReadBIOS_high (s : CPU) (a : Nat) (hp : a >>> 24 = 0) (ha : 0x4000 ≤ a) :
    ReadBIOS s a = (ReadUnused s a, s) := by
  have hlt : a < 2 ^ 32 := by
    rw [Nat.shiftRight_eq_div_pow] at hp
    omega
  have hge : 0x4000 ≤ a &&& 0xFFFFFFFC := by
    rw [and_not_three a hlt]
    omega
  have hz : (a &&& 0xFFFFFFFC) &&& 3 = 0 := by
    rw [Nat.and_assoc]
    have : (0xFFFFFFFC : Nat) &&& 3 = 0 := by decide
    rw [this, Nat.and_zero]
  unfold ReadBIOS
  dsimp only
  rw [if_pos hge]
  simp [ReadUnused, hz]

/-- C20, as stated, fails for reads issued from outside the BIOS: with `r15 = 0x08000000` (ARM
state, `op1 = 0xBBBB`) and the latch holding `0xE129F000`, the 32-bit read at `0x00004000`
returns the open-bus word `0xBBBB`, not the latch. -/
theorem C20_counterexample :
    0x00004000 >>> 24 = 0 ∧ 0x4000 ≤ sampleCPU.r15 ∧
    sampleCPU.memory.bios_opcode = 0xE129F000 ∧
    (ReadWord sampleCPU 0x00004000 Access.Nonsequential).1 = 0xBBBB ∧
    (ReadWord sampleCPU 0x00004000 Access.Nonsequential).1 ≠
      sampleCPU.memory.bios_opcode >>> (8 * (0x00004000 &&& 3)) := by
  decide

/-- C20, amended.  For every read in region 0x0 at an address `a >= 0x4000`, whatever `r15` is
(inside or outside the BIOS), the read returns the open-bus value for the byte lane of `a`,
truncated to the width, and `bios_opcode` is left unchanged. -/
theorem C20_above_bios (s : CPU) (a : Nat) (acc : Access) (hp : a >>> 24 = 0)
    (ha : 0x4000 ≤ a) :
    ((ReadWord s a acc).1 = ReadUnused s a ∧
     (ReadHalf s a acc).1 = ReadUnused s a % 65536 ∧
     (ReadByte s a acc).1 = ReadUnused s a % 256) ∧
    ((ReadWord s a acc).2.memory.bios_opcode = s.memory.bios_opcode ∧
     (ReadHalf s a acc).2.memory.bios_opcode = s.memory.bios_opcode ∧
     (ReadByte s a acc).2.memory.bios_opcode = s.memory.bios_opcode) := by
  obtain ⟨m16, -, -, -, r16, t16, o16, -⟩ := accessTiming_frame s a (s.cycles16 acc 0)
  obtain ⟨m32, -, -, -, r32, t32, o32, -⟩ := accessTiming_frame s a (s.cycles32 acc 0)
  have k16 := ReadUnused_congr s _ r16 t16 o16 a
  have k32 := ReadUnused_congr s _ r32 t32 o32 a
  have b16 := ReadBIOS_high (accessTiming s a (s.cycles16 acc 0)) a hp ha
  have b32 := ReadBIOS_high (accessTiming s a (s.cycles32 acc 0)) a hp ha
  simp only [ReadByte, ReadHalf, ReadWord, hp, b16, b32, k16, k32, m16, m32]
  trivial

/-- Witness of C20 amended: the word read at `0x00004000` with the program counter in the
cartridge is the open-bus word `0xBBBB`, and the latch keeps `0xE129F000`. -/
theorem C20_above_bios_witness :
    (ReadWord sampleCPU 0x00004000 Access.Nonsequential).1 = 0xBBBB ∧
    (ReadWord sampleCPU 0x00004000 Access.Nonsequential).2.memory.bios_opcode = 0xE129F000 := by
  have h := C20_above_bios sampleCPU 0x00004000 Access.Nonsequential (by decide) (by decide)
  refine ⟨?_, ?_⟩
  · rw [h.1.1]; decide
  · rw [h.2.1]; decide

/-! ## Back-to-back opcode fetches from ROM -/

/-- A prefetch step at a ROM address with no fetch in flight and an empty buffer: the full
cost is ticked, the address is remembered, the buffer stays empty and idle. -/
theorem PrefetchStep_rom_idle (s : CPU) (a : Nat) (c : Int) (hrom : IsROMAddress a = true)
    (hact : s.prefetch.active = false) (hcnt : s.prefetch.count = 0) :
    (PrefetchStep s a c).ticks_cpu_left = s.ticks_cpu_left - c ∧
    (PrefetchStep s a c).prefetch = s.prefetch := by
  have hhit : ¬ ((s.prefetch.active && a == s.prefetch.address s.prefetch.wr_pos) = true) := by
    simp [hact]
  have ha : PrefetchStep.arbitrate s a = s := by
    unfold PrefetchStep.arbitrate
    simp [hact, hrom]
  unfold PrefetchStep
  rw [if_neg hhit, ha, track_rom s a hrom]
  unfold PrefetchStep.consume
  have hc : ¬ ((decide (s.prefetch.count > 0) && a == s.r15) = true) := by
    simp [hcnt]
  dsimp only
  rw [if_neg hc, Tick_ticks]
  exact ⟨rfl, (Tick_inactive { s with last_rom_address := a } c hact).1⟩

/-- One opcode fetch from region 0x8 with the prefetch unit enabled, idle and empty: the table
entry is paid, plus the boundary penalty when the masked address has its low 17 bits zero; the
unit stays idle and empty. -/
theorem fetchHalf_rom_idle (s : CPU) (a : Nat) (acc : Access) (hp : s.waitcnt.prefetch = true)
    (ha : a >>> 24 = 8) (hact : s.prefetch.active = false) (hcnt : s.prefetch.count = 0) :
    (fetchHalf s a acc).ticks_cpu_left =
      s.ticks_cpu_left - s.cycles16 acc 8 -
        (if (a &&& s.memory.rom.mask) &&& 0x1FFFF = 0 then
           s.cycles16 Access.Nonsequential 8 - s.cycles16 acc 8
         else 0) ∧
    (fetchHalf s a acc).prefetch.active = false ∧ (fetchHalf s a acc).prefetch.count = 0 ∧
    (fetchHalf s a acc).waitcnt = s.waitcnt ∧ (fetchHalf s a acc).cycles16 = s.cycles16 ∧
    (fetchHalf s a acc).memory = s.memory := by
  have hrom : IsROMAddress a = true := by
    simp [IsROMAddress, ha]
  obtain ⟨pt, pp⟩ := PrefetchStep_rom_idle { s with r15 := a } a (s.cycles16 acc 8) hrom hact hcnt
  obtain ⟨fm, fw, fc, -⟩ := PrefetchStep_frame { s with r15 := a } a (s.cycles16 acc 8)
  have hact2 : (PrefetchStep { s with r15 := a } a (s.cycles16 acc 8)).prefetch.active = false := by
    rw [pp]
    exact hact
  unfold fetchHalf ReadHalf
  dsimp only
  simp only [ha, accessTiming, hp, if_true, ReadHalfROM]
  generalize PrefetchStep { s with r15 := a } a (s.cycles16 acc 8) = t at pt pp fm fw fc hact2
  simp only [fm, fc]
  have hT := fun x => Tick_inactive t x hact2
  have hF := fun x => Tick_frame t x
  split_ifs <;>
    simp only [Tick_ticks, (hT _).1, (hF _).1, (hF _).2.1, (hF _).2.2.1, pt, pp, fm, fw, fc,
      hact, hcnt] <;>
    simp

/-- Back-to-back opcode fetches from region 0x8 never start a prefetch: each pays its full
cost. -/
theorem fetchRun_rom_idle (l : List (Nat × Access)) :
    ∀ s : CPU, s.waitcnt.prefetch = true → s.prefetch.active = false →
      s.prefetch.count = 0 → (∀ f ∈ l, f.1 >>> 24 = 8) →
      (fetchRun s l).ticks_cpu_left = s.ticks_cpu_left - (l.map (fullCost16 s)).sum ∧
      (fetchRun s l).prefetch.active = false ∧ (fetchRun s l).prefetch.count = 0 := by
  induction l with
  | nil =>
    intro s _ hact hcnt _
    simp [fetchRun, hact, hcnt]
  | cons f l ih =>
    intro s hp hact hcnt hl
    obtain ⟨t1, t2, t3, t4, t5, t6⟩ :=
      fetchHalf_rom_idle s f.1 f.2 hp (hl f (List.mem_cons_self f l)) hact hcnt
    have hstep : fetchRun s (f :: l) = fetchRun (fetchHalf s f.1 f.2) l := rfl
    have hcost : fullCost16 (fetchHalf s f.1 f.2) = fullCost16 s := by
      funext g
      simp [fullCost16, t5, t6]
    obtain ⟨i1, i2, i3⟩ := ih (fetchHalf s f.1 f.2) (by rw [t4]; exact hp) t2 t3
      (fun g hg => hl g (List.mem_cons_of_mem f hg))
    rw [hstep]
    refine ⟨?_, i2, i3⟩
    rw [i1, t1]
    simp only [hcost, List.map_cons, List.sum_cons, fullCost16]
    ring

/-- C17, as stated, fails: with `WAITCNT.prefetch = 1`, Thumb state, the prefetch record as
`Reset` leaves it and the tables of an all-zero `WAITCNT` (16-bit WS0: 5 non-sequential, 3
sequential), the eight fetches lower `ticks_cpu_left` by `5 + 7 * 3 = 26`, not by
`5 + 7 = 12`. -/
theorem C17_counterexample :
    prefetchCPU.waitcnt.prefetch = true ∧ prefetchCPU.thumb = true ∧
    prefetchCPU.prefetch.active = false ∧ prefetchCPU.prefetch.count = 0 ∧
    prefetchCPU.prefetch.rd_pos = 0 ∧ prefetchCPU.prefetch.wr_pos = 0 ∧
    prefetchCPU.last_rom_address = 0 ∧
    prefetchCPU.cycles16 Access.Nonsequential 0x8 = 5 ∧
    (fetchRun prefetchCPU happyPathFetches).ticks_cpu_left = prefetchCPU.ticks_cpu_left - 26 ∧
    (fetchRun prefetchCPU happyPathFetches).ticks_cpu_left ≠
      prefetchCPU.ticks_cpu_left - (prefetchCPU.cycles16 Access.Nonsequential 0x8 + 7) := by
  have h := (fetchRun_rom_idle happyPathFetches prefetchCPU (by decide) (by decide)
    (by decide) (by decide)).1
  refine ⟨by decide, by decide, by decide, by decide, by decide, by decide, by decide,
    by decide, ?_, ?_⟩
  · rw [h]
    decide
  · rw [h]
    decide

/-- C17, amended.  With `WAITCNT.prefetch = 1`, the prefetch unit idle and empty (as `Reset`
leaves it), in either CPU state, and none of the seven addresses `0x08000002` to `0x0800000E`
on a 128 KiB boundary after masking, the eight consecutive 16-bit opcode fetches at
`0x08000000`, ..., `0x0800000E` (the first Nonsequential, the other seven Sequential, `r15`
equal to the fetched address) lower `ticks_cpu_left` by exactly
`cycles16[Nonsequential][0x8] + 7 * cycles16[Sequential][0x8]`: no fetch is prefetched, because
the unit starts a fetch only during an access outside the ROM. -/
theorem C17_back_to_back_fetches (s : CPU) (hp : s.waitcnt.prefetch = true)
    (hact : s.prefetch.active = false) (hcnt : s.prefetch.count = 0)
    (hmask : ∀ f ∈ happyPathFetches.tail, (f.1 &&& s.memory.rom.mask) &&& 0x1FFFF ≠ 0) :
    (fetchRun s happyPathFetches).ticks_cpu_left =
      s.ticks_cpu_left -
        (s.cycles16 Access.Nonsequential 0x8 + 7 * s.cycles16 Access.Sequential 0x8) := by
  have hreg : ∀ f ∈ happyPathFetches, f.1 >>> 24 = 8 := by decide
  rw [(fetchRun_rom_idle happyPathFetches s hp hact hcnt hreg).1]
  have h1 := hmask (0x08000002, Access.Sequential) (by decide)
  have h2 := hmask (0x08000004, Access.Sequential) (by decide)
  have h3 := hmask (0x08000006, Access.Sequential) (by decide)
  have h4 := hmask (0x08000008, Access.Sequential) (by decide)
  have h5 := hmask (0x0800000A, Access.Sequential) (by decide)
  have h6 := hmask (0x0800000C, Access.Sequential) (by decide)
  have h7 := hmask (0x0800000E, Access.Sequential) (by decide)
  simp only [happyPathFetches, List.map_cons, List.map_nil, List.sum_cons, List.sum_nil,
    fullCost16, if_neg h1, if_neg h2, if_neg h3, if_neg h4, if_neg h5, if_neg h6, if_neg h7]
  split_ifs <;> ring

/-- Witness of C17 amended: the all-zero `WAITCNT` tables with the prefetch unit enabled. -/
theorem C17_back_to_back_fetches_witness :
    (fetchRun prefetchCPU happyPathFetches).ticks_cpu_left = prefetchCPU.ticks_cpu_left - 26 := by
  rw [C17_back_to_back_fetches prefetchCPU (by decide) (by decide) (by decide) (by decide)]
  decide

/-! ## The prefetch count in reachable states -/

theorem thumbToArmCPU_reachable : Reachable thumbToArmCPU := by
  unfold thumbToArmCPU fillRound
  dsimp only
  apply Reachable.cpu
  iterate 5 (apply Reachable.tick; apply Reachable.idle)
  apply Reachable.readHalf
  apply Reachable.cpu
  apply Reachable.waitcnt
  apply Reachable.reset

theorem thumbToArmCPU_eval :
    thumbToArmCPU.thumb = false ∧ thumbToArmCPU.prefetch.count = 5 ∧
    ¬ (thumbToArmCPU.prefetch.count ≤ (if thumbToArmCPU.thumb then 8 else 4)) := by
  decide

theorem bounded_ite (c : Prop) [Decidable c] (A B : CPU)
    (hA : c → prefetchBounded A.prefetch) (hB : ¬ c → prefetchBounded B.prefetch) :
    prefetchBounded (if c then A else B).prefetch := by
  split_ifs with h
  · exact hA h
  · exact hB h

theorem Tick_bounded (s : CPU) (c : Int) (h : prefetchBounded s.prefetch) :
    prefetchBounded (Tick s c).prefetch := by
  obtain ⟨h1, h2⟩ := h
  unfold Tick
  dsimp only
  apply bounded_ite
  · intro ha
    have hlt := h2 ha
    apply bounded_ite
    · intro _
      exact ⟨by dsimp only; omega, fun hc => by simp at hc⟩
    · intro _
      exact ⟨h1, fun _ => hlt⟩
  · intro _
    exact ⟨h1, h2⟩

theorem arbitrate_bounded (s : CPU) (a : Nat) (h : prefetchBounded s.prefetch) :
    prefetchBounded (PrefetchStep.arbitrate s a).prefetch := by
  obtain ⟨h1, h2⟩ := h
  unfold PrefetchStep.arbitrate
  dsimp only
  apply bounded_ite
  · intro _
    apply bounded_ite
    · intro _
      exact ⟨h1, fun hc => by simp at hc⟩
    · intro _
      exact ⟨h1, h2⟩
  · intro _
    apply bounded_ite
    · intro hs
      have hlt : s.prefetch.count < 8 := by
        simp only [Bool.and_eq_true, decide_eq_true_eq] at hs
        have := hs.1.1.1
        split_ifs at this <;> omega
      exact ⟨h1, fun _ => hlt⟩
    · intro _
      exact ⟨h1, h2⟩

theorem track_prefetch (s : CPU) (a : Nat) :
    (PrefetchStep.track s a).prefetch = s.prefetch := by
  unfold PrefetchStep.track
  split_ifs <;> rfl

theorem consume_bounded (s : CPU) (a : Nat) (c : Int) (h : prefetchBounded s.prefetch) :
    prefetchBounded (PrefetchStep.consume s a c).prefetch := by
  obtain ⟨h1, h2⟩ := h
  unfold PrefetchStep.consume
  split_ifs
  · apply Tick_bounded
    exact ⟨by dsimp only; omega, fun _ => by dsimp only; omega⟩
  · apply Tick_bounded
    exact ⟨by dsimp only; omega, fun hc => by simp at hc⟩
  · exact Tick_bounded s c ⟨h1, h2⟩

theorem PrefetchStep_bounded (s : CPU) (a : Nat) (c : Int) (h : prefetchBounded s.prefetch) :
    prefetchBounded (PrefetchStep s a c).prefetch := by
  unfold PrefetchStep
  split_ifs with hhit
  · have hact : s.prefetch.active = true := by
      simp only [Bool.and_eq_true] at hhit
      exact hhit.1
    have hlt := h.2 hact
    exact ⟨by dsimp only; omega, fun _ => hlt⟩
  · apply consume_bounded
    rw [track_prefetch]
    exact arbitrate_bounded s a h

theorem accessTiming_bounded (s : CPU) (a : Nat) (c : Int) (h : prefetchBounded s.prefetch) :
    prefetchBounded (accessTiming s a c).prefetch := by
  unfold accessTiming
  split_ifs
  · exact PrefetchStep_bounded s a c h
  · exact Tick_bounded s c h

theorem ite_Tick_bounded (c : Prop) [Decidable c] (s : CPU) (x : Int)
    (h : prefetchBounded s.prefetch) : prefetchBounded (if c then Tick s x else s).prefetch := by
  split_ifs
  · exact Tick_bounded s x h
  · exact h

theorem ReadBIOS_prefetch (s : CPU) (a : Nat) : (ReadBIOS s a).2.prefetch = s.prefetch := by
  unfold ReadBIOS
  dsimp only
  split_ifs <;> rfl

theorem ReadByte_bounded (s : CPU) (a : Nat) (acc : Access) (h : prefetchBounded s.prefetch) :
    prefetchBounded (ReadByte s a acc).2.prefetch := by
  have ht := accessTiming_bounded s a (s.cycles16 acc (a >>> 24)) h
  unfold ReadByte
  dsimp only
  generalize accessTiming s a (s.cycles16 acc (a >>> 24)) = t at ht
  split <;> first
    | exact ht
    | (rw [ReadBIOS_prefetch]; exact ht)
    | (split_ifs <;> first | exact ht | exact Tick_bounded _ _ ht)

theorem ReadHalfROM_bounded (s : CPU) (a p : Nat) (acc : Access)
    (h : prefetchBounded s.prefetch) : prefetchBounded (ReadHalfROM s a acc p).2.prefetch := by
  unfold ReadHalfROM
  dsimp only
  split_ifs <;> first | exact h | exact Tick_bounded _ _ h

theorem ReadHalf_bounded (s : CPU) (a : Nat) (acc : Access) (h : prefetchBounded s.prefetch) :
    prefetchBounded (ReadHalf s a acc).2.prefetch := by
  have ht := accessTiming_bounded s a (s.cycles16 acc (a >>> 24)) h
  unfold ReadHalf
  dsimp only
  generalize accessTiming s a (s.cycles16 acc (a >>> 24)) = t at ht
  split <;> first
    | exact ht
    | (rw [ReadBIOS_prefetch]; exact ht)
    | exact ReadHalfROM_bounded _ _ _ _ ht
    | (split_ifs <;> first | exact ht | exact ReadHalfROM_bounded _ _ _ _ ht)

theorem ReadWord_bounded (s : CPU) (a : Nat) (acc : Access) (h : prefetchBounded s.prefetch) :
    prefetchBounded (ReadWord s a acc).2.prefetch := by
  have ht := accessTiming_bounded s a (s.cycles32 acc (a >>> 24)) h
  unfold ReadWord
  dsimp only
  generalize accessTiming s a (s.cycles32 acc (a >>> 24)) = t at ht
  split <;> first
    | exact ht
    | (rw [ReadBIOS_prefetch]; exact ht)
    | (split_ifs <;> first | exact ht | exact Tick_bounded _ _ ht)

theorem WriteByte_bounded (s : CPU) (a v : Nat) (acc : Access)
    (h : prefetchBounded s.prefetch) : prefetchBounded (WriteByte s a v acc).prefetch := by
  have ht := accessTiming_bounded s a (s.cycles16 acc (a >>> 24)) h
  unfold WriteByte
  dsimp only
  generalize accessTiming s a (s.cycles16 acc (a >>> 24)) = t at ht
  split <;> first
    | exact ht
    | (split_ifs <;> exact ht)

theorem WriteHalf_bounded (s : CPU) (a v : Nat) (acc : Access)
    (h : prefetchBounded s.prefetch) : prefetchBounded (WriteHalf s a v acc).prefetch := by
  have ht := accessTiming_bounded s a (s.cycles16 acc (a >>> 24)) h
  unfold WriteHalf
  dsimp only
  generalize accessTiming s a (s.cycles16 acc (a >>> 24)) = t at ht
  split <;> first
    | exact ht
    | (split_ifs <;> exact ht)

theorem WriteWord_bounded (s : CPU) (a v : Nat) (acc : Access)
    (h : prefetchBounded s.prefetch) : prefetchBounded (WriteWord s a v acc).prefetch := by
  have ht := accessTiming_bounded s a (s.cycles32 acc (a >>> 24)) h
  unfold WriteWord
  dsimp only
  generalize accessTiming s a (s.cycles32 acc (a >>> 24)) = t at ht
  split <;> first
    | exact ht
    | (split_ifs <;> exact ht)

theorem UpdateCycleLUT_prefetch (s : CPU) : (UpdateCycleLUT s).prefetch = s.prefetch := rfl

theorem Reset_prefetch (s : CPU) (skip_bios : Bool) :
    (Reset s skip_bios).prefetch.active = false ∧ (Reset s skip_bios).prefetch.count = 0 ∧
    (Reset s skip_bios).prefetch.rd_pos = 0 ∧ (Reset s skip_bios).prefetch.wr_pos = 0 ∧
    (Reset s skip_bios).last_rom_address = 0 := by
  unfold Reset
  cases skip_bios <;> exact ⟨rfl, rfl, rfl, rfl, rfl⟩

/-- Every reachable state keeps the bound `prefetchBounded`. -/
theorem Reachable_bounded (s : CPU) (h : Reachable s) : prefetchBounded s.prefetch := by
  induction h with
  | reset s skip_bios =>
    obtain ⟨h1, h2, -⟩ := Reset_prefetch s skip_bios
    exact ⟨by rw [h2]; decide, fun hc => by rw [h1] at hc; cases hc⟩
  | readByte s a acc _ ih => exact ReadByte_bounded s a acc ih
  | readHalf s a acc _ ih => exact ReadHalf_bounded s a acc ih
  | readWord s a acc _ ih => exact ReadWord_bounded s a acc ih
  | writeByte s a v acc _ ih => exact WriteByte_bounded s a v acc ih
  | writeHalf s a v acc _ ih => exact WriteHalf_bounded s a v acc ih
  | writeWord s a v acc _ ih => exact WriteWord_bounded s a v acc ih
  | idle s _ ih =>
    unfold Idle
    split_ifs
    · exact PrefetchStep_bounded s 0 1 ih
    · exact Tick_bounded s 1 ih
  | tick s c _ ih => exact Tick_bounded s c ih
  | prefetchStep s a c _ ih => exact PrefetchStep_bounded s a c ih
  | cpu s r15 thumb _ ih => exact ih
  | waitcnt s w _ ih => exact ih

/-- The prefetch unit starts a fetch only while `count` is below the capacity of the current
CPU state. -/
theorem arbitrate_start (s : CPU) (a : Nat) (h0 : s.prefetch.active = false)
    (h1 : (PrefetchStep.arbitrate s a).prefetch.active = true) :
    s.prefetch.count < (if s.thumb = true then 8 else 4) := by
  unfold PrefetchStep.arbitrate at h1
  dsimp only at h1
  rw [if_neg (by simp [h0])] at h1
  by_contra hc
  rw [if_neg (by simp [hc])] at h1
  rw [h0] at h1
  cases h1

/-- C14, as stated, fails: the capacity bound is not an invariant across a switch of the CPU
state.  After reset, `WAITCNT.prefetch` set, a Thumb fetch at `0x08000000` and five prefetches
completed during idle cycles, the CPU switches to ARM state: the state is reachable, `count`
is 5 and the ARM capacity is 4. -/
theorem C14_counterexample :
    Reachable thumbToArmCPU ∧ thumbToArmCPU.thumb = false ∧
    thumbToArmCPU.prefetch.count = 5 ∧
    ¬ (thumbToArmCPU.prefetch.count ≤ (if thumbToArmCPU.thumb then 8 else 4)) :=
  ⟨thumbToArmCPU_reachable, thumbToArmCPU_eval⟩

/-- C14, amended.  In every state reachable from `Reset` through bus accesses, `Idle`, `Tick` and
`PrefetchStep` calls (with the CPU free to change `r15` and its Thumb flag between calls),
`0 <= prefetch.count <= 8`, so the count is within the capacity whenever the CPU is in Thumb
state; the capacity of the current CPU state (8 in Thumb, 4 in ARM) limits the start of a
fetch: a fetch is started only while `count` is below it.  After a switch from Thumb to ARM
state the count may stay above 4. -/
theorem C14_count_bound (s : CPU) (h : Reachable s) :
    s.prefetch.count ≤ 8 ∧
    (s.thumb = true → s.prefetch.count ≤ (if s.thumb = true then 8 else 4)) ∧
    (∀ a : Nat, s.prefetch.active = false →
      (PrefetchStep.arbitrate s a).prefetch.active = true →
      s.prefetch.count < (if s.thumb = true then 8 else 4)) := by
  have hb := (Reachable_bounded s h).1
  refine ⟨hb, ?_, fun a h0 h1 => arbitrate_start s a h0 h1⟩
  intro ht
  rw [if_pos ht]
  exact hb

/-- Witness of C14 amended: the reachable state `thumbToArmCPU`. -/
theorem C14_count_bound_witness : thumbToArmCPU.prefetch.count ≤ 8 :=
  (C14_count_bound thumbToArmCPU thumbToArmCPU_reachable).1

/-! ## The execution loop -/

theorem step_scheduled (env : Collaborators) (r : RunState) :
    (RunFor.step env r).scheduled = r.scheduled := by
  unfold RunFor.step
  dsimp only
  split_ifs <;> rfl

theorem inner_scheduled (env : Collaborators) (n : Nat) :
    ∀ r r' : RunState, RunFor.inner env n r = some r' → r'.scheduled = r.scheduled := by
  induction n with
  | zero =>
    intro r r' h
    unfold RunFor.inner at h
    split_ifs at h
    cases h
    rfl
  | succ n ih =>
    intro r r' h
    unfold RunFor.inner at h
    split_ifs at h
    · rw [ih _ _ h, step_scheduled]
    · cases h
      rfl

/-- What the outer loop of `RunFor` conserves: the values handed to the scheduler add up to the
decrease of the local variable `cycles`, which ends at zero or below. -/
theorem outer_conservation (env : Collaborators) (k n : Nat) :
    ∀ (cycles : Int) (r r' : RunState) (c : Int),
      RunFor.outer env k n cycles r = some (r', c) →
      r'.scheduled.sum = r.scheduled.sum + (cycles - c) ∧ c ≤ 0 := by
  induction n with
  | zero =>
    intro cycles r r' c h
    rw [RunFor.outer] at h
    by_cases hc : cycles > 0
    · rw [if_pos hc] at h
      cases h
    · rw [if_neg hc] at h
      cases h
      exact ⟨by ring, by omega⟩
  | succ n ih =>
    intro cycles r r' c h
    rw [RunFor.outer] at h
    by_cases hc : cycles > 0
    · rw [if_pos hc] at h
      cases hin : RunFor.inner env k (RunFor.arm r cycles) with
      | none =>
        rw [hin] at h
        cases h
      | some r2 =>
        rw [hin] at h
        obtain ⟨h1, h2⟩ := ih _ _ _ _ h
        have hs : r2.scheduled = r.scheduled := inner_scheduled env k (RunFor.arm r cycles) r2 hin
        have he : (RunFor.settle env r2).scheduled = r2.scheduled ++ [RunFor.elapsed r2] := rfl
        rw [h1, he, List.sum_append, hs]
        simp only [List.sum_cons, List.sum_nil]
        exact ⟨by ring, h2⟩
    · rw [if_neg hc] at h
      cases h
      exact ⟨by ring, by omega⟩

/-- The values a terminating call `RunFor(N)` hands to the scheduler add up to `N` plus the
carry on entry minus the final value of the local variable `cycles`. -/
theorem RunFor_conservation (env : Collaborators) (fuel : Nat) (s : CPU) (N : Int)
    (r : RunState) (c : Int) (h : RunFor env fuel s N = some (r, c)) :
    r.scheduled.sum = N + s.ticks_cpu_left - c ∧ c ≤ 0 := by
  unfold RunFor at h
  obtain ⟨h1, h2⟩ := outer_conservation env fuel fuel _ _ _ _ h
  refine ⟨?_, h2⟩
  rw [h1]
  simp

/-- C15 fails on the code: the carry `ticks_cpu_left` is not the remainder `cycles` of the
loop.  With the carry at -10, `RunFor(5)` runs no iteration: nothing is handed to the scheduler
and the carry stays -10, where the claim gives `5 + (-10) - (-10) = 5`.  With the carry at 0,
the next event 4 cycles away and an instruction of 20 cycles, `RunFor(10)` hands 20 to the
scheduler and ends with the carry at -16, where the claim gives `10 + 0 - (-16) = 26`. -/
theorem C15_carry_is_not_remainder :
    ((RunFor sampleEnv 10 { sampleCPU with ticks_cpu_left := -10 } 5).map
        (fun x => (x.1.scheduled.sum, x.1.cpu.ticks_cpu_left, x.2)) = some (0, -10, -5) ∧
     (0 : Int) ≠ 5 + (-10) - (-10)) ∧
    ((RunFor sampleEnv 10 { sampleCPU with ticks_cpu_left := 0, ticks_to_event := 4 } 10).map
        (fun x => (x.1.scheduled.sum, x.1.cpu.ticks_cpu_left, x.2)) = some (20, -16, -10) ∧
     (20 : Int) ≠ 10 + 0 - (-16)) := by
  decide

theorem Tick_haltcnt (s : CPU) (c : Int) : (Tick s c).haltcnt = s.haltcnt := by
  unfold Tick
  dsimp only
  split_ifs <;> rfl

/-- C16.  In an inner iteration of `RunFor` entered with `haltcnt = Halt`: the wake statement
switches the core to Run if and only if `(ie & if_) != 0`, whatever `ime` is and whether or not
DMA is running, and then, unless DMA runs, the CPU step is executed (after the IRQ entry when
`ime` is set); with `(ie & if_) == 0` the core stays halted and the iteration calls neither the
IRQ entry nor the CPU step: it calls `dma.Run` when DMA is running and `Tick` otherwise, after
which `haltcnt` is still Halt. -/
theorem C16_halt_release (env : Collaborators) (r : RunState)
    (hh : r.cpu.haltcnt = HaltControl.HALT) :
    ((RunFor.wake r.cpu).haltcnt = HaltControl.RUN ↔ r.cpu.irq_ie &&& r.cpu.irq_if ≠ 0) ∧
    (r.cpu.irq_ie &&& r.cpu.irq_if ≠ 0 → r.cpu.dma_running = false →
      (RunFor.step env r).calls =
        r.calls ++ (if r.cpu.irq_ime ≠ 0 then [Call.signalIRQ, Call.run] else [Call.run])) ∧
    (r.cpu.irq_ie &&& r.cpu.irq_if = 0 →
      (RunFor.wake r.cpu).haltcnt = HaltControl.HALT ∧
      (RunFor.step env r).calls =
        r.calls ++ (if r.cpu.dma_running then [Call.dmaRun r.cpu.ticks_cpu_left] else []) ∧
      (r.cpu.dma_running = false →
        (RunFor.step env r).cpu =
          Tick r.cpu (min (env.EstimateCyclesUntilIRQ r.cpu) r.cpu.ticks_cpu_left) ∧
        (RunFor.step env r).cpu.haltcnt = HaltControl.HALT)) := by
  refine ⟨?_, ?_, ?_⟩
  · unfold RunFor.wake
    constructor
    · intro h
      intro hf
      rw [if_neg (fun hc => hc.2 hf), hh] at h
      cases h
    · intro hf
      rw [if_pos ⟨hh, hf⟩]
  · intro hf hd
    have hw : RunFor.wake r.cpu = { r.cpu with haltcnt := HaltControl.RUN } := by
      unfold RunFor.wake
      rw [if_pos ⟨hh, hf⟩]
    unfold RunFor.step
    dsimp only
    rw [hw]
    simp only [hd, Bool.false_eq_true, if_false, if_true]
    split_ifs with h1 h2 h3
    · rfl
    · exact absurd h1.1 h2
    · exact absurd ⟨h3, hf⟩ h1
    · rfl
  · intro hf
    have hw : RunFor.wake r.cpu = r.cpu := by
      unfold RunFor.wake
      rw [if_neg (fun hc => hc.2 hf)]
    refine ⟨by rw [hw]; exact hh, ?_, ?_⟩
    · unfold RunFor.step
      dsimp only
      rw [hw]
      have hnr : r.cpu.haltcnt ≠ HaltControl.RUN := by
        rw [hh]
        decide
      cases hd : r.cpu.dma_running <;> simp [hnr]
    · intro hd
      have hnr : r.cpu.haltcnt ≠ HaltControl.RUN := by
        rw [hh]
        decide
      have hs : (RunFor.step env r).cpu =
          Tick r.cpu (min (env.EstimateCyclesUntilIRQ r.cpu) r.cpu.ticks_cpu_left) := by
        unfold RunFor.step
        dsimp only
        rw [hw]
        simp [hd, hnr]
      rw [hs, Tick_haltcnt]
      exact ⟨rfl, hh⟩

/-- Witness of C16: the halted core with interrupt 0 enabled and not pending stays halted and
makes no call; once the interrupt is pending, with `ime = 0`, the CPU step is called. -/
theorem C16_halt_release_witness :
    (RunFor.step sampleEnv { cpu := haltedCPU, calls := [], scheduled := [] }).calls = [] ∧
    (RunFor.step sampleEnv
       { cpu := haltedCPU, calls := [], scheduled := [] }).cpu.haltcnt = HaltControl.HALT ∧
    (RunFor.step sampleEnv
       { cpu := { haltedCPU with irq_if := 1 }, calls := [], scheduled := [] }).calls =
      [Call.run] := by
  have h := (C16_halt_release sampleEnv { cpu := haltedCPU, calls := [], scheduled := [] }
    rfl).2.2 (by decide)
  have g := (C16_halt_release sampleEnv
    { cpu := { haltedCPU with irq_if := 1 }, calls := [], scheduled := [] } rfl).2.1
    (by decide) rfl
  refine ⟨?_, (h.2.2 rfl).2, ?_⟩
  · rw [h.2.1]
    decide
  · rw [g]
    decide

/-! ## Claims on the single cases of a prefetch step -/

/-- A `Tick` that brings the countdown of the fetch in flight to zero or below completes the
fetch. -/
theorem Tick_complete (s : CPU) (c : Int) (ha : s.prefetch.active = true)
    (hc : s.prefetch.countdown - c ≤ 0) :
    (Tick s c).prefetch =
      { s.prefetch with
        countdown := s.prefetch.countdown - c
        count := s.prefetch.count + 1
        wr_pos := (s.prefetch.wr_pos + 1) % 8
        active := false } ∧
    (Tick s c).last_rom_address = s.last_rom_address := by
  unfold Tick
  simp [ha, hc]

/-- A `Tick` that leaves the countdown of the fetch in flight above zero only lowers it. -/
theorem Tick_pending (s : CPU) (c : Int) (ha : s.prefetch.active = true)
    (hc : 0 < s.prefetch.countdown - c) :
    (Tick s c).prefetch = { s.prefetch with countdown := s.prefetch.countdown - c } ∧
    (Tick s c).last_rom_address = s.last_rom_address := by
  have hn : ¬ (s.prefetch.countdown - c ≤ 0) := by omega
  unfold Tick
  simp [ha, hn]

/-- C22.  Hit on an active prefetch: whenever `prefetch.active` holds with countdown `c` and the
accessed address equals `prefetch.address[wr_pos]`, `PrefetchStep(address, cycles)` lowers
`ticks_cpu_left` by exactly `c` regardless of `cycles`, leaves `count`, `rd_pos` and `wr_pos` at
their values from before the call, ends with `active = false`, and sets `last_rom_address` to
the address. -/
theorem C22_hit_on_active (s : CPU) (a : Nat) (cycles c : Int)
    (hact : s.prefetch.active = true) (hcd : s.prefetch.countdown = c) (_hpos : 0 < c)
    (hhit : a = s.prefetch.address s.prefetch.wr_pos) :
    (PrefetchStep s a cycles).ticks_cpu_left = s.ticks_cpu_left - c ∧
    (PrefetchStep s a cycles).prefetch.count = s.prefetch.count ∧
    (PrefetchStep s a cycles).prefetch.rd_pos = s.prefetch.rd_pos ∧
    (PrefetchStep s a cycles).prefetch.wr_pos = s.prefetch.wr_pos ∧
    (PrefetchStep s a cycles).prefetch.active = false ∧
    (PrefetchStep s a cycles).last_rom_address = a := by
  have hcond : (s.prefetch.active && a == s.prefetch.address s.prefetch.wr_pos) = true := by
    simp [hact, hhit]
  obtain ⟨hp, -⟩ := Tick_complete s s.prefetch.countdown hact (by omega)
  unfold PrefetchStep
  rw [if_pos hcond]
  dsimp only
  rw [Tick_ticks, hp, hcd]
  exact ⟨rfl, rfl, rfl, rfl, rfl, rfl⟩

/-- Witness of C22: a fetch of `0x08000002` in flight with 2 cycles to go, hit by the access. -/
theorem C22_hit_on_active_witness :
    (PrefetchStep { prefetchCPU with prefetch := { prefetchCPU.prefetch with
        active := true, countdown := 2, address := fun _ => 0x08000002 } }
      0x08000002 3).ticks_cpu_left = 100 - 2 :=
  (C22_hit_on_active { prefetchCPU with prefetch := { prefetchCPU.prefetch with
        active := true, countdown := 2, address := fun _ => 0x08000002 } }
      0x08000002 3 2 rfl rfl (by decide) rfl).1

/-- The first two statements of a prefetch step at a ROM address that is not the target of the
fetch in flight: an active fetch is cancelled, the address is remembered, all else stays. -/
theorem arbitrate_track_rom (s : CPU) (a : Nat) (hrom : IsROMAddress a = true) :
    PrefetchStep.track (PrefetchStep.arbitrate s a) a =
      { s with prefetch := { s.prefetch with active := false }, last_rom_address := a } := by
  have harb : PrefetchStep.arbitrate s a =
      { s with prefetch := { s.prefetch with active := false } } := by
    unfold PrefetchStep.arbitrate
    dsimp only
    by_cases ha : s.prefetch.active = true
    · rw [if_pos ha, if_pos hrom]
    · rw [if_neg ha, if_neg (by simp [hrom])]
      have hf : s.prefetch.active = false := by simpa using ha
      have hp : ({ s.prefetch with active := false } : PrefetchBuffer) = s.prefetch := by
        rw [← hf]
      rw [hp]
  rw [track_rom _ a hrom, harb]

/-- C23.  Consume at PC: whenever `count > 0`, the accessed ROM address `a` equals `r15` and
equals `prefetch.address[rd_pos]`, and `a` is not the target of an in-flight fetch,
`PrefetchStep(a, cycles)` lowers `ticks_cpu_left` by exactly 1 whatever `cycles` is, decrements
`count` by 1, sets `rd_pos` to `(rd_pos + 1) mod 8`, leaves `wr_pos` unchanged, ends with
`active = false` and sets `last_rom_address` to `a`. -/
theorem C23_consume_at_pc (s : CPU) (a : Nat) (cycles : Int)
    (hc : 0 < s.prefetch.count) (hrom : IsROMAddress a = true) (hpc : a = s.r15)
    (hrd : a = s.prefetch.address s.prefetch.rd_pos)
    (hin : ¬ (s.prefetch.active = true ∧ a = s.prefetch.address s.prefetch.wr_pos)) :
    (PrefetchStep s a cycles).ticks_cpu_left = s.ticks_cpu_left - 1 ∧
    (PrefetchStep s a cycles).prefetch.count = s.prefetch.count - 1 ∧
    (PrefetchStep s a cycles).prefetch.rd_pos = (s.prefetch.rd_pos + 1) % 8 ∧
    (PrefetchStep s a cycles).prefetch.wr_pos = s.prefetch.wr_pos ∧
    (PrefetchStep s a cycles).prefetch.active = false ∧
    (PrefetchStep s a cycles).last_rom_address = a := by
  have hhit : ¬ ((s.prefetch.active && a == s.prefetch.address s.prefetch.wr_pos) = true) := by
    simpa using hin
  unfold PrefetchStep
  rw [if_neg hhit, arbitrate_track_rom s a hrom]
  have hcond : (decide (s.prefetch.count > 0) && a == s.r15) = true := by
    simp [hc, hpc]
  have heq : (a == s.prefetch.address s.prefetch.rd_pos) = true := by
    simpa using hrd
  unfold PrefetchStep.consume
  dsimp only
  rw [if_pos hcond, if_pos heq]
  have hT := Tick_inactive { s with
    prefetch := { s.prefetch with
      active := false, count := s.prefetch.count - 1, rd_pos := (s.prefetch.rd_pos + 1) % 8 }
    last_rom_address := a } 1 rfl
  rw [Tick_ticks, hT.1, hT.2]
  exact ⟨rfl, rfl, rfl, rfl, rfl, rfl⟩

/-- Witness of C23: the buffer holds the opcode at the program counter `0x08000002`. -/
theorem C23_consume_at_pc_witness :
    (PrefetchStep { prefetchCPU with
        r15 := 0x08000002,
        prefetch := { prefetchCPU.prefetch with
          count := 1, wr_pos := 1, address := fun _ => 0x08000002 } }
      0x08000002 3).ticks_cpu_left = 100 - 1 :=
  (C23_consume_at_pc { prefetchCPU with
        r15 := 0x08000002,
        prefetch := { prefetchCPU.prefetch with
          count := 1, wr_pos := 1, address := fun _ => 0x08000002 } }
      0x08000002 3 (by decide) (by decide) rfl rfl (by decide)).1

/-- With no fetch in flight the first statement of a prefetch step starts one exactly under the
four conditions of the source. -/
theorem arbitrate_start_iff (s : CPU) (a : Nat) (hna : s.prefetch.active = false) :
    (PrefetchStep.arbitrate s a).prefetch.active = true ↔
      (s.prefetch.count < (if s.thumb = true then 8 else 4) ∧ IsROMAddress s.r15 = true ∧
       IsROMAddress a = false ∧ s.r15 = s.last_rom_address) := by
  unfold PrefetchStep.arbitrate
  dsimp only
  rw [if_neg (by simp [hna])]
  by_cases hc : (decide (s.prefetch.count < if s.thumb = true then 8 else 4) &&
      IsROMAddress s.r15 && !IsROMAddress a && s.r15 == s.last_rom_address) = true
  · rw [if_pos hc]
    simp only [Bool.and_eq_true, decide_eq_true_eq, Bool.not_eq_true', beq_iff_eq] at hc
    exact ⟨fun _ => ⟨hc.1.1.1, hc.1.1.2, hc.1.2, hc.2⟩, fun _ => rfl⟩
  · rw [if_neg hc]
    constructor
    · intro h
      rw [hna] at h
      cases h
    · intro h
      exfalso
      apply hc
      simp only [Bool.and_eq_true, decide_eq_true_eq, Bool.not_eq_true', beq_iff_eq]
      exact ⟨⟨⟨h.1, h.2.1⟩, h.2.2.1⟩, h.2.2.2⟩

/-- The state after the first statement of a prefetch step that starts a fetch. -/
theorem arbitrate_started (s : CPU) (a : Nat) (hna : s.prefetch.active = false)
    (hst : (PrefetchStep.arbitrate s a).prefetch.active = true) :
    PrefetchStep.arbitrate s a =
      { s with prefetch := { s.prefetch with
          last_address :=
            ((if s.prefetch.count > 0 then s.prefetch.last_address else s.r15) +
              (if s.thumb = true then 2 else 4)) % 2 ^ 32
          active := true
          address := fun i =>
            if i = s.prefetch.wr_pos then
              ((if s.prefetch.count > 0 then s.prefetch.last_address else s.r15) +
                (if s.thumb = true then 2 else 4)) % 2 ^ 32
            else s.prefetch.address i
          countdown := (if s.thumb = true then s.cycles16 else s.cycles32) Access.Sequential
            ((((if s.prefetch.count > 0 then s.prefetch.last_address else s.r15) +
              (if s.thumb = true then 2 else 4)) % 2 ^ 32) >>> 24) } } := by
  have h := (arbitrate_start_iff s a hna).1 hst
  have hc : (decide (s.prefetch.count < if s.thumb = true then 8 else 4) &&
      IsROMAddress s.r15 && !IsROMAddress a && s.r15 == s.last_rom_address) = true := by
    simp only [Bool.and_eq_true, decide_eq_true_eq, Bool.not_eq_true', beq_iff_eq]
    exact ⟨⟨⟨h.1, h.2.1⟩, h.2.2.1⟩, h.2.2.2⟩
  unfold PrefetchStep.arbitrate
  dsimp only
  rw [if_neg (by simp [hna]), if_pos hc]

/-- C24.  Start of a prefetch: when no fetch is active, `PrefetchStep(address, cycles)` starts
one if and only if `count < capacity` (8 in Thumb, 4 in ARM), `r15` is a ROM address, `address`
is not a ROM address and `r15 == last_rom_address`.  When it starts one, with
`next = (count == 0 ? r15 : last_address) + (2 in Thumb, 4 in ARM)` in 32-bit arithmetic and
`cost = cycles16[Sequential][next >> 24]` in Thumb or `cycles32[Sequential][next >> 24]` in ARM,
it stores `next` in `prefetch.address[wr_pos]` and in `last_address`, and after the final tick
of the step the fetch has completed (`count + 1`, `wr_pos + 1 mod 8`, `active` false) exactly
when `cycles >= cost`, and otherwise is still active with `countdown = cost - cycles`. -/
theorem C24_prefetch_start (s : CPU) (a next : Nat) (cycles cost : Int)
    (hna : s.prefetch.active = false)
    (hnext : next =
      ((if s.prefetch.count = 0 then s.r15 else s.prefetch.last_address) +
        (if s.thumb = true then 2 else 4)) % 2 ^ 32)
    (hcost : cost =
      (if s.thumb = true then s.cycles16 Access.Sequential (next >>> 24)
       else s.cycles32 Access.Sequential (next >>> 24))) :
    ((PrefetchStep.arbitrate s a).prefetch.active = true ↔
      (s.prefetch.count < (if s.thumb = true then 8 else 4) ∧ IsROMAddress s.r15 = true ∧
       IsROMAddress a = false ∧ s.r15 = s.last_rom_address)) ∧
    ((PrefetchStep.arbitrate s a).prefetch.active = true →
      (PrefetchStep s a cycles).prefetch.address s.prefetch.wr_pos = next ∧
      (PrefetchStep s a cycles).prefetch.last_address = next ∧
      (cost ≤ cycles →
        (PrefetchStep s a cycles).prefetch.count = s.prefetch.count + 1 ∧
        (PrefetchStep s a cycles).prefetch.wr_pos = (s.prefetch.wr_pos + 1) % 8 ∧
        (PrefetchStep s a cycles).prefetch.active = false) ∧
      (cycles < cost →
        (PrefetchStep s a cycles).prefetch.active = true ∧
        (PrefetchStep s a cycles).prefetch.countdown = cost - cycles ∧
        (PrefetchStep s a cycles).prefetch.count = s.prefetch.count ∧
        (PrefetchStep s a cycles).prefetch.wr_pos = s.prefetch.wr_pos)) := by
  refine ⟨arbitrate_start_iff s a hna, ?_⟩
  intro hst
  obtain ⟨-, hr15, hnrom, -⟩ := (arbitrate_start_iff s a hna).1 hst
  have hne : a ≠ s.r15 := by
    intro h
    rw [h, hr15] at hnrom
    cases hnrom
  have hn2 : ((if s.prefetch.count > 0 then s.prefetch.last_address else s.r15) +
      (if s.thumb = true then 2 else 4)) % 2 ^ 32 = next := by
    rw [hnext]
    by_cases h0 : s.prefetch.count = 0
    · simp [h0]
    · have : s.prefetch.count > 0 := by omega
      simp [h0, this]
  have hc2 : (if s.thumb = true then s.cycles16 else s.cycles32) Access.Sequential
      (next >>> 24) = cost := by
    rw [hcost]
    split_ifs <;> rfl
  have harb := arbitrate_started s a hna hst
  rw [hn2, hc2] at harb
  have hhit : ¬ ((s.prefetch.active && a == s.prefetch.address s.prefetch.wr_pos) = true) := by
    simp [hna]
  have htrack : PrefetchStep.track (PrefetchStep.arbitrate s a) a = PrefetchStep.arbitrate s a := by
    unfold PrefetchStep.track
    rw [if_neg (by simp [hnrom])]
  have hstep : PrefetchStep s a cycles = Tick (PrefetchStep.arbitrate s a) cycles := by
    unfold PrefetchStep
    rw [if_neg hhit, htrack]
    unfold PrefetchStep.consume
    have hr : (PrefetchStep.arbitrate s a).r15 = s.r15 := (arbitrate_frame s a).2.2.2.2.1
    rw [if_neg (by rw [hr]; simp [hne])]
  rw [hstep, harb]
  by_cases hle : cost ≤ cycles
  · obtain ⟨hp, -⟩ := Tick_complete { s with prefetch := { s.prefetch with
        last_address := next, active := true
        address := fun i => if i = s.prefetch.wr_pos then next else s.prefetch.address i
        countdown := cost } } cycles rfl (by dsimp only; omega)
    rw [hp]
    refine ⟨by simp, rfl, fun _ => ⟨rfl, rfl, rfl⟩, fun h => by omega⟩
  · obtain ⟨hp, -⟩ := Tick_pending { s with prefetch := { s.prefetch with
        last_address := next, active := true
        address := fun i => if i = s.prefetch.wr_pos then next else s.prefetch.address i
        countdown := cost } } cycles rfl (by dsimp only; omega)
    rw [hp]
    refine ⟨by simp, rfl, fun h => absurd h hle, fun _ => ⟨rfl, rfl, rfl, rfl⟩⟩

/-- Witness of C24: Thumb state at `0x08000000`, the last ROM access there, an internal cycle
(address 0, one cycle): the fetch of `0x08000002` starts at cost 3 and is still in flight with
countdown 2. -/
theorem C24_prefetch_start_witness :
    (PrefetchStep.arbitrate { prefetchCPU with last_rom_address := 0x08000000 }
       0).prefetch.active = true ∧
    (PrefetchStep { prefetchCPU with last_rom_address := 0x08000000 } 0 1).prefetch.address 0 =
      0x08000002 ∧
    (PrefetchStep { prefetchCPU with last_rom_address := 0x08000000 } 0 1).prefetch.countdown =
      2 := by
  have h := C24_prefetch_start { prefetchCPU with last_rom_address := 0x08000000 } 0
    0x08000002 1 3 rfl (by decide) (by decide)
  have hst := h.1.2 (by decide)
  have g := h.2 hst
  exact ⟨hst, g.1, by rw [(g.2.2.2 (by decide)).2.1]; decide⟩

/-- C27.  `Idle()` always costs exactly one cycle: in every state in which the target of any
in-flight prefetch is a non-zero address, `Idle()` lowers `ticks_cpu_left` by exactly 1,
whether `WAITCNT.prefetch` is 0 or 1 and whatever `count`, `rd_pos`, `wr_pos`, `r15` and the
Thumb flag are. -/
theorem C27_idle_one_cycle (s : CPU)
    (h : s.prefetch.active = true → s.prefetch.address s.prefetch.wr_pos ≠ 0) :
    (Idle s).ticks_cpu_left = s.ticks_cpu_left - 1 := by
  have hhit : ¬ ((s.prefetch.active && (0 : Nat) == s.prefetch.address s.prefetch.wr_pos) =
      true) := by
    intro hc
    simp only [Bool.and_eq_true, beq_iff_eq] at hc
    exact h hc.1 hc.2.symm
  have ha : (PrefetchStep.arbitrate s 0).ticks_cpu_left = s.ticks_cpu_left := by
    unfold PrefetchStep.arbitrate
    dsimp only
    split_ifs <;> rfl
  have ht : ∀ t : CPU, (PrefetchStep.track t 0).ticks_cpu_left = t.ticks_cpu_left := by
    intro t
    unfold PrefetchStep.track
    split_ifs <;> rfl
  have hc : ∀ t : CPU, (PrefetchStep.consume t 0 1).ticks_cpu_left = t.ticks_cpu_left - 1 := by
    intro t
    unfold PrefetchStep.consume
    split_ifs <;> rw [Tick_ticks]
  unfold Idle
  split_ifs
  · unfold PrefetchStep
    rw [if_neg hhit, hc, ht, ha]
  · exact Tick_ticks s 1

/-- Witness of C27: an internal cycle that starts a prefetch costs one cycle. -/
theorem C27_idle_one_cycle_witness :
    (Idle { prefetchCPU with last_rom_address := 0x08000000 }).ticks_cpu_left = 100 - 1 :=
  C27_idle_one_cycle { prefetchCPU with last_rom_address := 0x08000000 } (by decide)

/-! ## The tables after Reset -/

/-- The tables after `Reset`: rows 0 to 7 and 0xF are those of the state before, rows 16 to 255
hold 1. -/
theorem Reset_tables (s : CPU) (skip_bios : Bool) (acc : Access) :
    (∀ r, r < 8 → (Reset s skip_bios).cycles16 acc r = s.cycles16 acc r ∧
                  (Reset s skip_bios).cycles32 acc r = s.cycles32 acc r) ∧
    (∀ r, 16 ≤ r → r ≤ 255 → (Reset s skip_bios).cycles16 acc r = 1 ∧
                               (Reset s skip_bios).cycles32 acc r = 1) := by
  constructor
  · intro r hr
    interval_cases r <;> cases acc <;> cases skip_bios <;>
      simp [Reset, UpdateCycleLUT, setRow]
  · intro r h1 h2
    have hc : 16 ≤ r ∧ r < 256 := ⟨h1, by omega⟩
    cases skip_bios <;> simp [Reset, hc]

theorem Reset_waitcnt (s : CPU) (skip_bios : Bool) :
    (Reset s skip_bios).waitcnt =
      { sram := 0, ws0_n := 0, ws0_s := 0, ws1_n := 0, ws1_s := 0, ws2_n := 0, ws2_s := 0,
        phi := 0, prefetch := false, cgb := false } := by
  cases skip_bios <;> rfl

/-- C21.  After `Reset` (all `WAITCNT` fields 0) of a core whose table rows 0x0 to 0x7 hold the
initial values, the cycle tables hold, for both access kinds: regions 0x0, 0x3, 0x4 and 0x7
cost 1 for 16-bit and 32-bit accesses; region 0x2 costs 3 for 16-bit and 6 for 32-bit; regions
0x5 and 0x6 cost 1 for 16-bit and 2 for 32-bit; every region code 16..255 costs 1 for both
widths.  Hence a 32-bit EWRAM read, the prefetch unit being disabled, lowers `ticks_cpu_left`
by exactly 6. -/
theorem C21_tables_after_reset (s : CPU) (skip_bios : Bool) (hh : headerRows s) :
    (Reset s skip_bios).waitcnt =
      { sram := 0, ws0_n := 0, ws0_s := 0, ws1_n := 0, ws1_s := 0, ws2_n := 0, ws2_s := 0,
        phi := 0, prefetch := false, cgb := false } ∧
    (∀ acc : Access,
      (∀ r, r = 0x0 ∨ r = 0x3 ∨ r = 0x4 ∨ r = 0x7 →
        (Reset s skip_bios).cycles16 acc r = 1 ∧ (Reset s skip_bios).cycles32 acc r = 1) ∧
      ((Reset s skip_bios).cycles16 acc 0x2 = 3 ∧ (Reset s skip_bios).cycles32 acc 0x2 = 6) ∧
      (∀ r, r = 0x5 ∨ r = 0x6 →
        (Reset s skip_bios).cycles16 acc r = 1 ∧ (Reset s skip_bios).cycles32 acc r = 2) ∧
      (∀ r, 16 ≤ r → r ≤ 255 →
        (Reset s skip_bios).cycles16 acc r = 1 ∧ (Reset s skip_bios).cycles32 acc r = 1)) ∧
    (∀ (a : Nat) (acc : Access), a >>> 24 = 0x2 →
      (ReadWord (Reset s skip_bios) a acc).2.ticks_cpu_left =
        (Reset s skip_bios).ticks_cpu_left - 6) := by
  have hw := Reset_waitcnt s skip_bios
  have key : ∀ acc : Access,
      (∀ r, r = 0x0 ∨ r = 0x3 ∨ r = 0x4 ∨ r = 0x7 →
        (Reset s skip_bios).cycles16 acc r = 1 ∧ (Reset s skip_bios).cycles32 acc r = 1) ∧
      ((Reset s skip_bios).cycles16 acc 0x2 = 3 ∧ (Reset s skip_bios).cycles32 acc 0x2 = 6) ∧
      (∀ r, r = 0x5 ∨ r = 0x6 →
        (Reset s skip_bios).cycles16 acc r = 1 ∧ (Reset s skip_bios).cycles32 acc r = 2) ∧
      (∀ r, 16 ≤ r → r ≤ 255 →
        (Reset s skip_bios).cycles16 acc r = 1 ∧ (Reset s skip_bios).cycles32 acc r = 1) := by
    intro acc
    obtain ⟨hlow, hhigh⟩ := Reset_tables s skip_bios acc
    obtain ⟨h0, h2, h3, h4, h5, h6, h7⟩ := hh acc
    refine ⟨?_, ?_, ?_, hhigh⟩
    · rintro r (rfl | rfl | rfl | rfl)
      · rw [(hlow 0 (by decide)).1, (hlow 0 (by decide)).2]; exact h0
      · rw [(hlow 3 (by decide)).1, (hlow 3 (by decide)).2]; exact h3
      · rw [(hlow 4 (by decide)).1, (hlow 4 (by decide)).2]; exact h4
      · rw [(hlow 7 (by decide)).1, (hlow 7 (by decide)).2]; exact h7
    · rw [(hlow 2 (by decide)).1, (hlow 2 (by decide)).2]; exact h2
    · rintro r (rfl | rfl)
      · rw [(hlow 5 (by decide)).1, (hlow 5 (by decide)).2]; exact h5
      · rw [(hlow 6 (by decide)).1, (hlow 6 (by decide)).2]; exact h6
  refine ⟨hw, key, ?_⟩
  intro a acc ha
  have hp : (Reset s skip_bios).waitcnt.prefetch = false := by rw [hw]
  have hlt : a < 0x10000000 := by
    rw [Nat.shiftRight_eq_div_pow] at ha
    omega
  rw [ReadWord_ticks _ a acc hp hlt, ha, (key acc).2.1.2, if_neg (by omega)]
  ring

/-- Witness of C21: the 32-bit read at `0x02000000` after the reset of `powerOnCPU`. -/
theorem C21_tables_after_reset_witness :
    headerRows powerOnCPU ∧
    (ReadWord (Reset powerOnCPU false) 0x02000000 Access.Nonsequential).2.ticks_cpu_left =
      (Reset powerOnCPU false).ticks_cpu_left - 6 := by
  have hh : headerRows powerOnCPU := by
    intro acc
    cases acc <;> decide
  exact ⟨hh, (C21_tables_after_reset powerOnCPU false hh).2.2 0x02000000 Access.Nonsequential
    (by decide)⟩

/-! ## Open bus with the program counter outside the handled regions -/

/-- C28.  In Thumb state, when `r15 >> 24` is 0x1, 0x4, 0xE, 0xF or 0x10 and more, the
open-bus value is 0 for every address, independent of the prefetched opcodes, and so is what a
read of any width returns from an unmapped address (region 0x1, a region code of 16 or more, or
region 0x0 from `0x4000` on). -/
theorem C28_open_bus_zero (s : CPU) (a : Nat) (acc : Access) (ht : s.thumb = true)
    (hr : s.r15 >>> 24 = 0x1 ∨ s.r15 >>> 24 = 0x4 ∨ s.r15 >>> 24 = 0xE ∨ s.r15 >>> 24 = 0xF ∨
          0x10 ≤ s.r15 >>> 24) :
    ReadUnused s a = 0 ∧
    (a >>> 24 = 1 ∨ 16 ≤ a >>> 24 ∨ (a >>> 24 = 0 ∧ 0x4000 ≤ a) →
      (ReadByte s a acc).1 = 0 ∧ (ReadHalf s a acc).1 = 0 ∧ (ReadWord s a acc).1 = 0) := by
  have hu : ∀ b, ReadUnused s b = 0 := by
    intro b
    unfold ReadUnused
    dsimp only
    rw [if_pos ht]
    generalize s.r15 >>> 24 = p at hr
    split <;> first | omega | simp
  refine ⟨hu a, ?_⟩
  obtain ⟨-, -, -, -, r16, t16, o16, -⟩ := accessTiming_frame s a (s.cycles16 acc (a >>> 24))
  obtain ⟨-, -, -, -, r32, t32, o32, -⟩ := accessTiming_frame s a (s.cycles32 acc (a >>> 24))
  have k16 := ReadUnused_congr s _ r16 t16 o16 a
  have k32 := ReadUnused_congr s _ r32 t32 o32 a
  rw [hu a] at k16 k32
  rintro (h | h | ⟨h, hge⟩)
  · unfold ReadByte ReadHalf ReadWord
    dsimp only
    generalize accessTiming s a (s.cycles16 acc (a >>> 24)) = t at k16
    generalize accessTiming s a (s.cycles32 acc (a >>> 24)) = u at k32
    simp only [h, k16, k32]
    trivial
  · obtain ⟨r8, r16', r32'⟩ := read_high s a acc h
    rw [r8, r16', r32', hu a]
    exact ⟨rfl, rfl, rfl⟩
  · have b16 := ReadBIOS_high (accessTiming s a (s.cycles16 acc (a >>> 24))) a h hge
    have b32 := ReadBIOS_high (accessTiming s a (s.cycles32 acc (a >>> 24))) a h hge
    rw [k16] at b16
    rw [k32] at b32
    unfold ReadByte ReadHalf ReadWord
    dsimp only
    generalize accessTiming s a (s.cycles16 acc (a >>> 24)) = t at b16
    generalize accessTiming s a (s.cycles32 acc (a >>> 24)) = u at b32
    simp only [h, b16, b32]
    trivial

/-- Witness of C28: Thumb state with the program counter in the MMIO region, word read at the
unmapped address `0x01000000`; the prefetched opcodes are `0xAAAA` and `0xBBBB`. -/
theorem C28_open_bus_zero_witness :
    (ReadWord { sampleCPU with thumb := true, r15 := 0x04000000 } 0x01000000
       Access.Nonsequential).1 = 0 :=
  ((C28_open_bus_zero { sampleCPU with thumb := true, r15 := 0x04000000 } 0x01000000
    Access.Nonsequential rfl (by decide)).2 (by decide)).2.2

/-! ## Non-sequential against sequential cost -/

theorem s_ws_bounds :
    (∀ i, 2 ≤ s_ws_nseq i) ∧ (∀ i, 1 ≤ s_ws_seq0 i ∧ s_ws_seq0 i ≤ 2) ∧
    (∀ i, 1 ≤ s_ws_seq1 i) ∧ (∀ i, 1 ≤ s_ws_seq2 i) := by
  refine ⟨?_, ?_, ?_, ?_⟩ <;> intro i <;> fin_cases i <;> decide

/-- Every ROM entry of the tables written by `UpdateCycleLUT` is positive: at least 2 for 16
bits and at least 4 for 32 bits. -/
theorem UpdateCycleLUT_rom_pos (s : CPU) (r : Nat) (acc : Access) (h8 : 8 ≤ r) (h13 : r ≤ 13) :
    2 ≤ (UpdateCycleLUT s).cycles16 acc r ∧ 4 ≤ (UpdateCycleLUT s).cycles32 acc r := by
  obtain ⟨⟨n8, n9, nA, nB, nC, nD⟩, ⟨q8, q9, qA, qB, qC, qD⟩, h32⟩ := UpdateCycleLUT_rom s
  obtain ⟨bn, b0, b1, b2⟩ := s_ws_bounds
  have e0 := bn s.waitcnt.ws0_n
  have e1 := bn s.waitcnt.ws1_n
  have e2 := bn s.waitcnt.ws2_n
  have f0 := (b0 s.waitcnt.ws0_s).1
  have f1 := b1 s.waitcnt.ws1_s
  have f2 := b2 s.waitcnt.ws2_s
  obtain ⟨w1, w2⟩ := h32 r h8 h13
  cases acc
  · rw [w1]
    interval_cases r <;> constructor <;> omega
  · rw [w2]
    interval_cases r <;> constructor <;> omega

theorem boundaryCPU_reachable : Reachable boundaryCPU := by
  unfold boundaryCPU
  dsimp only
  apply Reachable.cpu
  apply Reachable.tick
  apply Reachable.idle
  apply Reachable.readHalf
  apply Reachable.cpu
  apply Reachable.waitcnt
  apply Reachable.reset

theorem boundaryCPU_eval :
    boundaryCPU.waitcnt.prefetch = true ∧ boundaryCPU.prefetch.count = 1 ∧
    boundaryCPU.prefetch.address boundaryCPU.prefetch.rd_pos = 0x0C000000 ∧
    boundaryCPU.ticks_cpu_left = 86 ∧
    (ReadHalf boundaryCPU 0x0C000000 Access.Sequential).2.ticks_cpu_left = 89 ∧
    (ReadHalf boundaryCPU 0x0C000000 Access.Sequential).2.timer_log = [5, 1, 8, 1, -4] := by
  decide

/-- C26, as stated, fails.  At the all-zero `WAITCNT` that `Reset` installs, the tables written
by `UpdateCycleLUT` have in region 0xC a non-sequential cost below the sequential one (5 against
9 for 16 bits, 14 against 18 for 32 bits), and the sequential 16-bit read at `0x0C000000` passes
the penalty `-4` to `Tick` after the 9 cycles of the access.  With the prefetch unit enabled, in
a state reached from reset in which the opcode at `0x0C000000` has been prefetched, the same read
is served for 1 cycle and then refunded 4: `ticks_cpu_left` rises from 86 to 89. -/
theorem C26_counterexample :
    (lutCPU.cycles16 Access.Nonsequential 0xC = 5 ∧ lutCPU.cycles16 Access.Sequential 0xC = 9 ∧
     lutCPU.cycles32 Access.Nonsequential 0xC = 14 ∧
     lutCPU.cycles32 Access.Sequential 0xC = 18) ∧
    (ReadHalf lutCPU 0x0C000000 Access.Sequential).2.timer_log = [9, -4] ∧
    Reachable boundaryCPU ∧ boundaryCPU.ticks_cpu_left = 86 ∧
    (ReadHalf boundaryCPU 0x0C000000 Access.Sequential).2.ticks_cpu_left = 89 :=
  ⟨by decide, by decide, boundaryCPU_reachable, boundaryCPU_eval.2.2.2.1,
    boundaryCPU_eval.2.2.2.2.1⟩

/-- C26, amended.  For every `WAITCNT` value, after `UpdateCycleLUT` the non-sequential cost is
at least the sequential cost for both widths in the regions 0x8 and 0x9 of wait state 0; in
every ROM region 0x8 to 0xD the 32-bit costs compare as the 16-bit costs do, and every entry is
positive (at least 2 for 16 bits, at least 4 for 32 bits).  Hence with `WAITCNT.prefetch = 0` a
ROM read of any width and access kind lowers `ticks_cpu_left`, by at least 2, whether or not
the boundary penalty is negative. -/
theorem C26_rom_costs (s : CPU) :
    (∀ r, r = 0x8 ∨ r = 0x9 →
      (UpdateCycleLUT s).cycles16 Access.Sequential r ≤
        (UpdateCycleLUT s).cycles16 Access.Nonsequential r ∧
      (UpdateCycleLUT s).cycles32 Access.Sequential r ≤
        (UpdateCycleLUT s).cycles32 Access.Nonsequential r) ∧
    (∀ r, 8 ≤ r → r ≤ 13 →
      ((UpdateCycleLUT s).cycles32 Access.Sequential r ≤
          (UpdateCycleLUT s).cycles32 Access.Nonsequential r ↔
       (UpdateCycleLUT s).cycles16 Access.Sequential r ≤
          (UpdateCycleLUT s).cycles16 Access.Nonsequential r) ∧
      ∀ acc, 2 ≤ (UpdateCycleLUT s).cycles16 acc r ∧ 4 ≤ (UpdateCycleLUT s).cycles32 acc r) ∧
    (∀ (a : Nat) (acc : Access), s.waitcnt.prefetch = false → 8 ≤ a >>> 24 → a >>> 24 ≤ 13 →
      (ReadByte (UpdateCycleLUT s) a acc).2.ticks_cpu_left ≤
        (UpdateCycleLUT s).ticks_cpu_left - 2 ∧
      (ReadHalf (UpdateCycleLUT s) a acc).2.ticks_cpu_left ≤
        (UpdateCycleLUT s).ticks_cpu_left - 2 ∧
      (ReadWord (UpdateCycleLUT s) a acc).2.ticks_cpu_left ≤
        (UpdateCycleLUT s).ticks_cpu_left - 2) := by
  obtain ⟨⟨n8, n9, -⟩, ⟨q8, q9, -⟩, h32⟩ := UpdateCycleLUT_rom s
  obtain ⟨bn, b0, -⟩ := s_ws_bounds
  have e0 := bn s.waitcnt.ws0_n
  have f0 := b0 s.waitcnt.ws0_s
  refine ⟨?_, ?_, ?_⟩
  · rintro r (rfl | rfl)
    · obtain ⟨w1, w2⟩ := h32 8 (by decide) (by decide)
      rw [w1, w2]
      constructor <;> omega
    · obtain ⟨w1, w2⟩ := h32 9 (by decide) (by decide)
      rw [w1, w2]
      constructor <;> omega
  · intro r h8 h13
    obtain ⟨w1, w2⟩ := h32 r h8 h13
    refine ⟨?_, fun acc => UpdateCycleLUT_rom_pos s r acc h8 h13⟩
    rw [w1, w2]
    constructor <;> intro h <;> omega
  · intro a acc hp h8 h13
    have hp2 : (UpdateCycleLUT s).waitcnt.prefetch = false := hp
    have ha : a < 0x10000000 := by
      rw [Nat.shiftRight_eq_div_pow] at h13
      omega
    obtain ⟨pa16, pa32⟩ := UpdateCycleLUT_rom_pos s (a >>> 24) acc h8 h13
    obtain ⟨pn16, pn32⟩ := UpdateCycleLUT_rom_pos s (a >>> 24) Access.Nonsequential h8 h13
    rw [ReadByte_ticks _ a acc hp2 ha, ReadHalf_ticks _ a acc hp2 ha,
      ReadWord_ticks _ a acc hp2 ha]
    refine ⟨?_, ?_, ?_⟩ <;> split_ifs <;> omega

/-- Witness of C26: the sequential 16-bit read at `0x0C000000` with the all-zero `WAITCNT` and
the prefetch unit disabled; the penalty is `-4` and the read still lowers `ticks_cpu_left`. -/
theorem C26_rom_costs_witness :
    sampleCPU.waitcnt.prefetch = false ∧
    (ReadHalf (UpdateCycleLUT sampleCPU) 0x0C000000 Access.Sequential).2.ticks_cpu_left ≤
      (UpdateCycleLUT sampleCPU).ticks_cpu_left - 2 :=
  ⟨rfl, ((C26_rom_costs sampleCPU).2.2 0x0C000000 Access.Sequential rfl (by decide)
    (by decide)).2.1⟩

/-! ## Consistency of the prefetch ring -/

theorem ring_ite (c : Prop) [Decidable c] (A B : CPU)
    (hA : c → ringConsistent A.prefetch) (hB : ¬ c → ringConsistent B.prefetch) :
    ringConsistent (if c then A else B).prefetch := by
  split_ifs with h
  · exact hA h
  · exact hB h

theorem Tick_ring (s : CPU) (c : Int) (h : ringConsistent s.prefetch) :
    ringConsistent (Tick s c).prefetch := by
  obtain ⟨h1, h2, h3, h4, h5⟩ := h
  unfold Tick
  dsimp only
  apply ring_ite
  · intro ha
    have hlt := h4 ha
    apply ring_ite
    · intro _
      refine ⟨h1, ?_, ?_, fun hc => by simp at hc, ?_⟩ <;> dsimp only <;> omega
    · intro _
      exact ⟨h1, h2, h3, fun _ => hlt, h5⟩
  · intro _
    exact ⟨h1, h2, h3, h4, h5⟩

theorem arbitrate_ring (s : CPU) (a : Nat) (h : ringConsistent s.prefetch) :
    ringConsistent (PrefetchStep.arbitrate s a).prefetch := by
  obtain ⟨h1, h2, h3, h4, h5⟩ := h
  unfold PrefetchStep.arbitrate
  dsimp only
  apply ring_ite
  · intro _
    apply ring_ite
    · intro _
      exact ⟨h1, h2, h3, fun hc => by simp at hc, h5⟩
    · intro _
      exact ⟨h1, h2, h3, h4, h5⟩
  · intro _
    apply ring_ite
    · intro hs
      have hlt : s.prefetch.count < 8 := by
        simp only [Bool.and_eq_true, decide_eq_true_eq] at hs
        have := hs.1.1.1
        split_ifs at this <;> omega
      exact ⟨h1, h2, h3, fun _ => hlt, h5⟩
    · intro _
      exact ⟨h1, h2, h3, h4, h5⟩

theorem consume_ring (s : CPU) (a : Nat) (c : Int) (h : ringConsistent s.prefetch) :
    ringConsistent (PrefetchStep.consume s a c).prefetch := by
  obtain ⟨h1, h2, h3, h4, h5⟩ := h
  unfold PrefetchStep.consume
  split_ifs with hc
  · apply Tick_ring
    have hpos : 0 < s.prefetch.count := by
      simp only [Bool.and_eq_true, decide_eq_true_eq] at hc
      exact hc.1
    refine ⟨?_, h2, ?_, fun _ => ?_, ?_⟩ <;> dsimp only <;> omega
  · apply Tick_ring
    refine ⟨?_, ?_, ?_, fun hc => by simp at hc, ?_⟩ <;> dsimp only <;> omega
  · exact Tick_ring s c ⟨h1, h2, h3, h4, h5⟩

theorem PrefetchStep_ring (s : CPU) (a : Nat) (c : Int) (h : ringConsistent s.prefetch) :
    ringConsistent (PrefetchStep s a c).prefetch := by
  unfold PrefetchStep
  split_ifs with hhit
  · obtain ⟨h1, h2, h3, h4, h5⟩ := h
    have hact : s.prefetch.active = true := by
      simp only [Bool.and_eq_true] at hhit
      exact hhit.1
    have hlt := h4 hact
    have hrd : (Tick s s.prefetch.countdown).prefetch.rd_pos = s.prefetch.rd_pos := by
      unfold Tick
      dsimp only
      split_ifs <;> rfl
    have hfin : (Tick s s.prefetch.countdown).prefetch.active = false := by
      unfold Tick
      dsimp only
      rw [if_pos hact, if_pos (by omega)]
    refine ⟨?_, h2, h3, fun hc => ?_, ?_⟩
    · dsimp only
      rw [hrd]
      exact h1
    · dsimp only at hc
      rw [hfin] at hc
      cases hc
    · dsimp only
      rw [hrd]
      exact h5
  · apply consume_ring
    rw [track_prefetch]
    exact arbitrate_ring s a h

theorem accessTiming_ring (s : CPU) (a : Nat) (c : Int) (h : ringConsistent s.prefetch) :
    ringConsistent (accessTiming s a c).prefetch := by
  unfold accessTiming
  split_ifs
  · exact PrefetchStep_ring s a c h
  · exact Tick_ring s c h

theorem ReadByte_ring (s : CPU) (a : Nat) (acc : Access) (h : ringConsistent s.prefetch) :
    ringConsistent (ReadByte s a acc).2.prefetch := by
  have ht := accessTiming_ring s a (s.cycles16 acc (a >>> 24)) h
  unfold ReadByte
  dsimp only
  generalize accessTiming s a (s.cycles16 acc (a >>> 24)) = t at ht
  split <;> first
    | exact ht
    | (rw [ReadBIOS_prefetch]; exact ht)
    | (split_ifs <;> first | exact ht | exact Tick_ring _ _ ht)

theorem ReadHalfROM_ring (s : CPU) (a p : Nat) (acc : Access)
    (h : ringConsistent s.prefetch) : ringConsistent (ReadHalfROM s a acc p).2.prefetch := by
  unfold ReadHalfROM
  dsimp only
  split_ifs <;> first | exact h | exact Tick_ring _ _ h

theorem ReadHalf_ring (s : CPU) (a : Nat) (acc : Access) (h : ringConsistent s.prefetch) :
    ringConsistent (ReadHalf s a acc).2.prefetch := by
  have ht := accessTiming_ring s a (s.cycles16 acc (a >>> 24)) h
  unfold ReadHalf
  dsimp only
  generalize accessTiming s a (s.cycles16 acc (a >>> 24)) = t at ht
  split <;> first
    | exact ht
    | (rw [ReadBIOS_prefetch]; exact ht)
    | exact ReadHalfROM_ring _ _ _ _ ht
    | (split_ifs <;> first | exact ht | exact ReadHalfROM_ring _ _ _ _ ht)

theorem ReadWord_ring (s : CPU) (a : Nat) (acc : Access) (h : ringConsistent s.prefetch) :
    ringConsistent (ReadWord s a acc).2.prefetch := by
  have ht := accessTiming_ring s a (s.cycles32 acc (a >>> 24)) h
  unfold ReadWord
  dsimp only
  generalize accessTiming s a (s.cycles32 acc (a >>> 24)) = t at ht
  split <;> first
    | exact ht
    | (rw [ReadBIOS_prefetch]; exact ht)
    | (split_ifs <;> first | exact ht | exact Tick_ring _ _ ht)

theorem WriteByte_ring (s : CPU) (a v : Nat) (acc : Access)
    (h : ringConsistent s.prefetch) : ringConsistent (WriteByte s a v acc).prefetch := by
  have ht := accessTiming_ring s a (s.cycles16 acc (a >>> 24)) h
  unfold WriteByte
  dsimp only
  generalize accessTiming s a (s.cycles16 acc (a >>> 24)) = t at ht
  split <;> first
    | exact ht
    | (split_ifs <;> exact ht)

theorem WriteHalf_ring (s : CPU) (a v : Nat) (acc : Access)
    (h : ringConsistent s.prefetch) : ringConsistent (WriteHalf s a v acc).prefetch := by
  have ht := accessTiming_ring s a (s.cycles16 acc (a >>> 24)) h
  unfold WriteHalf
  dsimp only
  generalize accessTiming s a (s.cycles16 acc (a >>> 24)) = t at ht
  split <;> first
    | exact ht
    | (split_ifs <;> exact ht)

theorem WriteWord_ring (s : CPU) (a v : Nat) (acc : Access)
    (h : ringConsistent s.prefetch) : ringConsistent (WriteWord s a v acc).prefetch := by
  have ht := accessTiming_ring s a (s.cycles32 acc (a >>> 24)) h
  unfold WriteWord
  dsimp only
  generalize accessTiming s a (s.cycles32 acc (a >>> 24)) = t at ht
  split <;> first
    | exact ht
    | (split_ifs <;> exact ht)

/-- Every reachable state has a consistent prefetch ring. -/
theorem Reachable_ring (s : CPU) (h : Reachable s) : ringConsistent s.prefetch := by
  induction h with
  | reset s skip_bios =>
    obtain ⟨h1, h2, h3, h4, -⟩ := Reset_prefetch s skip_bios
    refine ⟨?_, ?_, ?_, fun hc => ?_, ?_⟩
    · rw [h3]; decide
    · rw [h4]; decide
    · rw [h2]; decide
    · rw [h1] at hc; cases hc
    · rw [h2, h3, h4]
  | readByte s a acc _ ih => exact ReadByte_ring s a acc ih
  | readHalf s a acc _ ih => exact ReadHalf_ring s a acc ih
  | readWord s a acc _ ih => exact ReadWord_ring s a acc ih
  | writeByte s a v acc _ ih => exact WriteByte_ring s a v acc ih
  | writeHalf s a v acc _ ih => exact WriteHalf_ring s a v acc ih
  | writeWord s a v acc _ ih => exact WriteWord_ring s a v acc ih
  | idle s _ ih =>
    unfold Idle
    split_ifs
    · exact PrefetchStep_ring s 0 1 ih
    · exact Tick_ring s 1 ih
  | tick s c _ ih => exact Tick_ring s c ih
  | prefetchStep s a c _ ih => exact PrefetchStep_ring s a c ih
  | cpu s r15 thumb _ ih => exact ih
  | waitcnt s w _ ih => exact ih

theorem consumedCPU_reachable : Reachable consumedCPU := by
  unfold consumedCPU
  apply Reachable.readHalf
  exact Reachable.cpu thumbToArmCPU 0x08000002 true thumbToArmCPU_reachable

/-- C25.  In every state reachable from `Reset` through `PrefetchStep`, `Idle` and `Tick` calls
(and through the six bus operations, changes of `r15` and of the Thumb flag, and writes to
`WAITCNT`), `rd_pos` and `wr_pos` are in 0..7, `0 <= count <= 8` and
`wr_pos == (rd_pos + count) mod 8`; in particular `rd_pos == wr_pos` whenever `count == 0`, and
the two indices into `prefetch.address[8]` are in bounds. -/
theorem C25_ring_consistency (s : CPU) (h : Reachable s) :
    (s.prefetch.rd_pos < 8 ∧ s.prefetch.wr_pos < 8) ∧
    (0 ≤ s.prefetch.count ∧ s.prefetch.count ≤ 8) ∧
    s.prefetch.wr_pos = (s.prefetch.rd_pos + s.prefetch.count) % 8 ∧
    (s.prefetch.count = 0 → s.prefetch.rd_pos = s.prefetch.wr_pos) := by
  obtain ⟨h1, h2, h3, -, h5⟩ := Reachable_ring s h
  refine ⟨⟨h1, h2⟩, ⟨Nat.zero_le _, h3⟩, h5, fun h0 => ?_⟩
  rw [h0] at h5
  omega

/-- Witness of C25: the state `consumedCPU`, with four filled slots from position 1 to
position 5. -/
theorem C25_ring_consistency_witness :
    Reachable consumedCPU ∧
    (consumedCPU.prefetch.rd_pos = 1 ∧ consumedCPU.prefetch.count = 4 ∧
     consumedCPU.prefetch.wr_pos = 5) ∧
    consumedCPU.prefetch.wr_pos =
      (consumedCPU.prefetch.rd_pos + consumedCPU.prefetch.count) % 8 :=
  ⟨consumedCPU_reachable, by decide,
    (C25_ring_consistency consumedCPU consumedCPU_reachable).2.2.1⟩

end NanoBoyAdvance
